import Mathlib

/-!
Verification of the convey-rs save-file decoder (src/lib.rs, src/property.rs,
src/save.rs, src/errors.rs) against its natural-language specification.

Modelling conventions (shallow embedding):
* The byte stream is a `List Nat` (each entry a byte value) together with a
  cursor position; a parser is `Rd α = List Nat → Nat → Except ParseErr (α × Nat)`.
  This mirrors `io::Cursor<Vec<u8>>` plus the `ReadSaveFileBytes` trait.
* Rust `String` values are modelled as `RStr = List Nat`, the list of Unicode
  scalar values (Rust strings are exactly sequences of scalar values).
  `encStr` turns a Lean string literal into this form.
* Machine integers: i32/i64 values are modelled as `Int` obtained by two's
  complement reinterpretation of the little-endian bytes; u8/u16/u32/u64 as `Nat`.
* f32/f64 fields are never interpreted arithmetically by the decoder, only
  stored; they are modelled by their raw little-endian bit patterns as `Nat`.
* Recursive parsers take an explicit fuel argument; exhausting fuel yields the
  embedding-only error `ParseErr.outOfFuel`.  For every finite input a large
  enough fuel exists, and all theorems are stated so that fuel is irrelevant
  (conditioned on success or instantiated concretely).
-/

namespace Convey

/-- Rust `String` model: list of Unicode scalar values. -/
abbrev RStr : Type := List Nat

/-- Encode a Lean string literal as the scalar-value list of the equal Rust string. -/
def encStr (s : String) : RStr := s.data.map Char.toNat

/-- Error taxonomy, mirroring `ParseError` in src/errors.rs (only the
constructors reachable from the embedded code), plus the embedding-only
`outOfFuel` marker produced when a recursion-fuel counter runs out. -/
inductive ParseErr : Type where
  | readErr : ParseErr
  | unsupportedFileVersion : Int → Int → ParseErr
  | utf8Err : ParseErr
  | utf16Err : ParseErr
  | missingObjectHeader : RStr → ParseErr
  | unknownObject : Int → ParseErr
  | objectLength : RStr → ParseErr
  | unknownPropertyType : RStr → ParseErr
  | unknownArrayElementType : RStr → ParseErr
  | unknownMapKeyType : RStr → ParseErr
  | unknownMapValueType : RStr → ParseErr
  | unknownSetType : RStr → ParseErr
  | unknownTextArgumentValueType : Nat → ParseErr
  | unknownTextHistoryType : Nat → ParseErr
  | missingInventoryItemProperty : RStr → ParseErr
  | unknownLuaProcessorStateStorageStructType : RStr → ParseErr
  | outOfFuel : ParseErr

/-- The reader: bytes, cursor position in, value and new position out. -/
def Rd (α : Type) : Type := List Nat → Nat → Except ParseErr (α × Nat)

instance : Monad Rd where
  pure a := fun _ p => .ok (a, p)
  bind x f := fun bs p =>
    match x bs p with
    | .ok (a, p2) => f a bs p2
    | .error e => .error e

/-- Raise a parse error. -/
def rdErr (e : ParseErr) : Rd α := fun _ _ => .error e

/-- Current stream position (`Seek::stream_position`). -/
def stream_position : Rd Nat := fun _ p => .ok (p, p)

/-- Read one byte (`read_u8`); fails with an io error past the end. -/
def read_u8 : Rd Nat := fun bs p =>
  match bs.get? p with
  | some b => .ok (b, p + 1)
  | none => .error .readErr

/-- Read `n` raw bytes (`read_exact` into a buffer of length `n`). -/
def read_bytes : Nat → Rd (List Nat)
  | 0 => pure []
  | n+1 => do
    let b ← read_u8
    let rest ← read_bytes n
    pure (b :: rest)

/-- Relative seek (`seek_relative`); like `io::Cursor` it may move past the
end of the buffer, but seeking before position 0 is an io error. -/
def seek_relative (n : Int) : Rd Unit := fun _ p =>
  if (p : Int) + n < 0 then .error .readErr
  else .ok ((), ((p : Int) + n).toNat)

/-- Assemble a little-endian unsigned value from a byte list. -/
def leVal : List Nat → Nat
  | [] => 0
  | b :: rest => b % 256 + 256 * leVal rest

/-- Read an unsigned 16-bit little-endian value. -/
def read_u16 : Rd Nat := do
  let bts ← read_bytes 2
  pure (leVal bts)

/-- Read an unsigned 32-bit little-endian value. -/
def read_u32 : Rd Nat := do
  let bts ← read_bytes 4
  pure (leVal bts)

/-- Read an unsigned 64-bit little-endian value. -/
def read_u64 : Rd Nat := do
  let bts ← read_bytes 8
  pure (leVal bts)

/-- Two's complement reinterpretation of an unsigned value of width `w` bits. -/
def toSigned (w : Nat) (u : Nat) : Int :=
  if u < 2 ^ (w - 1) then (u : Int) else (u : Int) - 2 ^ w

/-- Read a signed 8-bit value. -/
def read_i8 : Rd Int := do
  let b ← read_u8
  pure (toSigned 8 b)

/-- Read a signed 32-bit little-endian value. -/
def read_i32 : Rd Int := do
  let u ← read_u32
  pure (toSigned 32 u)

/-- Read a signed 64-bit little-endian value. -/
def read_i64 : Rd Int := do
  let u ← read_u64
  pure (toSigned 64 u)

/-- Read an f32 as its raw 32-bit pattern (the decoder never computes with
floats, it only stores them). -/
def read_f32 : Rd Nat := read_u32

/-- Read an f64 as its raw 64-bit pattern. -/
def read_f64 : Rd Nat := read_u64

/-- Read `n` little-endian 16-bit code units (`read_u16_into`). -/
def read_u16_units : Nat → Rd (List Nat)
  | 0 => pure []
  | n+1 => do
    let u ← read_u16
    let rest ← read_u16_units n
    pure (u :: rest)

/-! ### UTF-8 and UTF-16, as validated by `String::from_utf8` / `String::from_utf16` -/

/-- A Unicode scalar value: what a Rust `char` may hold. -/
def ValidScalar (c : Nat) : Prop := c < 0xD800 ∨ (0xE000 ≤ c ∧ c < 0x110000)

instance (c : Nat) : Decidable (ValidScalar c) := by
  unfold ValidScalar; infer_instance

/-- Standard UTF-8 encoding of one scalar value. -/
def utf8EncodeChar (c : Nat) : List Nat :=
  if c < 0x80 then [c]
  else if c < 0x800 then [0xC0 + c / 64, 0x80 + c % 64]
  else if c < 0x10000 then [0xE0 + c / 4096, 0x80 + c / 64 % 64, 0x80 + c % 64]
  else [0xF0 + c / 262144, 0x80 + c / 4096 % 64, 0x80 + c / 64 % 64, 0x80 + c % 64]

/-- UTF-8 encoding of a scalar-value sequence. -/
def utf8Encode (s : RStr) : List Nat := (s : List Nat).flatMap utf8EncodeChar

/-- Is `b` a UTF-8 continuation byte? -/
def utf8Cont (b : Nat) : Bool := 0x80 ≤ b ∧ b < 0xC0

/-- One UTF-8 continuation byte after a 2-byte leader. -/
def utf8Take1 (b0 : Nat) : List Nat -> Option (Nat × List Nat)
  | b1 :: r2 =>
    if utf8Cont b1 then some ((b0 - 0xC0) * 64 + (b1 - 0x80), r2) else none
  | [] => none

/-- Two continuation bytes after a 3-byte leader, with the E0/ED shortest-form
and surrogate restrictions. -/
def utf8Take2 (b0 : Nat) : List Nat -> Option (Nat × List Nat)
  | b1 :: b2 :: r3 =>
    if (if b0 = 0xE0 then 0xA0 ≤ b1 ∧ b1 < 0xC0
        else if b0 = 0xED then 0x80 ≤ b1 ∧ b1 < 0xA0
        else utf8Cont b1 = true) ∧ utf8Cont b2 then
      some ((b0 - 0xE0) * 4096 + (b1 - 0x80) * 64 + (b2 - 0x80), r3)
    else none
  | _ => none

/-- Three continuation bytes after a 4-byte leader, with the F0/F4
restrictions. -/
def utf8Take3 (b0 : Nat) : List Nat -> Option (Nat × List Nat)
  | b1 :: b2 :: b3 :: r4 =>
    if (if b0 = 0xF0 then 0x90 ≤ b1 ∧ b1 < 0xC0
        else if b0 = 0xF4 then 0x80 ≤ b1 ∧ b1 < 0x90
        else utf8Cont b1 = true) ∧ utf8Cont b2 ∧ utf8Cont b3 then
      some ((b0 - 0xF0) * 262144 + (b1 - 0x80) * 4096 +
        (b2 - 0x80) * 64 + (b3 - 0x80), r4)
    else none
  | _ => none

/-- Decode one scalar value from the front of a UTF-8 byte list, with full
validation (shortest form, surrogate exclusion, range cap): exactly the
acceptance criteria of Rust String::from_utf8. -/
def utf8Step : List Nat -> Option (Nat × List Nat)
  | [] => none
  | b0 :: r =>
    if b0 < 0x80 then some (b0, r)
    else if 0xC2 ≤ b0 ∧ b0 ≤ 0xDF then utf8Take1 b0 r
    else if 0xE0 ≤ b0 ∧ b0 ≤ 0xEF then utf8Take2 b0 r
    else if 0xF0 ≤ b0 ∧ b0 ≤ 0xF4 then utf8Take3 b0 r
    else none

/-- Iterate `utf8Step`; every step consumes at least one byte, so fuel equal
to the list length always suffices (the fuel-exhausted arm is unreachable). -/
def utf8DecodeF : Nat -> List Nat -> Option (List Nat)
  | _, [] => some []
  | 0, _ :: _ => none
  | f+1, b0 :: r =>
    match utf8Step (b0 :: r) with
    | some (c, rest) => (utf8DecodeF f rest).map (fun t => c :: t)
    | none => none

/-- Full UTF-8 decoding of a byte list. -/
def utf8Decode (l : List Nat) : Option (List Nat) := utf8DecodeF l.length l

/-- Standard UTF-16 encoding of one scalar value (surrogate pair above U+FFFF). -/
def utf16EncodeChar (c : Nat) : List Nat :=
  if c < 0x10000 then [c]
  else [0xD800 + (c - 0x10000) / 1024, 0xDC00 + (c - 0x10000) % 1024]

/-- UTF-16 encoding of a scalar-value sequence into 16-bit code units. -/
def utf16Encode (s : RStr) : List Nat := (s : List Nat).flatMap utf16EncodeChar

/-- Combine a high surrogate with the following code unit. -/
def utf16Pair (u : Nat) : List Nat -> Option (Nat × List Nat)
  | u2 :: r2 =>
    if 0xDC00 ≤ u2 ∧ u2 < 0xE000 then
      some (0x10000 + (u - 0xD800) * 1024 + (u2 - 0xDC00), r2)
    else none
  | [] => none

/-- Decode one scalar value from the front of a UTF-16 code-unit list; lone
surrogates are rejected, exactly as by Rust String::from_utf16. -/
def utf16Step : List Nat -> Option (Nat × List Nat)
  | [] => none
  | u :: r =>
    if u < 0xD800 ∨ 0xE000 ≤ u then some (u, r)
    else if u < 0xDC00 then utf16Pair u r
    else none

/-- Iterate `utf16Step`; fuel equal to the unit count always suffices. -/
def utf16DecodeF : Nat -> List Nat -> Option (List Nat)
  | _, [] => some []
  | 0, _ :: _ => none
  | f+1, u :: r =>
    match utf16Step (u :: r) with
    | some (c, rest) => (utf16DecodeF f rest).map (fun t => c :: t)
    | none => none

/-- Full UTF-16 decoding of a code-unit list. -/
def utf16Decode (l : List Nat) : Option (List Nat) := utf16DecodeF l.length l

/-! ### String readers (src/lib.rs lines 188-229) -/

/-- `read_hex`: read `len` 16-bit code units and decode them as UTF-16. -/
def read_hex (len : Nat) : Rd RStr := do
  let units ← read_u16_units len
  match utf16Decode units with
  | some s => pure s
  | none => rdErr .utf16Err

/-- `read_length_prefixed_string` (src/lib.rs lines 204-221): a signed 32-bit
length `n`; `n > 0` means `n` UTF-8 bytes, `n < 0` means `|n|` UTF-16 code
units, `n == 0` the empty string; `String::pop` removes the final character. -/
def read_length_prefixed_string : Rd RStr := do
  let len ← read_i32
  if len > 0 then
    let dst ← read_bytes len.toNat
    match utf8Decode dst with
    | some s => pure ((s : List Nat).dropLast)
    | none => rdErr .utf8Err
  else if len < 0 then
    let s ← read_hex len.natAbs
    pure ((s : List Nat).dropLast)
  else
    pure []

/-- `seek_length_prefixed_string`: skip `|n|` bytes after the length word. -/
def seek_length_prefixed_string : Rd Unit := do
  let len ← read_i32
  seek_relative len.natAbs

section SanityChecks

example : utf8Decode (utf8Encode (encStr "None")) = some (encStr "None") := by decide

example : utf16Decode (utf16Encode [0x1F600, 65]) = some [0x1F600, 65] := by decide

/-- "Hi" in UTF-16 with a trailing NUL, length prefix -3 (3 code units). -/
example :
    read_length_prefixed_string
      [0xFD, 0xFF, 0xFF, 0xFF, 72, 0, 105, 0, 0, 0] 0 =
      .ok (encStr "Hi", 10) := rfl

example :
    read_length_prefixed_string [3, 0, 0, 0, 72, 105, 0] 0 =
      .ok (encStr "Hi", 7) := rfl

example : read_length_prefixed_string [0, 0, 0, 0, 9, 9] 0 = .ok (encStr "", 4) := rfl

end SanityChecks

/-! ### Data model (src/save.rs, src/property.rs)

Rust `HashMap` fields are modelled as association lists with
`HashMap::insert` semantics (replace the binding if the key is present,
otherwise append).  Single-constructor recursive records are inductives with
manually defined projections.  f32/f64 fields hold raw bit patterns (`Nat`). -/

abbrev AList (β : Type) : Type := List (RStr × β)

/-- `HashMap::insert`: replace an existing binding or append a new one. -/
def alInsert (k : RStr) (v : β) (m : AList β) : AList β :=
  if (m.map Prod.fst).contains k then
    m.map (fun kv => if kv.1 = k then (k, v) else kv)
  else m ++ [(k, v)]

/-- `HashMap::get`. -/
def alLookup (k : RStr) (m : AList β) : Option β :=
  (m.find? (fun kv => kv.1 = k)).map Prod.snd

structure Quaternion (α : Type) where
  x : α
  y : α
  z : α
  w : α

structure Vector2D (α : Type) where
  x : α
  y : α

structure Vector (α : Type) where
  x : α
  y : α
  z : α

structure Vector4 (α : Type) where
  a : α
  b : α
  c : α
  d : α

structure Color (α : Type) where
  red : α
  green : α
  blue : α
  alpha : α

structure ObjectReference where
  level_name : RStr
  path_name : RStr

def ObjectReference.dflt : ObjectReference := ⟨[], []⟩

/-- `FINNetworkTrace` (recursive through `prev`). -/
inductive FINNetworkTrace : Type where
  | mk (level_name : RStr) (path_name : RStr)
       (prev : Option FINNetworkTrace) (step : Option RStr)

structure FINGPUT1BufferPixel where
  character : RStr
  foreground_color : Color Nat
  background_color : Color Nat

structure FINGPUT1Buffer where
  x : Int
  y : Int
  size : Int
  name : RStr
  rtype : RStr
  length : Int
  buffer : List FINGPUT1BufferPixel
  unk_str_1 : RStr

structure InventoryItem where
  unk_int_1 : Int
  item_name : RStr
  level_name : RStr
  path_name : RStr

structure ItemAmount where
  unk_int_1 : Int
  unk_str_1 : RStr
  unk_int_2 : Int

structure StructPropertyBox where
  min : Vector Nat
  max : Vector Nat
  is_valid : Nat

structure StructPropertyRailroadTrackPosition where
  object : ObjectReference
  offset : Nat
  forward : Nat

structure FrameRange where
  begin_ : Int
  end_ : Int

/-- `Numeric`: container for scratch numbers of varying width. -/
inductive Numeric : Type where
  | intN : Int → Numeric
  | longN : Int → Numeric
  | floatN : Nat → Numeric
  | doubleN : Nat → Numeric

structure ByteProperty where
  rtype : RStr
  byte_value : Option Nat
  string_value : Option RStr

structure BaseHistory where
  namespace_ : RStr
  key : RStr
  value : RStr

structure StringTableEntryHistory where
  table_id : RStr
  text_key : RStr

structure NoneHistory where
  has_culture_invariant_string : Int
  value : RStr

mutual

inductive ArgumentHistory : Type where
  | mk (source_format : TextProperty) (num_arguments : Int)

inductive Argument : Type where
  | mk (name : RStr) (value_type : Nat) (value : TextProperty)

inductive TransformHistory : Type where
  | mk (source_text : TextProperty) (transform_type : Nat)

inductive TextPropertyHistory : Type where
  | baseH : BaseHistory → TextPropertyHistory
  | argumentH : ArgumentHistory → TextPropertyHistory
  | stringTableEntryH : StringTableEntryHistory → TextPropertyHistory
  | transformH : TransformHistory → TextPropertyHistory
  | noneH : NoneHistory → TextPropertyHistory
  | noneT : TextPropertyHistory

inductive TextProperty : Type where
  | mk (flags : Int) (history_type : Nat) (value : TextPropertyHistory)

end

def TextProperty.flags : TextProperty → Int
  | .mk f _ _ => f

def TextProperty.history_type : TextProperty → Nat
  | .mk _ h _ => h

def TextProperty.tvalue : TextProperty → TextPropertyHistory
  | .mk _ _ v => v

/-- `TextProperty::default()`: zero flags, zero history type, `None` history. -/
def TextProperty.dflt : TextProperty := .mk 0 0 .noneT

inductive SetPropertyValue : Type where
  | intSe : Int → SetPropertyValue
  | uint32Se : Nat → SetPropertyValue
  | objectSe : ObjectReference → SetPropertyValue
  | strSe : RStr → SetPropertyValue
  | vecSe : Vector Nat → SetPropertyValue
  | finNetworkTraceSe : FINNetworkTrace → SetPropertyValue

structure SetProperty where
  rtype : RStr
  values : List SetPropertyValue

mutual

inductive Property : Type where
  | mk (name : RStr) (rtype : RStr) (size : Int) (index : Int)
       (guid : Option RStr) (value : PropertyValue)

inductive PropertyValue : Type where
  | boolV : Nat → PropertyValue
  | int8V : Int → PropertyValue
  | intV : Int → PropertyValue
  | uint32V : Nat → PropertyValue
  | int64V : Int → PropertyValue
  | uint64V : Nat → PropertyValue
  | floatV : Nat → PropertyValue
  | doubleV : Nat → PropertyValue
  | stringV : RStr → PropertyValue
  | objectV : ObjectReference → PropertyValue
  | enumV : AList RStr → PropertyValue
  | byteV : ByteProperty → PropertyValue
  | textV : TextProperty → PropertyValue
  | arrayV : ArrayProperty → PropertyValue
  | mapV : MapProperty → PropertyValue
  | setV : SetProperty → PropertyValue
  | structV : RStr → StructPropertyValue → PropertyValue

inductive ArrayPropertyStructValue : Type where
  | inventoryItemA : InventoryItem → ArrayPropertyStructValue
  | guidA : RStr → ArrayPropertyStructValue
  | finNetworkTraceA : FINNetworkTrace → ArrayPropertyStructValue
  | vecA : Vector Nat → ArrayPropertyStructValue
  | linearColorA : Color Nat → ArrayPropertyStructValue
  | finGPUT1BufferPixelA : FINGPUT1BufferPixel → ArrayPropertyStructValue
  | propertiesA : List Property → ArrayPropertyStructValue
  | noneA : ArrayPropertyStructValue

inductive ArrayPropertyStruct : Type where
  | mk (size_bytes : Int) (rtype : RStr)
       (guid1 guid2 guid3 guid4 : Int) (value : ArrayPropertyStructValue)

inductive ArrayPropertyValue : Type where
  | byteAv : Nat → ArrayPropertyValue
  | boolAv : Nat → ArrayPropertyValue
  | intAv : Int → ArrayPropertyValue
  | longAv : Int → ArrayPropertyValue
  | floatAv : Nat → ArrayPropertyValue
  | enumAv : RStr → ArrayPropertyValue
  | strAv : RStr → ArrayPropertyValue
  | textAv : TextProperty → ArrayPropertyValue
  | objectAv : ObjectReference → ArrayPropertyValue
  | structAv : ArrayPropertyStructValue → ArrayPropertyValue

inductive ArrayProperty : Type where
  | mk (rtype : RStr) (struct_meta : Option ArrayPropertyStruct)
       (elements : List ArrayPropertyValue)

inductive MapPropertyKey : Type where
  | intK : Int → MapPropertyKey
  | longK : Int → MapPropertyKey
  | strK : RStr → MapPropertyKey
  | objectK : ObjectReference → MapPropertyKey
  | intVecK : Vector Int → MapPropertyKey
  | floatVecK : Vector Nat → MapPropertyKey
  | doubleVecK : Vector Nat → MapPropertyKey
  | propertiesK : List Property → MapPropertyKey

inductive MapPropertyValue : Type where
  | byteM : Nat → MapPropertyValue
  | boolM : Nat → MapPropertyValue
  | strM : RStr → MapPropertyValue
  | intM : Int → MapPropertyValue
  | longM : Int → MapPropertyValue
  | floatM : Nat → MapPropertyValue
  | doubleM : Nat → MapPropertyValue
  | textM : TextProperty → MapPropertyValue
  | objectM : ObjectReference → MapPropertyValue
  | structM : List Property → MapPropertyValue

inductive MapProperty : Type where
  | mk (key_type value_type : RStr) (mode_type : Int)
       (unk_mode_1 unk_mode_2 unk_mode_3 : Option RStr)
       (m_normal_index m_overflow_index m_filter_index : Option Int)
       (unk_float_1 unk_float_2 unk_float_3 unk_float_4 : Option Numeric)
       (unk_str_1 : Option RStr)
       (keys : List MapPropertyKey) (values : List MapPropertyValue)

inductive StructPropertyValue : Type where
  | colorS : Color Nat → StructPropertyValue
  | linearColorS : Color Nat → StructPropertyValue
  | floatVectorS : Vector Nat → StructPropertyValue
  | doubleVectorS : Vector Nat → StructPropertyValue
  | intVector2dS : Vector2D Int → StructPropertyValue
  | floatVector2dS : Vector2D Nat → StructPropertyValue
  | doubleVector2dS : Vector2D Nat → StructPropertyValue
  | intVector4S : Vector4 Int → StructPropertyValue
  | doubleVector4S : Vector4 Nat → StructPropertyValue
  | floatQuaternionS : Quaternion Nat → StructPropertyValue
  | doubleQuaternionS : Quaternion Nat → StructPropertyValue
  | boxS : StructPropertyBox → StructPropertyValue
  | railroadTrackPositionS : StructPropertyRailroadTrackPosition → StructPropertyValue
  | timerHandleS : RStr → StructPropertyValue
  | guidS : RStr → StructPropertyValue
  | inventoryItemS : StructPropertyInventoryItem → StructPropertyValue
  | fluidBoxS : Nat → StructPropertyValue
  | slateBrushS : RStr → StructPropertyValue
  | dateTimeS : Int → StructPropertyValue
  | finNetworkTraceS : FINNetworkTrace → StructPropertyValue
  | finLuaProcessorStateStorageS : FINLuaProcessorStateStorage → StructPropertyValue
  | ficFrameRangeS : FrameRange → StructPropertyValue
  | intPointS : Vector2D Int → StructPropertyValue
  | propertiesS : List Property → StructPropertyValue
  | noneSv : StructPropertyValue

inductive StructPropertyInventoryItem : Type where
  | mk (unk_int_1 : Int) (item_name : RStr) (object : ObjectReference)
       (property : Property)

inductive InventoryStack : Type where
  | mk (unk_str_1 unk_str_2 : RStr) (unk_int_1 unk_int_2 : Int)
       (unk_struct_1_t : RStr) (unk_struct_1_v : StructPropertyValue)
       (unk_str_3 : RStr)

inductive FINLuaProcessorStateStorageStructValue : Type where
  | vecL : Vector Nat → FINLuaProcessorStateStorageStructValue
  | linearColorL : Color Nat → FINLuaProcessorStateStorageStructValue
  | inventoryStackL : InventoryStack → FINLuaProcessorStateStorageStructValue
  | itemAmountL : ItemAmount → FINLuaProcessorStateStorageStructValue
  | finTrackGraphL : FINNetworkTrace → Int → FINLuaProcessorStateStorageStructValue
  | finGPUT1BufferL : FINGPUT1Buffer → FINLuaProcessorStateStorageStructValue

inductive FINLuaProcessorStateStorageStruct : Type where
  | mk (unk_int_1 : Int) (class_name : RStr)
       (value : FINLuaProcessorStateStorageStructValue)

inductive FINLuaProcessorStateStorage : Type where
  | mk (trace : List FINNetworkTrace) (reference : List ObjectReference)
       (thread : RStr) (globals : RStr)
       (structs : List FINLuaProcessorStateStorageStruct)

end

def Property.name : Property → RStr
  | .mk n _ _ _ _ _ => n

def Property.rtype : Property → RStr
  | .mk _ t _ _ _ _ => t

def Property.size : Property → Int
  | .mk _ _ s _ _ _ => s

def Property.index : Property → Int
  | .mk _ _ _ i _ _ => i

def Property.guid : Property → Option RStr
  | .mk _ _ _ _ g _ => g

def Property.pvalue : Property → PropertyValue
  | .mk _ _ _ _ _ v => v

def ArrayProperty.rtype : ArrayProperty → RStr
  | .mk t _ _ => t

def ArrayProperty.struct_meta : ArrayProperty → Option ArrayPropertyStruct
  | .mk _ m _ => m

def ArrayProperty.elements : ArrayProperty → List ArrayPropertyValue
  | .mk _ _ e => e


/-! ### Save-side structures (src/save.rs) -/

structure Header where
  save_header_version : Int
  save_file_version : Int
  build_version : Int
  map_name : RStr
  map_options : RStr
  session_name : RStr
  played_seconds : Int
  save_timestamp : Int
  session_visibility : Int
  editor_object_version : Int
  mod_metadata : RStr
  mod_flags : Int
  save_identifier : RStr
  is_partitioned_world : Int
  saved_data_hash : RStr
  is_creative_mode_enabled : Int

/-- `Partition`; `read_partitions` assigns two opaque integers besides the
levels map, so the record carries them (save.rs as shipped omits them, but
lib.rs requires them to exist). -/
structure Partition where
  unk_num_1 : Int
  unk_num_2 : Int
  levels : AList Nat

/-- `Partition::default()`. -/
def Partition.dflt : Partition := ⟨0, 0, []⟩

/-- `Partitions`: opaque preamble scalars plus the partition map. -/
structure Partitions where
  unk_str_1 : RStr
  unk_num_1 : Int
  unk_num_2 : Int
  unk_str_2 : RStr
  unk_num_3 : Int
  partitions : AList Partition

structure ComponentHeader where
  type_path : RStr
  root_object : Option RStr
  instance_name : RStr
  parent_actor_name : RStr

structure ActorHeader where
  type_path : RStr
  root_object : Option RStr
  instance_name : RStr
  needs_transform : Int
  rotation : Quaternion Nat
  position : Vector Nat
  scale : Vector Nat
  was_placed_in_level : Int

inductive ObjectHeader : Type where
  | componentH : ComponentHeader → ObjectHeader
  | actorH : ActorHeader → ObjectHeader

/-- `ObjectHeader::get_type_path`. -/
def ObjectHeader.get_type_path : ObjectHeader → RStr
  | .componentH c => c.type_path
  | .actorH a => a.type_path

inductive ObjectType : Type where
  | componentT : ObjectType
  | actorT : ObjectType

/-- `ObjectType::from_i32`: 0 is Component, 1 is Actor, others are unknown. -/
def ObjectType.from_i32 (value : Int) : Option ObjectType :=
  if value = 0 then some .componentT
  else if value = 1 then some .actorT
  else none

structure DroneTransportAction where
  name : RStr
  properties : List Property

structure DroneTransport where
  unk_int_1 : Int
  unk_int_2 : Int
  active_action : List DroneTransportAction
  action_queue : List DroneTransportAction

structure PlayerState where
  count : Int
  eos_id : Option RStr
  steam_id : Option RStr
  platform_id : Option RStr

structure Circuit where
  id : Int
  level_name : RStr
  path_name : RStr

structure Conveyor where
  length : Int
  name : RStr
  position : Nat

structure Locomotive where
  name : RStr
  unk_str_1 : RStr

structure LocomotiveExtra where
  count : Int
  elements : List Locomotive
  prev : ObjectReference
  next : ObjectReference

structure PowerLine where
  count : Int
  source : ObjectReference
  target : ObjectReference

structure Vehicle where
  name : RStr
  unk_str_1 : RStr

structure Extra (α : Type) where
  count : Int
  elements : List α

/-- `ObjectExtra`: never produced by the lib.rs decode path (no caller of
`set_extra` exists there), modelled for record fidelity. -/
inductive ObjectExtra : Type where
  | circuitE : Extra Circuit → ObjectExtra
  | conveyorE : Extra Conveyor → ObjectExtra
  | droneTransportE : DroneTransport → ObjectExtra
  | gameE : Extra ObjectReference → ObjectExtra
  | locomotiveE : LocomotiveExtra → ObjectExtra
  | playerStateE : PlayerState → ObjectExtra
  | powerLineE : PowerLine → ObjectExtra
  | vehicleE : Extra Vehicle → ObjectExtra

structure ComponentObject where
  should_be_nulled : Bool
  save_version : Int
  size_bytes : Int
  properties : List Property
  missing : Option RStr
  extra : Option ObjectExtra

structure ActorObject where
  should_be_nulled : Bool
  save_version : Int
  size_bytes : Int
  parent_object_root : RStr
  parent_object_name : RStr
  num_components : Int
  components : List ObjectReference
  properties : List Property
  missing : Option RStr
  extra : Option ObjectExtra

inductive Object : Type where
  | componentO : ComponentObject → Object
  | actorO : ActorObject → Object

/-- Which header/body variant an object is, for the alignment invariant. -/
inductive ObjVariant : Type where
  | componentVar : ObjVariant
  | actorVar : ObjVariant
deriving DecidableEq

def ObjectHeader.variant : ObjectHeader → ObjVariant
  | .componentH _ => .componentVar
  | .actorH _ => .actorVar

def Object.variant : Object → ObjVariant
  | .componentO _ => .componentVar
  | .actorO _ => .actorVar

structure Level where
  name : RStr
  object_headers : List ObjectHeader
  collectables : List ObjectReference
  objects : List Object

structure Save where
  header : Header
  partitions : Partitions
  levels : List Level

/-- `Object::set_save_version`. -/
def Object.set_save_version (o : Object) (v : Int) : Object :=
  match o with
  | .componentO c => .componentO { c with save_version := v }
  | .actorO a => .actorO { a with save_version := v }

/-- `Object::set_size_bytes`. -/
def Object.set_size_bytes (o : Object) (v : Int) : Object :=
  match o with
  | .componentO c => .componentO { c with size_bytes := v }
  | .actorO a => .actorO { a with size_bytes := v }

/-- `Object::set_should_be_nulled`. -/
def Object.set_should_be_nulled (o : Object) : Object :=
  match o with
  | .componentO c => .componentO { c with should_be_nulled := true }
  | .actorO a => .actorO { a with should_be_nulled := true }

/-- `Object::add_property`. -/
def Object.add_property (o : Object) (p : Property) : Object :=
  match o with
  | .componentO c => .componentO { c with properties := c.properties ++ [p] }
  | .actorO a => .actorO { a with properties := a.properties ++ [p] }

/-- `Object::add_property` mapped over a list. -/
def Object.add_properties (o : Object) (ps : List Property) : Object :=
  ps.foldl Object.add_property o

def ComponentObject.dflt : ComponentObject := ⟨false, 0, 0, [], none, none⟩

def ActorObject.dflt : ActorObject := ⟨false, 0, 0, [], [], 0, [], [], none, none⟩

/-! ### Rust `str::replace(pat, "")`, non-overlapping left-to-right.

The fuel argument only serves structural recursion; `stripAll` supplies
`s.length`, which always suffices because every step consumes at least one
element. -/

def stripAllF (pat : List Nat) : Nat → List Nat → List Nat
  | 0, s => s
  | _+1, [] => []
  | f+1, a :: rest =>
    if pat.isPrefixOf (a :: rest) ∧ pat ≠ [] then
      stripAllF pat f ((a :: rest).drop pat.length)
    else a :: stripAllF pat f rest

/-- `s.replace(pat, "")`: remove all non-overlapping occurrences of `pat`. -/
def stripAll (pat s : RStr) : RStr := stripAllF pat (s : List Nat).length s

example : stripAll (encStr "Property") (encStr "IntProperty") = encStr "Int" := by decide

example :
    stripAll (encStr "Property") (encStr "PropertyPropPropertyerty") =
      encStr "Property" := by decide

/-! ### Loop combinators

Rust `for` ranges over `i32` counts become `Nat` iteration counts via
`Int.toNat` (negative counts iterate zero times, exactly like empty Rust
ranges).  Loop bodies are closures over already-defined parsers, so the
combinators themselves are not part of any recursion. -/

/-- Run `body` `n` times, collecting the results (a `for` loop of pushes). -/
def repN : Nat → Rd α → Rd (List α)
  | 0, _ => pure []
  | n+1, body => do
    let a ← body
    let rest ← repN n body
    pure (a :: rest)

/-- Run `body` `n` times, threading a state (a `for` loop of updates). -/
def foldN : Nat → (σ → Rd σ) → σ → Rd σ
  | 0, _, st => pure st
  | n+1, body, st => do
    let st2 ← body st
    foldN n body st2

/-- Run `body` at most `n` times, threading a state; a `false` flag from the
body exits early (a `for` loop containing `break`). -/
def foldBrN : Nat → (σ → Rd (σ × Bool)) → σ → Rd σ
  | 0, _, st => pure st
  | n+1, body, st => do
    let (st2, keep_going) ← body st
    if keep_going then foldBrN n body st2 else pure st2

/-- `while let Some(x) = body { ... }`: collect until the body yields `none`.
The fuel bounds the number of iterations (embedding artifact). -/
def whileSome : Nat → Rd (Option α) → Rd (List α)
  | 0, _ => rdErr .outOfFuel
  | f+1, body => do
    match ← body with
    | none => pure []
    | some a => do
      let rest ← whileSome f body
      pure (a :: rest)

/-! ### Header, object references, object headers (src/lib.rs lines 231-388) -/

/-- `read_header` (src/lib.rs lines 233-254). -/
def read_header : Rd Header := do
  let save_header_version ← read_i32
  let save_file_version ← read_i32
  let build_version ← read_i32
  let map_name ← read_length_prefixed_string
  let map_options ← read_length_prefixed_string
  let session_name ← read_length_prefixed_string
  let played_seconds ← read_i32
  let save_timestamp ← read_i64
  let session_visibility ← read_i8
  let editor_object_version ← read_i32
  let mod_metadata ← read_length_prefixed_string
  let mod_flags ← read_i32
  let save_identifier ← read_length_prefixed_string
  let is_partitioned_world ← read_i32
  let saved_data_hash ← read_hex 10
  let is_creative_mode_enabled ← read_i32
  pure {
    save_header_version, save_file_version, build_version, map_name,
    map_options, session_name, played_seconds, save_timestamp,
    session_visibility, editor_object_version, mod_metadata, mod_flags,
    save_identifier, is_partitioned_world, saved_data_hash,
    is_creative_mode_enabled }

/-- One iteration of the `read_partitions` record loop (src/lib.rs lines
307-322): decode a key and a full Partition record, then insert a
default-constructed Partition under the key, discarding the decoded record. -/
def read_partition_record (m : AList Partition) : Rd (AList Partition) := do
  let key ← read_length_prefixed_string
  let unk_num_1 ← read_i32
  let unk_num_2 ← read_i32
  let num_levels ← read_i32
  let levels ← foldN num_levels.toNat
    (fun lv => do
      let level_key ← read_length_prefixed_string
      let level_value ← read_u32
      pure (alInsert level_key level_value lv)) []
  let _decoded : Partition := { unk_num_1, unk_num_2, levels }
  pure (alInsert key Partition.dflt m)

/-- `read_partitions` (src/lib.rs lines 298-324); the record loop runs
`num_partitions - 1` times (`for _ in 1..num_partitions`). -/
def read_partitions : Rd Partitions := do
  let num_partitions ← read_i32
  let unk_str_1 ← read_length_prefixed_string
  let unk_num_1 ← read_i64
  let unk_num_2 ← read_i32
  let unk_str_2 ← read_length_prefixed_string
  let unk_num_3 ← read_i32
  let partitions ← foldN (num_partitions - 1).toNat read_partition_record []
  pure { unk_str_1, unk_num_1, unk_num_2, unk_str_2, unk_num_3, partitions }

/-- `read_object_reference` (src/lib.rs lines 330-340) specialised to a
default `ObjectReference` target: `set_level_name` is skipped exactly when
the decoded level name equals the map name, leaving the default empty
string. -/
def read_object_reference (map_name : RStr) : Rd ObjectReference := do
  let level_name ← read_length_prefixed_string
  let path_name ← read_length_prefixed_string
  pure { level_name := if level_name = map_name then [] else level_name,
         path_name }

/-- `read_object_reference` specialised to a header target, where
`set_level_name` stores into the `root_object` option and `set_path_name`
into `instance_name`; returns the (root_object, instance_name) pair. -/
def read_object_reference_header (map_name : RStr) : Rd (Option RStr × RStr) := do
  let level_name ← read_length_prefixed_string
  let path_name ← read_length_prefixed_string
  pure (if level_name = map_name then none else some level_name, path_name)

/-- `read_component_header` (src/lib.rs lines 343-351). -/
def read_component_header (map_name : RStr) : Rd ComponentHeader := do
  let type_path ← read_length_prefixed_string
  let (root_object, instance_name) ← read_object_reference_header map_name
  let parent_actor_name ← read_length_prefixed_string
  pure { type_path, root_object, instance_name, parent_actor_name }

/-- `read_quaternion` with f32 components (bit patterns). -/
def read_quaternion : Rd (Quaternion Nat) := do
  let x ← read_f32
  let y ← read_f32
  let z ← read_f32
  let w ← read_f32
  pure { x, y, z, w }

/-- `read_quaternion_double`. -/
def read_quaternion_double : Rd (Quaternion Nat) := do
  let x ← read_f64
  let y ← read_f64
  let z ← read_f64
  let w ← read_f64
  pure { x, y, z, w }

/-- `read_vector2d_double`. -/
def read_vector2d_double : Rd (Vector2D Nat) := do
  let x ← read_f64
  let y ← read_f64
  pure { x, y }

/-- `read_vector2d_int`. -/
def read_vector2d_int : Rd (Vector2D Int) := do
  let x ← read_i32
  let y ← read_i32
  pure { x, y }

/-- `read_vector` (f32 components). -/
def read_vector : Rd (Vector Nat) := do
  let x ← read_f32
  let y ← read_f32
  let z ← read_f32
  pure { x, y, z }

/-- `read_vector_double`. -/
def read_vector_double : Rd (Vector Nat) := do
  let x ← read_f64
  let y ← read_f64
  let z ← read_f64
  pure { x, y, z }

/-- `read_vector_int`. -/
def read_vector_int : Rd (Vector Int) := do
  let x ← read_i32
  let y ← read_i32
  let z ← read_i32
  pure { x, y, z }

/-- `read_vector4_double`. -/
def read_vector4_double : Rd (Vector4 Nat) := do
  let a ← read_f64
  let b ← read_f64
  let c ← read_f64
  let d ← read_f64
  pure { a, b, c, d }

/-- `read_vector4_int`. -/
def read_vector4_int : Rd (Vector4 Int) := do
  let a ← read_i32
  let b ← read_i32
  let c ← read_i32
  let d ← read_i32
  pure { a, b, c, d }

/-- `read_color` (f32 components). -/
def read_color : Rd (Color Nat) := do
  let red ← read_f32
  let green ← read_f32
  let blue ← read_f32
  let alpha ← read_f32
  pure { red, green, blue, alpha }

/-- `read_color_byte`. -/
def read_color_byte : Rd (Color Nat) := do
  let red ← read_u8
  let green ← read_u8
  let blue ← read_u8
  let alpha ← read_u8
  pure { red, green, blue, alpha }

/-- `read_actor_header` (src/lib.rs lines 354-366). -/
def read_actor_header (map_name : RStr) : Rd ActorHeader := do
  let type_path ← read_length_prefixed_string
  let (root_object, instance_name) ← read_object_reference_header map_name
  let needs_transform ← read_i32
  let rotation ← read_quaternion
  let position ← read_vector
  let scale ← read_vector
  let was_placed_in_level ← read_i32
  pure { type_path, root_object, instance_name, needs_transform, rotation,
         position, scale, was_placed_in_level }

/-- `read_level_object_header` (src/lib.rs lines 370-377). -/
def read_level_object_header (map_name : RStr) : Rd ObjectHeader := do
  let object_type ← read_i32
  match ObjectType.from_i32 object_type with
  | some .componentT => do
    let c ← read_component_header map_name
    pure (.componentH c)
  | some .actorT => do
    let a ← read_actor_header map_name
    pure (.actorH a)
  | none => rdErr (.unknownObject object_type)

/-- `read_property_guid` (src/lib.rs lines 381-388). -/
def read_property_guid : Rd (Option RStr) := do
  let has_guid ← read_u8
  if has_guid = 0 then pure none
  else do
    let g ← read_hex 16
    pure (some g)

/-! ### Recursive sub-schema decoders (src/lib.rs lines 390-524, 950-1002) -/

/-- `read_fin_network_trace` (src/lib.rs lines 391-408). -/
def read_fin_network_trace : Nat → Rd FINNetworkTrace
  | 0 => rdErr .outOfFuel
  | f+1 => do
    let level_name ← read_length_prefixed_string
    let path_name ← read_length_prefixed_string
    let has_prev ← read_i32
    let prev ← if has_prev = 1 then do
        let t ← read_fin_network_trace f
        pure (some t)
      else pure none
    let has_step ← read_i32
    let step ← if has_step = 1 then do
        let s ← read_length_prefixed_string
        pure (some s)
      else pure none
    pure (.mk level_name path_name prev step)

/-- `read_fingput1_buffer_pixel` (src/lib.rs lines 411-419). -/
def read_fingput1_buffer_pixel : Rd FINGPUT1BufferPixel := do
  let character ← read_hex 2
  let foreground_color ← read_color
  let background_color ← read_color
  pure { character, foreground_color, background_color }

mutual

/-- `read_text_property` (src/lib.rs lines 950-1002).  In the argument
branch (history types 1 and 3) the decoded source format and arguments are
consumed from the stream but, exactly as in the source, never stored: the
returned property keeps the default `None` history value. -/
def read_text_property : Nat → Int → Rd TextProperty
  | 0, _ => rdErr .outOfFuel
  | f+1, build_version => do
    let flags ← read_i32
    let history_type ← read_u8
    if history_type = 0 then do
      let namespace_ ← read_length_prefixed_string
      let key ← read_length_prefixed_string
      let value ← read_length_prefixed_string
      pure (.mk flags history_type (.baseH { namespace_, key, value }))
    else if history_type = 1 ∨ history_type = 3 then do
      let _source_format ← read_text_property f build_version
      let num_arguments ← read_i32
      let _args ← repN num_arguments.toNat (read_text_argument f build_version)
      -- the local history is built but `property.value` is never assigned
      pure (.mk flags history_type .noneT)
    else if history_type = 10 then do
      let source_text ← read_text_property f build_version
      let transform_type ← read_u8
      pure (.mk flags history_type (.transformH (.mk source_text transform_type)))
    else if history_type = 11 then do
      let table_id ← read_length_prefixed_string
      let text_key ← read_length_prefixed_string
      pure (.mk flags history_type (.stringTableEntryH { table_id, text_key }))
    else if history_type = 255 then do
      let has_culture_invariant_string ← read_i32
      let value ← read_length_prefixed_string
      pure (.mk flags history_type (.noneH { has_culture_invariant_string, value }))
    else rdErr (.unknownTextHistoryType history_type)

/-- One argument record of the history-type 1/3 branch (src/lib.rs lines
968-978): a name, a value-type byte that must be 4, and a recursive Text. -/
def read_text_argument : Nat → Int → Rd Argument
  | 0, _ => rdErr .outOfFuel
  | f+1, build_version => do
    let name ← read_length_prefixed_string
    let value_type ← read_u8
    if value_type = 4 then do
      let v ← read_text_property f build_version
      pure (Argument.mk name value_type v)
    else rdErr (.unknownTextArgumentValueType value_type)

end

/-! ### The property engine (src/lib.rs lines 526-1122)

`read_set_property` does not recurse into the property grammar, so it sits
outside the mutual block; the remaining decoders are mutually recursive and
share a fuel argument that drops by one at every nested decoder call. -/

/-- Scratch state of the `read_map_property` pair loop: the map-level fields
the loop may set, plus the accumulated key and value lists. -/
structure MPScratch where
  m_normal_index : Option Int
  m_overflow_index : Option Int
  m_filter_index : Option Int
  unk_float_1 : Option Numeric
  unk_float_2 : Option Numeric
  unk_float_3 : Option Numeric
  unk_float_4 : Option Numeric
  unk_str_1 : Option RStr
  keys : List MapPropertyKey
  values : List MapPropertyValue

def MPScratch.init : MPScratch :=
  ⟨none, none, none, none, none, none, none, none, [], []⟩

/-- One 4-byte group of the `mFogOfWarRawData` special case (src/lib.rs
lines 626-633): of each group of four bytes only the third is kept. -/
def read_fog_group : Rd ArrayPropertyValue := do
  let _b0 ← read_u8
  let _b1 ← read_u8
  let b2 ← read_u8
  let _b3 ← read_u8
  pure (ArrayPropertyValue.byteAv b2)

/-- `read_set_property` (src/lib.rs lines 825-863). -/
def read_set_property (f : Nat) (parent_type : Option RStr) (header : Header) :
    Rd SetProperty := do
  let ptype := parent_type.getD []
  let rtype0 ← read_length_prefixed_string
  let rtype := stripAll (encStr "Property") rtype0
  seek_relative 5
  let num_elements ← read_i32
  let values ← repN num_elements.toNat (do
    if rtype = encStr "Int" then do
      let v ← read_i32
      pure (SetPropertyValue.intSe v)
    else if rtype = encStr "UInt32" then do
      let v ← read_u32
      pure (SetPropertyValue.uint32Se v)
    else if rtype = encStr "Name" ∨ rtype = encStr "String" then do
      let v ← read_length_prefixed_string
      pure (SetPropertyValue.strSe v)
    else if rtype = encStr "Object" then do
      let o ← read_object_reference header.map_name
      pure (SetPropertyValue.objectSe o)
    else if rtype = encStr "Struct" then
      if ptype = encStr "/Script/FactoryGame.FGFoilageRemoval" then do
        let v ← read_vector
        pure (SetPropertyValue.vecSe v)
      else do
        let t ← read_fin_network_trace f
        pure (SetPropertyValue.finNetworkTraceSe t)
    else rdErr (.unknownSetType rtype))
  pure { rtype, values }

mutual

/-- `read_property` (src/lib.rs lines 1005-1122): the core dispatcher.
Returns `none` exactly when the decoded property name is the sentinel
literal `"None"`; otherwise `read_property_tail` decodes the remaining
fields of the property record. -/
def read_property : Nat → Header → Option RStr → Rd (Option Property)
  | 0, _, _ => rdErr .outOfFuel
  | f+1, header, parent_type => do
    let name ← read_length_prefixed_string
    if name = encStr "None" then pure none
    else do
      let (rtype, size, index, guid, value) ←
        read_property_tail f header parent_type name
      pure (some (.mk name rtype size index guid value))

/-- The portion of `read_property` after the name check (src/lib.rs lines
1013-1112): the optional zero byte, the type tag with its "Property" suffix
stripped, size and index, and the per-kind payload dispatch. -/
def read_property_tail :
    Nat → Header → Option RStr → RStr →
      Rd (RStr × Int × Int × Option RStr × PropertyValue)
  | 0, _, _, _ => rdErr .outOfFuel
  | f+1, header, parent_type, name => do
    let extra_byte ← read_u8
    if extra_byte ≠ 0 then seek_relative (-1)
    let rtype0 ← read_length_prefixed_string
    let rtype := stripAll (encStr "Property") rtype0
    let size ← read_i32
    let index ← read_i32
    let (guid, value) ←
        (if rtype = encStr "Array" then do
          let a ← read_array_property f name header
          pure ((none : Option RStr), PropertyValue.arrayV a)
        else if rtype = encStr "Bool" then do
          let v ← read_u8
          let guid ← read_property_guid
          pure (guid, PropertyValue.boolV v)
        else if rtype = encStr "Byte" then do
          let btype ← read_length_prefixed_string
          if btype = encStr "None" then do
            let v ← read_u8
            pure (none, PropertyValue.byteV
              { rtype := btype, byte_value := some v, string_value := none })
          else do
            let s ← read_length_prefixed_string
            pure (none, PropertyValue.byteV
              { rtype := btype, byte_value := none, string_value := some s })
        else if rtype = encStr "Double" then do
          let guid ← read_property_guid
          let v ← read_f64
          pure (guid, PropertyValue.doubleV v)
        else if rtype = encStr "Enum" then do
          let ename ← read_length_prefixed_string
          let guid ← read_property_guid
          let eval_ ← read_length_prefixed_string
          pure (guid, PropertyValue.enumV (alInsert ename eval_ []))
        else if rtype = encStr "Float" then do
          let guid ← read_property_guid
          let v ← read_f32
          pure (guid, PropertyValue.floatV v)
        else if rtype = encStr "Int" then do
          let guid ← read_property_guid
          let v ← read_i32
          pure (guid, PropertyValue.intV v)
        else if rtype = encStr "Int8" then do
          let guid ← read_property_guid
          let v ← read_i8
          pure (guid, PropertyValue.int8V v)
        else if rtype = encStr "Int64" then do
          let guid ← read_property_guid
          let v ← read_i64
          pure (guid, PropertyValue.int64V v)
        else if rtype = encStr "Map" then do
          let m ← read_map_property f name parent_type header
          pure (none, PropertyValue.mapV m)
        else if rtype = encStr "Object" ∨ rtype = encStr "Interface" then do
          let guid ← read_property_guid
          let o ← read_object_reference header.map_name
          pure (guid, PropertyValue.objectV o)
        else if rtype = encStr "Set" then do
          let s ← read_set_property f parent_type header
          pure (none, PropertyValue.setV s)
        else if rtype = encStr "Str" ∨ rtype = encStr "Name" then do
          let guid ← read_property_guid
          let s ← read_length_prefixed_string
          pure (guid, PropertyValue.stringV s)
        else if rtype = encStr "Struct" then do
          let (st, sv) ← read_struct_property f parent_type header
          pure (none, PropertyValue.structV st sv)
        else if rtype = encStr "Text" then do
          let guid ← read_property_guid
          let t ← read_text_property f header.build_version
          pure (guid, PropertyValue.textV t)
        else if rtype = encStr "UInt32" then do
          let guid ← read_property_guid
          let v ← read_u32
          pure (guid, PropertyValue.uint32V v)
        else if rtype = encStr "UInt64" then do
          let guid ← read_property_guid
          let v ← read_u64
          pure (guid, PropertyValue.uint64V v)
        else rdErr (.unknownPropertyType rtype))
    pure (rtype, size, index, guid, value)

/-- `read_array_property_struct` (src/lib.rs lines 527-604). -/
def read_array_property_struct :
    Nat → Int → Header → Rd (ArrayPropertyStruct × List ArrayPropertyStructValue)
  | 0, _, _ => rdErr .outOfFuel
  | f+1, num_elements, header => do
    seek_length_prefixed_string
    seek_length_prefixed_string
    let size_bytes ← read_i32
    seek_relative 4
    let rtype ← read_length_prefixed_string
    let guid1 ← read_i32
    let guid2 ← read_i32
    let guid3 ← read_i32
    let guid4 ← read_i32
    seek_relative 1
    let elements ← repN num_elements.toNat (do
      if rtype = encStr "InventoryItem" then do
        let unk_int_1 ← read_i32
        let item_name ← read_length_prefixed_string
        let level_name ← read_length_prefixed_string
        let path_name ← read_length_prefixed_string
        pure (ArrayPropertyStructValue.inventoryItemA
          { unk_int_1, item_name, level_name, path_name })
      else if rtype = encStr "Guid" then do
        let g ← read_hex 16
        pure (ArrayPropertyStructValue.guidA g)
      else if rtype = encStr "FINNetworkTrace" then do
        let t ← read_fin_network_trace f
        pure (ArrayPropertyStructValue.finNetworkTraceA t)
      else if rtype = encStr "Vector" then do
        let v ← read_vector_double
        pure (ArrayPropertyStructValue.vecA v)
      else if rtype = encStr "LinearColor" then do
        let c ← read_color
        pure (ArrayPropertyStructValue.linearColorA c)
      else if rtype = encStr "FINGPUT1BufferPixel" then do
        let px ← read_fingput1_buffer_pixel
        pure (ArrayPropertyStructValue.finGPUT1BufferPixelA px)
      else do
        let properties ← whileSome f (read_property f header (some rtype))
        pure (ArrayPropertyStructValue.propertiesA properties))
    pure (.mk size_bytes rtype guid1 guid2 guid3 guid4 .noneA, elements)

/-- `read_array_property` (src/lib.rs lines 607-701). -/
def read_array_property : Nat → RStr → Header → Rd ArrayProperty
  | 0, _, _ => rdErr .outOfFuel
  | f+1, property_name, header => do
    let rtype0 ← read_length_prefixed_string
    let rtype := stripAll (encStr "Property") rtype0
    seek_relative 1
    let num_elements ← read_i32
    if rtype = encStr "Bool" then do
      let elements ← repN num_elements.toNat (do
        let v ← read_u8
        pure (ArrayPropertyValue.boolAv v))
      pure (.mk rtype none elements)
    else if rtype = encStr "Byte" then
      if property_name = encStr "mFogOfWarRawData" then do
        let elements ← repN (num_elements / 4).toNat read_fog_group
        pure (.mk rtype none elements)
      else do
        let elements ← repN num_elements.toNat (do
          let v ← read_u8
          pure (ArrayPropertyValue.byteAv v))
        pure (.mk rtype none elements)
    else if rtype = encStr "Int" then do
      let elements ← repN num_elements.toNat (do
        let v ← read_i32
        pure (ArrayPropertyValue.intAv v))
      pure (.mk rtype none elements)
    else if rtype = encStr "Int64" then do
      let elements ← repN num_elements.toNat (do
        let v ← read_i64
        pure (ArrayPropertyValue.longAv v))
      pure (.mk rtype none elements)
    else if rtype = encStr "Float" then do
      let elements ← repN num_elements.toNat (do
        let v ← read_f32
        pure (ArrayPropertyValue.floatAv v))
      pure (.mk rtype none elements)
    else if rtype = encStr "Enum" then do
      let elements ← repN num_elements.toNat (do
        let v ← read_length_prefixed_string
        pure (ArrayPropertyValue.enumAv v))
      pure (.mk rtype none elements)
    else if rtype = encStr "Str" then do
      -- the source also wraps Str elements in the Enum variant
      let elements ← repN num_elements.toNat (do
        let v ← read_length_prefixed_string
        pure (ArrayPropertyValue.enumAv v))
      pure (.mk rtype none elements)
    else if rtype = encStr "Text" then do
      let elements ← repN num_elements.toNat (do
        let t ← read_text_property f header.build_version
        pure (ArrayPropertyValue.textAv t))
      pure (.mk rtype none elements)
    else if rtype = encStr "Object" ∨ rtype = encStr "Interface" then do
      let elements ← repN num_elements.toNat (do
        let o ← read_object_reference header.map_name
        pure (ArrayPropertyValue.objectAv o))
      pure (.mk rtype none elements)
    else if rtype = encStr "SoftObject" then do
      let _ ← repN num_elements.toNat (do
        let _s1 ← read_length_prefixed_string
        let _s2 ← read_length_prefixed_string
        let _s3 ← read_length_prefixed_string
        pure ())
      pure (.mk rtype none [])
    else if rtype = encStr "Struct" then do
      let (struct_meta, elems) ← read_array_property_struct f num_elements header
      pure (.mk rtype (some struct_meta) (elems.map ArrayPropertyValue.structAv))
    else rdErr (.unknownArrayElementType rtype)

/-- `read_map_property` (src/lib.rs lines 704-822).  The pair loop threads
an `MPScratch`; the `break` statements of the source become a `false`
continue-flag, which exits before the key/value pair is pushed. -/
def read_map_property : Nat → RStr → Option RStr → Header → Rd MapProperty
  | 0, _, _, _ => rdErr .outOfFuel
  | f+1, property_name, parent_type, header => do
    let ptype := parent_type.getD []
    let key_type0 ← read_length_prefixed_string
    let key_type := stripAll (encStr "Property") key_type0
    let value_type0 ← read_length_prefixed_string
    let value_type := stripAll (encStr "Property") value_type0
    seek_relative 1
    let mode_type ← read_i32
    let (unk_mode_1, unk_mode_2, unk_mode_3) ←
      (if mode_type = 2 then do
        let m2 ← read_length_prefixed_string
        let m3 ← read_length_prefixed_string
        pure ((none : Option RStr), some m2, some m3)
      else if mode_type = 3 then do
        let m1 ← read_hex 9
        let m2 ← read_length_prefixed_string
        let m3 ← read_length_prefixed_string
        pure (some m1, some m2, some m3)
      else pure (none, none, none))
    let num_pairs ← read_i32
    let st ← foldBrN num_pairs.toNat (fun st => do
      let key ←
        (if key_type = encStr "Int" then do
          let v ← read_i32
          pure (MapPropertyKey.intK v)
        else if key_type = encStr "Int64" then do
          let v ← read_i64
          pure (MapPropertyKey.longK v)
        else if key_type = encStr "Name" ∨ key_type = encStr "Str" ∨
                key_type = encStr "Enum" then do
          let v ← read_length_prefixed_string
          pure (MapPropertyKey.strK v)
        else if key_type = encStr "Object" then do
          let o ← read_object_reference header.map_name
          pure (MapPropertyKey.objectK o)
        else if key_type = encStr "Struct" then
          if property_name = encStr "Destroyed_Foliage_Transform" then do
            let v ← read_vector_double
            pure (MapPropertyKey.doubleVecK v)
          else if ptype = encStr "/BuildGunUtilities/BGU_Subsystem.BGU_Subsystem_C" then do
            let v ← read_vector
            pure (MapPropertyKey.floatVecK v)
          else if property_name = encStr "mSaveData" ∨
                  property_name = encStr "mUnresolvedSaveData" then do
            let v ← read_vector_int
            pure (MapPropertyKey.intVecK v)
          else do
            let keys ← whileSome f (read_property f header none)
            pure (MapPropertyKey.propertiesK keys)
        -- the source reports the unknown key type with `value_type`
        else rdErr (.unknownMapKeyType value_type))
      if value_type = encStr "Byte" then
        if key_type = encStr "Str" then do
          let v ← read_length_prefixed_string
          pure ({ st with keys := st.keys ++ [key]
                          values := st.values ++ [MapPropertyValue.strM v] }, true)
        else do
          let v ← read_u8
          pure ({ st with keys := st.keys ++ [key]
                          values := st.values ++ [MapPropertyValue.byteM v] }, true)
      else if value_type = encStr "Bool" then do
        let v ← read_u8
        pure ({ st with keys := st.keys ++ [key]
                        values := st.values ++ [MapPropertyValue.boolM v] }, true)
      else if value_type = encStr "Int" then do
        let v ← read_i32
        pure ({ st with keys := st.keys ++ [key]
                        values := st.values ++ [MapPropertyValue.intM v] }, true)
      else if value_type = encStr "Int64" then do
        let v ← read_i64
        pure ({ st with keys := st.keys ++ [key]
                        values := st.values ++ [MapPropertyValue.longM v] }, true)
      else if value_type = encStr "Float" then do
        let v ← read_f32
        pure ({ st with keys := st.keys ++ [key]
                        values := st.values ++ [MapPropertyValue.floatM v] }, true)
      else if value_type = encStr "Double" then do
        let v ← read_f64
        pure ({ st with keys := st.keys ++ [key]
                        values := st.values ++ [MapPropertyValue.doubleM v] }, true)
      else if value_type = encStr "Str" then do
        let f1 ← read_f32
        let f2 ← read_f32
        let f3 ← read_f32
        let v ← read_length_prefixed_string
        pure ({ st with unk_float_1 := some (.floatN f1)
                        unk_float_2 := some (.floatN f2)
                        unk_float_3 := some (.floatN f3)
                        keys := st.keys ++ [key]
                        values := st.values ++ [MapPropertyValue.strM v] }, true)
      else if value_type = encStr "Object" then
        if ptype = encStr "/BuildGunUtilities/BGU_Subsystem.BGU_Subsystem_C" then do
          let f1 ← read_f32
          let f2 ← read_f32
          let f3 ← read_f32
          let f4 ← read_f32
          let s1 ← read_length_prefixed_string
          pure ({ st with unk_float_1 := some (.floatN f1)
                          unk_float_2 := some (.floatN f2)
                          unk_float_3 := some (.floatN f3)
                          unk_float_4 := some (.floatN f4)
                          unk_str_1 := some s1 }, false)
        else do
          let o ← read_object_reference header.map_name
          pure ({ st with keys := st.keys ++ [key]
                          values := st.values ++ [MapPropertyValue.objectM o] }, true)
      else if value_type = encStr "Struct" then
        if ptype = encStr "LBBalancerData" then do
          let n1 ← read_i32
          let n2 ← read_i32
          let n3 ← read_i32
          pure ({ st with m_normal_index := some n1
                          m_overflow_index := some n2
                          m_filter_index := some n3 }, false)
        else if ptype = encStr "/StorageStatsRoom/Sub_SR.Sub_SR_C" then do
          let d1 ← read_f64
          let d2 ← read_f64
          let d3 ← read_f64
          pure ({ st with unk_float_1 := some (.doubleN d1)
                          unk_float_2 := some (.doubleN d2)
                          unk_float_3 := some (.doubleN d3) }, false)
        else do
          let properties ← whileSome f (read_property f header none)
          pure ({ st with keys := st.keys ++ [key]
                          values := st.values ++ [MapPropertyValue.structM properties] }, true)
      else rdErr (.unknownMapValueType value_type)) MPScratch.init
    pure (.mk key_type value_type mode_type unk_mode_1 unk_mode_2 unk_mode_3
      st.m_normal_index st.m_overflow_index st.m_filter_index
      st.unk_float_1 st.unk_float_2 st.unk_float_3 st.unk_float_4 st.unk_str_1
      st.keys st.values)

/-- `read_struct_property` (src/lib.rs lines 866-947). -/
def read_struct_property : Nat → Option RStr → Header → Rd (RStr × StructPropertyValue)
  | 0, _, _ => rdErr .outOfFuel
  | f+1, parent_type, header => do
    let ptype := parent_type.getD []
    let rtype ← read_length_prefixed_string
    seek_relative 17
    let value ←
      (if rtype = encStr "Color" then do
        let c ← read_color_byte
        pure (StructPropertyValue.colorS c)
      else if rtype = encStr "LinearColor" then do
        let c ← read_color
        pure (StructPropertyValue.linearColorS c)
      else if rtype = encStr "Vector" ∨ rtype = encStr "Rotator" then
        if ptype = encStr "SpawnData" then do
          let v ← read_vector_double
          pure (StructPropertyValue.doubleVectorS v)
        else do
          let v ← read_vector
          pure (StructPropertyValue.floatVectorS v)
      else if rtype = encStr "Vector2D" then do
        let v ← read_vector2d_double
        pure (StructPropertyValue.doubleVector2dS v)
      else if rtype = encStr "IntVector4" then do
        let v ← read_vector4_int
        pure (StructPropertyValue.intVector4S v)
      else if rtype = encStr "Quat" then do
        let v ← read_quaternion_double
        pure (StructPropertyValue.doubleQuaternionS v)
      else if rtype = encStr "Vector4" then do
        let v ← read_vector4_double
        pure (StructPropertyValue.doubleVector4S v)
      else if rtype = encStr "Box" then do
        let min ← read_vector_double
        let max ← read_vector_double
        let is_valid ← read_u8
        pure (StructPropertyValue.boxS { min, max, is_valid })
      else if rtype = encStr "RailroadTrackPosition" then do
        let o ← read_object_reference header.map_name
        let offset ← read_f32
        let forward ← read_f32
        pure (StructPropertyValue.railroadTrackPositionS
          { object := o, offset, forward })
      else if rtype = encStr "TimerHandle" then do
        let s ← read_length_prefixed_string
        pure (StructPropertyValue.timerHandleS s)
      else if rtype = encStr "Guid" then do
        let g ← read_hex 16
        pure (StructPropertyValue.guidS g)
      else if rtype = encStr "InventoryItem" then do
        let unk_int_1 ← read_i32
        let item_name ← read_length_prefixed_string
        let o ← read_object_reference header.map_name
        let p ← read_property f header none
        match p with
        | some p =>
          pure (StructPropertyValue.inventoryItemS (.mk unk_int_1 item_name o p))
        | none => rdErr (.missingInventoryItemProperty item_name)
      else if rtype = encStr "FluidBox" then do
        let v ← read_f32
        pure (StructPropertyValue.fluidBoxS v)
      else if rtype = encStr "SlateBrush" then do
        let s ← read_length_prefixed_string
        pure (StructPropertyValue.slateBrushS s)
      else if rtype = encStr "DateTime" then do
        let v ← read_i64
        pure (StructPropertyValue.dateTimeS v)
      else if rtype = encStr "FINNetworkTrace" then do
        let t ← read_fin_network_trace f
        pure (StructPropertyValue.finNetworkTraceS t)
      else if rtype = encStr "FINLuaProcessorStateStorage" then do
        let d ← read_fin_lua_processor_state_storage f header none
        pure (StructPropertyValue.finLuaProcessorStateStorageS d)
      else if rtype = encStr "FICFrameRange" then do
        let begin_ ← read_i64
        let end_ ← read_i64
        pure (StructPropertyValue.ficFrameRangeS { begin_, end_ })
      else if rtype = encStr "IntPoint" then do
        let v ← read_vector2d_int
        pure (StructPropertyValue.intPointS v)
      else do
        let properties ← whileSome f (read_property f header (some rtype))
        pure (StructPropertyValue.propertiesS properties))
    pure (rtype, value)

/-- `read_fin_lua_processor_state_storage` (src/lib.rs lines 422-524). -/
def read_fin_lua_processor_state_storage :
    Nat → Header → Option RStr → Rd FINLuaProcessorStateStorage
  | 0, _, _ => rdErr .outOfFuel
  | f+1, header, parent_type => do
    let num_traces ← read_i32
    let trace ← repN num_traces.toNat (read_fin_network_trace f)
    let num_references ← read_i32
    let reference ← repN num_references.toNat (read_object_reference header.map_name)
    let thread ← read_length_prefixed_string
    let globals ← read_length_prefixed_string
    let num_structs ← read_i32
    let structsOpt ← repN num_structs.toNat (do
      let unk_int_1 ← read_i32
      let class_name ← read_length_prefixed_string
      if class_name = encStr "/Script/FactoryGame.PrefabSignData" ∨
         class_name = encStr "/Script/FicsItNetworks.FINInternetCardHttpRequestFuture" ∨
         class_name = encStr "/Script/FactoryGame.InventoryItem" then
        pure (none : Option FINLuaProcessorStateStorageStruct)
      else do
        let value ←
          (if class_name = encStr "/Script/CoreUObject.Vector" then do
            let v ← read_vector
            pure (FINLuaProcessorStateStorageStructValue.vecL v)
          else if class_name = encStr "/Script/CoreUObject.LinearColor" then do
            let c ← read_color
            pure (FINLuaProcessorStateStorageStructValue.linearColorL c)
          else if class_name = encStr "/Script/FactoryGame.InventoryStack" then do
            let unk_str_1 ← read_length_prefixed_string
            let unk_str_2 ← read_length_prefixed_string
            let sunk_int_1 ← read_i32
            let sunk_int_2 ← read_i32
            let (ut, uv) ← read_struct_property f parent_type header
            let unk_str_3 ← read_length_prefixed_string
            pure (FINLuaProcessorStateStorageStructValue.inventoryStackL
              (.mk unk_str_1 unk_str_2 sunk_int_1 sunk_int_2 ut uv unk_str_3))
          else if class_name = encStr "/Script/FactoryGame.ItemAmount" then do
            let a1 ← read_i32
            let a2 ← read_length_prefixed_string
            let a3 ← read_i32
            pure (FINLuaProcessorStateStorageStructValue.itemAmountL
              { unk_int_1 := a1, unk_str_1 := a2, unk_int_2 := a3 })
          else if class_name = encStr "/Script/FicsItNetworks.FINTrackGraph" then do
            let t ← read_fin_network_trace f
            let n ← read_i32
            pure (FINLuaProcessorStateStorageStructValue.finTrackGraphL t n)
          else if class_name = encStr "/Script/FicsItNetworks.FINGPUT1Buffer" then do
            let x ← read_i32
            let y ← read_i32
            let size ← read_i32
            let bname ← read_length_prefixed_string
            let btype ← read_length_prefixed_string
            let length ← read_i32
            let buffer ← repN size.toNat read_fingput1_buffer_pixel
            let unk_str_1 ← read_hex 45
            pure (FINLuaProcessorStateStorageStructValue.finGPUT1BufferL
              { x, y, size, name := bname, rtype := btype, length, buffer,
                unk_str_1 })
          else rdErr (.unknownLuaProcessorStateStorageStructType class_name))
        pure (some (.mk unk_int_1 class_name value)))
    pure (.mk trace reference thread globals (structsOpt.filterMap id))

end

/-! ### Objects, levels, and the file pipeline (src/lib.rs lines 24-79, 1124-1282) -/

/-- The Rust `i32 as u64` cast (sign extension, two's complement). -/
def uval64 (n : Int) : Nat := (n.emod (2 ^ 64)).toNat

/-- The tail of `read_object` (src/lib.rs lines 1171-1198): compare the
position after the property list against `start + declared size`; overrun is
fatal, a gap larger than 4 bytes is either an 8-byte skip (FactoryGame.FG
type paths) or an opaque `read_hex(gap)` consuming `gap` 16-bit units, and a
gap of at most 4 bytes is a 4-byte skip. -/
def finish_object (type_path : RStr) (start_byte : Nat) (object_size_bytes : Int)
    (object : Object) : Rd Object := do
  let current_position ← stream_position
  let current_object_end_position := start_byte + uval64 object_size_bytes
  if current_object_end_position < current_position then
    rdErr (.objectLength type_path)
  else do
    let missing_bytes := current_object_end_position - current_position
    if missing_bytes > 4 then
      if (encStr "/Script/FactoryGame.FG").isPrefixOf type_path then
        seek_relative 8
      else do
        let _skipped ← read_hex missing_bytes
        pure ()  -- the skipped units are only logged
    else
      seek_relative 4
    pure object

/-- `read_object` (src/lib.rs lines 1126-1199). -/
def read_object (f : Nat) (object_header : ObjectHeader) (header : Header) :
    Rd Object := do
  let object0 : Object := match object_header with
    | .actorH _ => .actorO ActorObject.dflt
    | .componentH _ => .componentO ComponentObject.dflt
  let object_save_version ← read_i32
  let object1 := object0.set_save_version object_save_version
  seek_relative 4
  let object_size_bytes ← read_i32
  let start_byte ← stream_position
  let object2 := object1.set_size_bytes object_size_bytes
  let object3 ← (match object2 with
    | .actorO a => do
      -- read_object_reference on an ActorObject: set_level_name writes
      -- parent_object_root (skipped when equal to the map name, keeping the
      -- default empty string), set_path_name writes parent_object_name
      let level_name ← read_length_prefixed_string
      let path_name ← read_length_prefixed_string
      let a := { a with
                 parent_object_root :=
                   if level_name = header.map_name then a.parent_object_root
                   else level_name
                 parent_object_name := path_name }
      let num_components ← read_i32
      let components ← repN num_components.toNat
        (read_object_reference header.map_name)
      pure (Object.actorO { a with num_components, components })
    | c => pure c)
  let current_position ← stream_position
  if current_position - start_byte = uval64 object_size_bytes then
    pure object3.set_should_be_nulled
  else do
    let properties ← whileSome f (read_property f header
      (some object_header.get_type_path))
    let object4 := object3.add_properties properties
    finish_object object_header.get_type_path start_byte object_size_bytes object4

/-- The object loop of `read_level` (src/lib.rs lines 1246-1256): the i-th
body is decoded against the i-th object header; a missing header is fatal. -/
def read_objects_loop (f : Nat) (level_name : RStr) (hdrs : List ObjectHeader)
    (header : Header) : Nat → Nat → Rd (List Object)
  | 0, _ => pure []
  | k+1, i => do
    match hdrs.get? i with
    | some oh => do
      let o ← read_object f oh header
      let rest ← read_objects_loop f level_name hdrs header k (i+1)
      pure (o :: rest)
    | none => rdErr (.missingObjectHeader level_name)

/-- `read_level` (src/lib.rs lines 1203-1267). -/
def read_level (f : Nat) (_level_index : Int) (is_last_level : Bool)
    (header : Header) : Rd Level := do
  let name ←
    if is_last_level then pure (encStr "Level " ++ header.map_name)
    else read_length_prefixed_string
  let object_headers_and_collectables_size_bytes ← read_i64
  let level_start_byte ← stream_position
  let num_object_headers ← read_i32
  let object_headers ← repN num_object_headers.toNat
    (read_level_object_header header.map_name)
  let current_position ← stream_position
  let stop_byte : Int := (level_start_byte : Int) +
    object_headers_and_collectables_size_bytes - 4
  let collectables ←
    (if (current_position : Int) < stop_byte then do
      let num_collectables ← read_i32
      repN num_collectables.toNat (read_object_reference header.map_name)
    else if (current_position : Int) = stop_byte then do
      seek_relative 4
      pure []
    else pure [])
  seek_relative 8
  let num_objects ← read_i32
  let objects ← read_objects_loop f name object_headers header num_objects.toNat 0
  let num_second_collectables ← read_i32
  let _ ← repN num_second_collectables.toNat (do
    seek_length_prefixed_string
    seek_length_prefixed_string)
  pure { name, object_headers, collectables, objects }

/-- The level loop of `read_levels` (src/lib.rs lines 1276-1279), passing
`is_last_level := (i == num_levels)` exactly as the source does. -/
def read_levels_loop (f : Nat) (header : Header) (num_levels : Int) :
    Nat → Int → Rd (List Level)
  | 0, _ => pure []
  | k+1, i => do
    let lvl ← read_level f i (i = num_levels) header
    let rest ← read_levels_loop f header num_levels k (i + 1)
    pure (lvl :: rest)

/-- `read_levels` (src/lib.rs lines 1271-1282). -/
def read_levels (f : Nat) (header : Header) : Rd (List Level) := do
  let num_levels ← read_i32
  read_levels_loop f header num_levels num_levels.toNat 0

/-- `MIN_SAVE_FILE_VERSION` (src/lib.rs line 26). -/
def MIN_SAVE_FILE_VERSION : Int := 42

/-- The decompressed-body phase of `read_file` (src/lib.rs lines 64-78):
skip 8 opaque bytes, read the partitions, read the levels. -/
def read_body (f : Nat) (header : Header) : Rd (Partitions × List Level) := do
  seek_relative 8
  let partitions ← read_partitions
  let levels ← read_levels f header
  pure (partitions, levels)

/-- `read_file` (src/lib.rs lines 32-79) up to its in-crate logic: decode the
header from the file bytes, apply the version gate, then decode the
decompressed body.  Chunk framing and zlib inflation live in external crates
(`byteorder`, `flate2`) and can only produce io-style read errors, so the
decompressed body is taken here as an arbitrary byte list. -/
def read_file_model (f : Nat) (file_bytes body_bytes : List Nat) :
    Except ParseErr Save :=
  match read_header file_bytes 0 with
  | .error e => .error e
  | .ok (header, _) =>
    if header.save_file_version < MIN_SAVE_FILE_VERSION then
      .error (.unsupportedFileVersion header.save_file_version
        MIN_SAVE_FILE_VERSION)
    else
      match read_body f header body_bytes 0 with
      | .ok ((partitions, levels), _) =>
        .ok { header, partitions, levels }
      | .error e => .error e

/-! ### Reasoning toolkit for the reader monad -/

theorem Rd.bind_ok {α β : Type} (x : Rd α) (f : α → Rd β) {bs : List Nat}
    {p p1 : Nat} {a : α} (h : x bs p = .ok (a, p1)) :
    (x >>= f) bs p = f a bs p1 := by
  show (match x bs p with
    | .ok (a, p2) => f a bs p2
    | .error e => .error e) = f a bs p1
  rw [h]

theorem Rd.bind_err {α β : Type} (x : Rd α) (f : α → Rd β) {bs : List Nat}
    {p : Nat} {e : ParseErr} (h : x bs p = .error e) :
    (x >>= f) bs p = .error e := by
  show (match x bs p with
    | .ok (a, p2) => f a bs p2
    | .error e => .error e) = .error e
  rw [h]

theorem Rd.bind_ok_iff {α β : Type} (x : Rd α) (f : α → Rd β) {bs : List Nat}
    {p : Nat} {r : β × Nat} :
    (x >>= f) bs p = .ok r ↔
      ∃ a p1, x bs p = .ok (a, p1) ∧ f a bs p1 = .ok r := by
  constructor
  · intro h
    revert h
    show (match x bs p with
      | .ok (a, p2) => f a bs p2
      | .error e => .error e) = .ok r → _
    rcases hx : x bs p with e | ⟨a, p1⟩
    · intro h
      exact absurd h (by simp)
    · intro h
      exact ⟨a, p1, rfl, h⟩
  · rintro ⟨a, p1, h1, h2⟩
    rw [Rd.bind_ok x f h1, h2]

theorem Rd.pure_def {α : Type} (a : α) (bs : List Nat) (p : Nat) :
    (pure a : Rd α) bs p = .ok (a, p) := rfl

/-! ### Little-endian encodings and exact byte reads -/

/-- Little-endian byte encoding of `n` over `k` bytes. -/
def toLE : Nat → Nat → List Nat
  | 0, _ => []
  | k+1, n => n % 256 :: toLE k (n / 256)

theorem toLE_length (k n : Nat) : (toLE k n).length = k := by
  induction k generalizing n with
  | zero => rfl
  | succ k ih => simp [toLE, ih]

theorem leVal_toLE (k n : Nat) (h : n < 2 ^ (8 * k)) : leVal (toLE k n) = n := by
  induction k generalizing n with
  | zero =>
    simp [toLE, leVal]
    omega
  | succ k ih =>
    have hlt : n / 256 < 2 ^ (8 * k) := by
      have h2 : (2 : Nat) ^ (8 * (k + 1)) = 2 ^ (8 * k) * 256 := by
        rw [Nat.mul_succ, pow_add]
        norm_num
      rw [h2] at h
      omega
    simp only [toLE, leVal, ih (n / 256) hlt]
    omega

theorem read_u8_at (pre : List Nat) (b : Nat) (rest : List Nat) :
    read_u8 (pre ++ b :: rest) pre.length = .ok (b, pre.length + 1) := by
  unfold read_u8
  have hg : (pre ++ b :: rest).get? pre.length = some b := by
    rw [List.get?_eq_getElem?, List.getElem?_append_right (Nat.le_refl _)]
    simp
  rw [hg]

theorem read_bytes_exact (l pre rest : List Nat) :
    read_bytes l.length (pre ++ (l ++ rest)) pre.length =
      .ok (l, pre.length + l.length) := by
  induction l generalizing pre with
  | nil => simp [read_bytes, Rd.pure_def]
  | cons a t ih =>
    show read_bytes (t.length + 1) _ _ = _
    unfold read_bytes
    simp only [List.cons_append]
    rw [Rd.bind_ok _ _ (read_u8_at pre a (t ++ rest))]
    have h2 := ih (pre ++ [a])
    rw [List.append_assoc] at h2
    simp only [List.length_append, List.length_singleton,
      List.singleton_append] at h2
    rw [Rd.bind_ok _ _ h2]
    simp [Rd.pure_def]
    omega

theorem read_u32_exact (pre rest : List Nat) (u : Nat) (h : u < 2 ^ 32) :
    read_u32 (pre ++ (toLE 4 u ++ rest)) pre.length = .ok (u, pre.length + 4) := by
  unfold read_u32
  have hb := read_bytes_exact (toLE 4 u) pre rest
  rw [toLE_length] at hb
  rw [Rd.bind_ok _ _ hb, leVal_toLE 4 u h, Rd.pure_def]

theorem read_i32_exact (pre rest : List Nat) (u : Nat) (h : u < 2 ^ 32) :
    read_i32 (pre ++ (toLE 4 u ++ rest)) pre.length =
      .ok (toSigned 32 u, pre.length + 4) := by
  unfold read_i32
  rw [Rd.bind_ok _ _ (read_u32_exact pre rest u h), Rd.pure_def]

/-! ### UTF-8 / UTF-16 round trips -/

theorem utf8Encode_nil : utf8Encode [] = [] := rfl

theorem utf8Encode_cons (c : Nat) (s : List Nat) :
    utf8Encode (c :: s) = utf8EncodeChar c ++ utf8Encode s := by
  simp only [utf8Encode, List.flatMap_cons]


theorem utf8Step_cons (b0 : Nat) (r : List Nat) :
    utf8Step (b0 :: r) =
      if b0 < 0x80 then some (b0, r)
      else if 0xC2 ≤ b0 ∧ b0 ≤ 0xDF then utf8Take1 b0 r
      else if 0xE0 ≤ b0 ∧ b0 ≤ 0xEF then utf8Take2 b0 r
      else if 0xF0 ≤ b0 ∧ b0 ≤ 0xF4 then utf8Take3 b0 r
      else none := rfl

theorem utf8Take1_eq (b0 b1 : Nat) (r2 : List Nat) :
    utf8Take1 b0 (b1 :: r2) =
      if utf8Cont b1 then some ((b0 - 0xC0) * 64 + (b1 - 0x80), r2)
      else none := rfl

theorem utf8Take2_eq (b0 b1 b2 : Nat) (r3 : List Nat) :
    utf8Take2 b0 (b1 :: b2 :: r3) =
      if (if b0 = 0xE0 then 0xA0 ≤ b1 ∧ b1 < 0xC0
          else if b0 = 0xED then 0x80 ≤ b1 ∧ b1 < 0xA0
          else utf8Cont b1 = true) ∧ utf8Cont b2 then
        some ((b0 - 0xE0) * 4096 + (b1 - 0x80) * 64 + (b2 - 0x80), r3)
      else none := rfl

theorem utf8Take3_eq (b0 b1 b2 b3 : Nat) (r4 : List Nat) :
    utf8Take3 b0 (b1 :: b2 :: b3 :: r4) =
      if (if b0 = 0xF0 then 0x90 ≤ b1 ∧ b1 < 0xC0
          else if b0 = 0xF4 then 0x80 ≤ b1 ∧ b1 < 0x90
          else utf8Cont b1 = true) ∧ utf8Cont b2 ∧ utf8Cont b3 then
        some ((b0 - 0xF0) * 262144 + (b1 - 0x80) * 4096 +
          (b2 - 0x80) * 64 + (b3 - 0x80), r4)
      else none := rfl

theorem utf8DecodeF_nil (f : Nat) : utf8DecodeF f [] = some [] := by
  cases f <;> rfl

theorem utf8EncodeChar_length_pos (c : Nat) : 0 < (utf8EncodeChar c).length := by
  unfold utf8EncodeChar
  split_ifs <;> simp

theorem utf8Step_enc (c : Nat) (h : ValidScalar c) (r : List Nat) :
    utf8Step (utf8EncodeChar c ++ r) = some (c, r) := by
  have hv : c < 0xD800 ∨ (0xE000 ≤ c ∧ c < 0x110000) := h
  unfold utf8EncodeChar
  by_cases h1 : c < 0x80
  · rw [if_pos h1]
    show utf8Step (c :: r) = _
    rw [utf8Step_cons, if_pos h1]
  · rw [if_neg h1]
    by_cases h2 : c < 0x800
    · rw [if_pos h2]
      show utf8Step ((0xC0 + c / 64) :: ((0x80 + c % 64) :: r)) = _
      rw [utf8Step_cons, if_neg (by omega), if_pos (by omega)]
      rw [utf8Take1_eq, if_pos (by simp only [utf8Cont, decide_eq_true_eq]; omega)]
      have hc : (0xC0 + c / 64 - 0xC0) * 64 + (0x80 + c % 64 - 0x80) = c := by
        omega
      rw [hc]
    · rw [if_neg h2]
      by_cases h3 : c < 0x10000
      · rw [if_pos h3]
        show utf8Step
          ((0xE0 + c / 4096) :: ((0x80 + c / 64 % 64) :: (0x80 + c % 64) :: r)) = _
        rw [utf8Step_cons, if_neg (by omega), if_neg (by omega),
          if_pos (by omega)]
        rw [utf8Take2_eq, if_pos ?cond3]
        case cond3 =>
          constructor
          · split_ifs with hE hD
            · omega
            · omega
            · simp only [utf8Cont, decide_eq_true_eq]
              omega
          · simp only [utf8Cont, decide_eq_true_eq]
            omega
        have hc : (0xE0 + c / 4096 - 0xE0) * 4096 +
            (0x80 + c / 64 % 64 - 0x80) * 64 + (0x80 + c % 64 - 0x80) = c := by
          omega
        rw [hc]
      · rw [if_neg h3]
        show utf8Step ((0xF0 + c / 262144) :: ((0x80 + c / 4096 % 64) ::
          (0x80 + c / 64 % 64) :: (0x80 + c % 64) :: r)) = _
        rw [utf8Step_cons, if_neg (by omega), if_neg (by omega),
          if_neg (by omega), if_pos (by omega)]
        rw [utf8Take3_eq, if_pos ?cond4]
        case cond4 =>
          refine ⟨?_, ?_, ?_⟩
          · split_ifs with hE hD
            · omega
            · omega
            · simp only [utf8Cont, decide_eq_true_eq]
              omega
          · simp only [utf8Cont, decide_eq_true_eq]
            omega
          · simp only [utf8Cont, decide_eq_true_eq]
            omega
        have hc : (0xF0 + c / 262144 - 0xF0) * 262144 +
            (0x80 + c / 4096 % 64 - 0x80) * 4096 +
            (0x80 + c / 64 % 64 - 0x80) * 64 + (0x80 + c % 64 - 0x80) = c := by
          omega
        rw [hc]

theorem utf8DecodeF_enc (s : List Nat) :
    ∀ (f : Nat), (∀ c ∈ s, ValidScalar c) → (utf8Encode s).length ≤ f →
      utf8DecodeF f (utf8Encode s) = some s := by
  induction s with
  | nil =>
    intro f _ _
    rw [utf8Encode_nil, utf8DecodeF_nil]
  | cons c t ih =>
    intro f hval hlen
    rw [utf8Encode_cons] at hlen ⊢
    have hc := hval c (by simp)
    have hcpos := utf8EncodeChar_length_pos c
    match f with
    | 0 =>
      exfalso
      simp only [List.length_append] at hlen
      omega
    | f+1 =>
      rcases hcc : utf8EncodeChar c with _ | ⟨b0, tl⟩
      · rw [hcc] at hcpos
        simp at hcpos
      · have hstep := utf8Step_enc c hc (utf8Encode t)
        rw [hcc] at hstep
        simp only [List.cons_append] at hstep ⊢
        show utf8DecodeF (f+1) (b0 :: (tl ++ utf8Encode t)) = _
        unfold utf8DecodeF
        rw [hstep]
        have hlt : (utf8Encode t).length ≤ f := by
          rw [hcc] at hlen
          simp only [List.length_append, List.length_cons] at hlen
          omega
        show (utf8DecodeF f (utf8Encode t)).map (fun l => c :: l) = _
        rw [ih f (fun d hd => hval d (by simp [hd])) hlt]
        rfl

theorem utf8Decode_encode (s : List Nat) (h : ∀ c ∈ s, ValidScalar c) :
    utf8Decode (utf8Encode s) = some s :=
  utf8DecodeF_enc s (utf8Encode s).length h (Nat.le_refl _)

theorem utf16Step_cons (u : Nat) (r : List Nat) :
    utf16Step (u :: r) =
      if u < 0xD800 ∨ 0xE000 ≤ u then some (u, r)
      else if u < 0xDC00 then utf16Pair u r
      else none := rfl

theorem utf16Pair_eq (u u2 : Nat) (r2 : List Nat) :
    utf16Pair u (u2 :: r2) =
      if 0xDC00 ≤ u2 ∧ u2 < 0xE000 then
        some (0x10000 + (u - 0xD800) * 1024 + (u2 - 0xDC00), r2)
      else none := rfl

theorem utf16DecodeF_nil (f : Nat) : utf16DecodeF f [] = some [] := by
  cases f <;> rfl

theorem utf16EncodeChar_length_pos (c : Nat) : 0 < (utf16EncodeChar c).length := by
  unfold utf16EncodeChar
  split_ifs <;> simp

theorem utf16Encode_nil : utf16Encode [] = [] := rfl

theorem utf16Encode_cons (c : Nat) (s : List Nat) :
    utf16Encode (c :: s) = utf16EncodeChar c ++ utf16Encode s := by
  simp only [utf16Encode, List.flatMap_cons]

theorem utf16Step_enc (c : Nat) (h : ValidScalar c) (r : List Nat) :
    utf16Step (utf16EncodeChar c ++ r) = some (c, r) := by
  have hv : c < 0xD800 ∨ (0xE000 ≤ c ∧ c < 0x110000) := h
  unfold utf16EncodeChar
  by_cases h1 : c < 0x10000
  · rw [if_pos h1]
    show utf16Step (c :: r) = _
    rw [utf16Step_cons, if_pos (by omega)]
  · rw [if_neg h1]
    show utf16Step ((0xD800 + (c - 0x10000) / 1024) ::
      ((0xDC00 + (c - 0x10000) % 1024) :: r)) = _
    rw [utf16Step_cons, if_neg (by omega), if_pos (by omega)]
    rw [utf16Pair_eq, if_pos (by omega)]
    have hc : 0x10000 + (0xD800 + (c - 0x10000) / 1024 - 0xD800) * 1024 +
        (0xDC00 + (c - 0x10000) % 1024 - 0xDC00) = c := by omega
    rw [hc]

theorem utf16DecodeF_enc (s : List Nat) :
    ∀ (f : Nat), (∀ c ∈ s, ValidScalar c) → (utf16Encode s).length ≤ f →
      utf16DecodeF f (utf16Encode s) = some s := by
  induction s with
  | nil =>
    intro f _ _
    rw [utf16Encode_nil, utf16DecodeF_nil]
  | cons c t ih =>
    intro f hval hlen
    rw [utf16Encode_cons] at hlen ⊢
    have hc := hval c (by simp)
    have hcpos := utf16EncodeChar_length_pos c
    match f with
    | 0 =>
      exfalso
      simp only [List.length_append] at hlen
      omega
    | f+1 =>
      rcases hcc : utf16EncodeChar c with _ | ⟨u0, tl⟩
      · rw [hcc] at hcpos
        simp at hcpos
      · have hstep := utf16Step_enc c hc (utf16Encode t)
        rw [hcc] at hstep
        simp only [List.cons_append] at hstep ⊢
        show utf16DecodeF (f+1) (u0 :: (tl ++ utf16Encode t)) = _
        unfold utf16DecodeF
        rw [hstep]
        have hlt : (utf16Encode t).length ≤ f := by
          rw [hcc] at hlen
          simp only [List.length_append, List.length_cons] at hlen
          omega
        show (utf16DecodeF f (utf16Encode t)).map (fun l => c :: l) = _
        rw [ih f (fun d hd => hval d (by simp [hd])) hlt]
        rfl

theorem utf16Decode_encode (s : List Nat) (h : ∀ c ∈ s, ValidScalar c) :
    utf16Decode (utf16Encode s) = some s :=
  utf16DecodeF_enc s (utf16Encode s).length h (Nat.le_refl _)

theorem utf16Encode_units_lt (s : List Nat) (h : ∀ c ∈ s, ValidScalar c) :
    ∀ u ∈ utf16Encode s, u < 2 ^ 16 := by
  induction s with
  | nil => simp [utf16Encode_nil]
  | cons c t ih =>
    rw [utf16Encode_cons]
    intro u hu
    rcases List.mem_append.mp hu with hu | hu
    · have hc := h c (by simp)
      have hv : c < 0xD800 ∨ (0xE000 ≤ c ∧ c < 0x110000) := hc
      revert hu
      unfold utf16EncodeChar
      split_ifs with h1 <;> intro hu
      · simp only [List.mem_singleton] at hu
        omega
      · simp only [List.mem_cons, List.mem_singleton] at hu
        rcases hu with hu | hu | hu
        · omega
        · omega
        · simp at hu
    · exact ih (fun d hd => h d (by simp [hd])) u hu

/-! ### Claim C4: length-prefixed string round trip -/

theorem toSigned32_small (u : Nat) (h : u < 2 ^ 31) : toSigned 32 u = (u : Int) := by
  unfold toSigned
  rw [if_pos (by omega)]

theorem toSigned32_large (u : Nat) (h : 2 ^ 31 ≤ u) :
    toSigned 32 u = (u : Int) - 2 ^ 32 := by
  unfold toSigned
  rw [if_neg (by omega)]

theorem read_u16_units_exact (us : List Nat) :
    ∀ (pre rest : List Nat), (∀ u ∈ us, u < 2 ^ 16) →
      read_u16_units us.length (pre ++ (us.flatMap (toLE 2) ++ rest)) pre.length =
        .ok (us, pre.length + 2 * us.length) := by
  induction us with
  | nil =>
    intro pre rest _
    simp [read_u16_units, Rd.pure_def]
  | cons u t ih =>
    intro pre rest hlt
    show read_u16_units (t.length + 1) _ _ = _
    unfold read_u16_units
    have hflat : (u :: t).flatMap (toLE 2) = toLE 2 u ++ t.flatMap (toLE 2) := by
      simp [List.flatMap_cons]
    rw [hflat, List.append_assoc]
    have hu16 : read_u16 (pre ++ (toLE 2 u ++ (t.flatMap (toLE 2) ++ rest)))
        pre.length = .ok (u, pre.length + 2) := by
      unfold read_u16
      have hb := read_bytes_exact (toLE 2 u) pre (t.flatMap (toLE 2) ++ rest)
      rw [toLE_length] at hb
      rw [Rd.bind_ok _ _ hb, leVal_toLE 2 u (hlt u (by simp)), Rd.pure_def]
    rw [Rd.bind_ok _ _ hu16]
    have h2 := ih (pre ++ toLE 2 u) rest (fun d hd => hlt d (by simp [hd]))
    rw [List.append_assoc] at h2
    simp only [List.length_append, toLE_length] at h2
    rw [Rd.bind_ok _ _ h2, Rd.pure_def]
    have : pre.length + 2 + 2 * t.length = pre.length + 2 * (t.length + 1) := by
      omega
    rw [this]
    simp

theorem read_hex_exact (us pre rest str : List Nat)
    (hlt : ∀ u ∈ us, u < 2 ^ 16) (hdec : utf16Decode us = some str) :
    read_hex us.length (pre ++ (us.flatMap (toLE 2) ++ rest)) pre.length =
      .ok (str, pre.length + 2 * us.length) := by
  unfold read_hex
  rw [Rd.bind_ok _ _ (read_u16_units_exact us pre rest hlt), hdec]
  exact Rd.pure_def _ _ _

theorem utf8Encode_append (a b : List Nat) :
    utf8Encode (a ++ b) = utf8Encode a ++ utf8Encode b := by
  simp [utf8Encode]

theorem utf16Encode_append (a b : List Nat) :
    utf16Encode (a ++ b) = utf16Encode a ++ utf16Encode b := by
  simp [utf16Encode]

/-- The claim's encoding of a string as a positive-length (UTF-8) prefixed
string: signed 32-bit byte count, then the UTF-8 bytes of the string with a
trailing NUL. -/
def specEncodeLpsUtf8 (s : List Nat) : List Nat :=
  toLE 4 (utf8Encode (s ++ [0])).length ++ utf8Encode (s ++ [0])

/-- The claim's encoding of a string as a negative-length (UTF-16) prefixed
string: signed 32-bit negated code-unit count, then the little-endian UTF-16
code units of the string with a trailing NUL. -/
def specEncodeLpsUtf16 (s : List Nat) : List Nat :=
  toLE 4 (2 ^ 32 - (utf16Encode (s ++ [0])).length) ++
    (utf16Encode (s ++ [0])).flatMap (toLE 2)

theorem utf8Encode_nul_length (s : List Nat) :
    (utf8Encode (s ++ [0])).length = (utf8Encode s).length + 1 := by
  rw [utf8Encode_append]
  simp [utf8Encode, utf8EncodeChar]

theorem utf16Encode_nul_length (s : List Nat) :
    (utf16Encode (s ++ [0])).length = (utf16Encode s).length + 1 := by
  rw [utf16Encode_append]
  simp [utf16Encode, utf16EncodeChar]

theorem valid_append_nul (s : List Nat) (h : ∀ c ∈ s, ValidScalar c) :
    ∀ c ∈ s ++ [0], ValidScalar c := by
  intro c hc
  rcases List.mem_append.mp hc with hc | hc
  · exact h c hc
  · simp only [List.mem_singleton] at hc
    subst hc
    exact Or.inl (by norm_num)

/-- Claim C4: encoding any string as a length-prefixed string — positive
prefix `n` = `n` UTF-8 bytes including a trailing NUL, negative prefix `n` =
`|n|` UTF-16 code units including a trailing NUL, zero prefix = empty — and
decoding with `read_length_prefixed_string` yields the string back with the
trailing NUL stripped; a prefix of 0 decodes to the empty string. -/
theorem c4_string_round_trip :
    (∀ (s : List Nat) (rest : List Nat), (∀ c ∈ s, ValidScalar c) →
      (utf8Encode (s ++ [0])).length < 2 ^ 31 →
      read_length_prefixed_string (specEncodeLpsUtf8 s ++ rest) 0 =
        .ok (s, 4 + (utf8Encode (s ++ [0])).length)) ∧
    (∀ (s : List Nat) (rest : List Nat), (∀ c ∈ s, ValidScalar c) →
      (utf16Encode (s ++ [0])).length ≤ 2 ^ 31 →
      read_length_prefixed_string (specEncodeLpsUtf16 s ++ rest) 0 =
        .ok (s, 4 + 2 * (utf16Encode (s ++ [0])).length)) ∧
    (∀ (rest : List Nat),
      read_length_prefixed_string (toLE 4 0 ++ rest) 0 = .ok ([], 4)) := by
  refine ⟨?_, ?_, ?_⟩
  · intro s rest hval hlen
    have hnul : (utf8Encode (s ++ [0])).length = (utf8Encode s).length + 1 :=
      utf8Encode_nul_length s
    set bts := utf8Encode (s ++ [0]) with hbts
    set L := bts.length with hL
    unfold read_length_prefixed_string specEncodeLpsUtf8
    have h32 := read_i32_exact [] (bts ++ rest) L (by omega)
    simp only [List.nil_append, List.length_nil] at h32
    rw [toSigned32_small L (by omega)] at h32
    rw [List.append_assoc]
    rw [Rd.bind_ok _ _ h32]
    rw [if_pos (by exact_mod_cast Nat.pos_of_ne_zero (by omega))]
    have hb := read_bytes_exact bts (toLE 4 L) rest
    rw [toLE_length] at hb
    have htn : (L : Int).toNat = L := Int.toNat_natCast L
    rw [htn, Rd.bind_ok _ _ hb]
    rw [hbts, utf8Decode_encode (s ++ [0]) (valid_append_nul s hval)]
    show (pure ((s ++ [0]).dropLast) : Rd RStr) _ _ = _
    rw [Rd.pure_def]
    simp
  · intro s rest hval hlen
    have hnul : (utf16Encode (s ++ [0])).length = (utf16Encode s).length + 1 :=
      utf16Encode_nul_length s
    set us := utf16Encode (s ++ [0]) with hus
    set U := us.length with hU
    unfold read_length_prefixed_string specEncodeLpsUtf16
    have h32 := read_i32_exact [] (us.flatMap (toLE 2) ++ rest) (2 ^ 32 - U)
      (by omega)
    simp only [List.nil_append, List.length_nil] at h32
    rw [toSigned32_large (2 ^ 32 - U) (by omega)] at h32
    have hneg : ((2 ^ 32 - U : Nat) : Int) - 2 ^ 32 = -(U : Int) := by
      have hUle : U ≤ 2 ^ 32 := by omega
      omega
    rw [hneg] at h32
    rw [List.append_assoc]
    rw [Rd.bind_ok _ _ h32]
    rw [if_neg (by omega), if_pos (by omega)]
    have habs : (-(U : Int)).natAbs = U := by
      simp
    rw [habs]
    have hhex := read_hex_exact us (toLE 4 (2 ^ 32 - U)) rest (s ++ [0])
      (by
        rw [hus]
        exact utf16Encode_units_lt (s ++ [0]) (valid_append_nul s hval))
      (by
        rw [hus]
        exact utf16Decode_encode (s ++ [0]) (valid_append_nul s hval))
    rw [toLE_length] at hhex
    rw [Rd.bind_ok _ _ hhex]
    rw [Rd.pure_def]
    simp
  · intro rest
    unfold read_length_prefixed_string
    have h32 := read_i32_exact [] rest 0 (by norm_num)
    simp only [List.nil_append, List.length_nil] at h32
    rw [toSigned32_small 0 (by norm_num)] at h32
    rw [Rd.bind_ok _ _ h32]
    norm_num
    rw [Rd.pure_def]

/-- Witness for C4 at the concrete string "Hi" in both encodings and for the
zero prefix. -/
theorem c4_string_round_trip_witness :
    read_length_prefixed_string (specEncodeLpsUtf8 (encStr "Hi") ++ []) 0 =
      .ok (encStr "Hi", 4 + (utf8Encode (encStr "Hi" ++ [0])).length) ∧
    read_length_prefixed_string (specEncodeLpsUtf16 (encStr "Hi") ++ []) 0 =
      .ok (encStr "Hi", 4 + 2 * (utf16Encode (encStr "Hi" ++ [0])).length) ∧
    read_length_prefixed_string (toLE 4 0 ++ [7, 7]) 0 = .ok ([], 4) :=
  ⟨c4_string_round_trip.1 (encStr "Hi") [] (by decide) (by decide),
   c4_string_round_trip.2.1 (encStr "Hi") [] (by decide) (by decide),
   c4_string_round_trip.2.2 [7, 7]⟩

/-! ### Claim C5: object-reference level-name elision -/

/-- Claim C5: for every decoded object reference, the stored level name is
empty exactly when the decoded level name equals the save's map name, and
otherwise verbatim; the path name is always stored verbatim. -/
theorem c5_object_reference_elision :
    ∀ (bs : List Nat) (p : Nat) (map_name lvl path : RStr) (p1 p2 : Nat),
      read_length_prefixed_string bs p = .ok (lvl, p1) →
      read_length_prefixed_string bs p1 = .ok (path, p2) →
      read_object_reference map_name bs p =
        .ok ({ level_name := if lvl = map_name then [] else lvl,
               path_name := path }, p2) := by
  intro bs p map_name lvl path p1 p2 h1 h2
  unfold read_object_reference
  rw [Rd.bind_ok _ _ h1, Rd.bind_ok _ _ h2, Rd.pure_def]

/-- Witness for C5: level name "M" equals the map name "M" and is elided;
the path name "P" is stored verbatim. -/
theorem c5_object_reference_elision_witness :
    read_object_reference (encStr "M")
      [2,0,0,0,77,0, 2,0,0,0,80,0] 0 =
      .ok ({ level_name := if encStr "M" = encStr "M" then [] else encStr "M",
             path_name := encStr "P" }, 12) :=
  c5_object_reference_elision _ 0 (encStr "M") (encStr "M") (encStr "P") 6 12
    rfl rfl

/-! ### Claim C1: the "None" sentinel -/

theorem read_property_none {f : Nat} {hdr : Header} {pt : Option RStr}
    {bs : List Nat} {p : Nat} {s : RStr} {p1 : Nat}
    (h : read_length_prefixed_string bs p = .ok (s, p1))
    (hs : s = encStr "None") :
    read_property (f+1) hdr pt bs p = .ok (none, p1) := by
  unfold read_property
  rw [Rd.bind_ok _ _ h, if_pos hs, Rd.pure_def]

theorem read_property_shape {f : Nat} {hdr : Header} {pt : Option RStr}
    {bs : List Nat} {p : Nat} {s : RStr} {p1 : Nat} {opt : Option Property}
    {pf : Nat}
    (h1 : read_length_prefixed_string bs p = .ok (s, p1))
    (hs : s ≠ encStr "None")
    (h2 : read_property (f+1) hdr pt bs p = .ok (opt, pf)) :
    ∃ prop, opt = some prop ∧ prop.name = s := by
  unfold read_property at h2
  rcases (Rd.bind_ok_iff _ _).mp h2 with ⟨s', p1', h1', h⟩
  rw [h1] at h1'
  simp only [Except.ok.injEq, Prod.mk.injEq] at h1'
  obtain ⟨rfl, rfl⟩ := h1'
  rw [if_neg hs] at h
  rcases (Rd.bind_ok_iff _ _).mp h with ⟨⟨rt, sz, ix, g, v⟩, q, _, h⟩
  replace h : (pure (some (Property.mk s rt sz ix g v)) :
    Rd (Option Property)) bs q = .ok (opt, pf) := h
  rw [Rd.pure_def] at h
  simp only [Except.ok.injEq, Prod.mk.injEq] at h
  exact ⟨_, h.1.symm, rfl⟩

theorem read_property_name_of_some {f : Nat} {hdr : Header} {pt : Option RStr}
    {bs : List Nat} {p : Nat} {prop : Property} {pf : Nat}
    (h : read_property f hdr pt bs p = .ok (some prop, pf)) :
    prop.name ≠ encStr "None" := by
  match f with
  | 0 =>
    exact absurd h (by simp [read_property, rdErr])
  | f+1 =>
    have h2 := h
    unfold read_property at h2
    rcases (Rd.bind_ok_iff _ _).mp h2 with ⟨s, p1, h1, _⟩
    by_cases hs : s = encStr "None"
    · have := @read_property_none f hdr pt bs p s p1 h1 hs
      rw [this] at h
      simp at h
    · rcases read_property_shape h1 hs h with ⟨prop2, hp, hn⟩
      simp only [Option.some.injEq] at hp
      rw [← hp] at hn
      rw [hn]
      exact hs

/-- The sentinel-terminated collection loop: every collected element
satisfies any property preserved by the body, and the loop ends with a body
run that returns `none` (the sentinel), never by a count. -/
theorem whileSome_ok {α : Type} {P : α → Prop} {body : Rd (Option α)}
    (hbody : ∀ bs p a pf, body bs p = .ok (some a, pf) → P a) :
    ∀ (fl : Nat) (bs : List Nat) (p : Nat) (l : List α) (pf : Nat),
      whileSome fl body bs p = .ok (l, pf) →
      (∀ a ∈ l, P a) ∧ ∃ q0, body bs q0 = .ok (none, pf) := by
  intro fl
  induction fl with
  | zero =>
    intro bs p l pf h
    exact absurd h (by simp [whileSome, rdErr])
  | succ f ih =>
    intro bs p l pf h
    unfold whileSome at h
    rcases (Rd.bind_ok_iff _ _).mp h with ⟨o, p1, hb, hrest⟩
    match o with
    | none =>
      replace hrest : (pure ([] : List α) : Rd (List α)) bs p1 =
        .ok (l, pf) := hrest
      rw [Rd.pure_def] at hrest
      simp only [Except.ok.injEq, Prod.mk.injEq] at hrest
      obtain ⟨rfl, rfl⟩ := hrest
      exact ⟨by simp, p, hb⟩
    | some a =>
      replace hrest : (whileSome f body >>= fun rest =>
        pure (a :: rest)) bs p1 = .ok (l, pf) := hrest
      rcases (Rd.bind_ok_iff _ _).mp hrest with ⟨rest, p2, hw, hp⟩
      rw [Rd.pure_def] at hp
      simp only [Except.ok.injEq, Prod.mk.injEq] at hp
      rw [← hp.1, ← hp.2]
      rcases ih bs p1 rest p2 hw with ⟨hall, q0, hq⟩
      refine ⟨?_, q0, hq⟩
      intro x hx
      rcases List.mem_cons.mp hx with rfl | hx
      · exact hbody bs p x p1 hb
      · exact hall x hx

/-- Claim C1: `read_property` returns absent exactly when the decoded
property name is the literal "None"; every sentinel-terminated property-list
loop (object bodies, struct fallbacks, map struct keys and values, array
struct elements — all instances of `whileSome` over `read_property`) stops at
the first such sentinel and never by a count, and no property named "None"
appears in any collected list. -/
theorem c1_property_sentinel :
    (∀ (f : Nat) (hdr : Header) (pt : Option RStr) (bs : List Nat)
        (p : Nat) (s : RStr) (p1 : Nat) (opt : Option Property) (pf : Nat),
      read_length_prefixed_string bs p = .ok (s, p1) →
      read_property f hdr pt bs p = .ok (opt, pf) →
      (opt = none ↔ s = encStr "None")) ∧
    (∀ (f : Nat) (hdr : Header) (pt : Option RStr) (bs : List Nat)
        (p : Nat) (p1 : Nat),
      read_length_prefixed_string bs p = .ok (encStr "None", p1) →
      read_property (f+1) hdr pt bs p = .ok (none, p1)) ∧
    (∀ (fl f : Nat) (hdr : Header) (pt : Option RStr) (bs : List Nat)
        (p : Nat) (l : List Property) (pf : Nat),
      whileSome fl (read_property f hdr pt) bs p = .ok (l, pf) →
      (∀ q ∈ l, q.name ≠ encStr "None") ∧
      ∃ q0, read_property f hdr pt bs q0 = .ok (none, pf)) := by
  refine ⟨?_, ?_, ?_⟩
  · intro f hdr pt bs p s p1 opt pf h1 h2
    constructor
    · intro hnone
      subst hnone
      match f with
      | 0 => exact absurd h2 (by simp [read_property, rdErr])
      | f+1 =>
        by_contra hs
        rcases read_property_shape h1 hs h2 with ⟨prop, hp, _⟩
        simp at hp
    · intro hs
      match f with
      | 0 => exact absurd h2 (by simp [read_property, rdErr])
      | f+1 =>
        rw [read_property_none h1 hs] at h2
        simp only [Except.ok.injEq, Prod.mk.injEq] at h2
        exact h2.1.symm
  · intro f hdr pt bs p p1 h
    exact read_property_none h rfl
  · intro fl f hdr pt bs p l pf h
    exact whileSome_ok (fun bs2 p2 a pf2 hb => read_property_name_of_some hb)
      fl bs p l pf h

/-- Witness for C1 on a concrete stream: one Int property "Count" followed
by the "None" sentinel. -/
theorem c1_property_sentinel_witness :
    (((some (Property.mk (encStr "Count") (encStr "Int") 4 0 none
        (.intV 42)) : Option Property) = none) ↔
      encStr "Count" = encStr "None") ∧
    read_property 5
      ⟨0, 42, 0, [], [], [], 0, 0, 0, 0, [], 0, [], 0, [], 0⟩ none
      [5,0,0,0, 78,111,110,101,0] 0 = .ok (none, 9) ∧
    ((∀ q ∈ [Property.mk (encStr "Count") (encStr "Int") 4 0 none
        (.intV 42)], Property.name q ≠ encStr "None") ∧
      ∃ q0, read_property 5
        ⟨0, 42, 0, [], [], [], 0, 0, 0, 0, [], 0, [], 0, [], 0⟩ none
        ([6,0,0,0, 67,111,117,110,116,0] ++
         [12,0,0,0, 73,110,116,80,114,111,112,101,114,116,121,0] ++
         [4,0,0,0] ++ [0,0,0,0] ++ [0] ++ [42,0,0,0] ++
         [5,0,0,0, 78,111,110,101,0]) q0 = .ok (none, 48)) :=
  ⟨c1_property_sentinel.1 5
      ⟨0, 42, 0, [], [], [], 0, 0, 0, 0, [], 0, [], 0, [], 0⟩ none
      ([6,0,0,0, 67,111,117,110,116,0] ++
       [12,0,0,0, 73,110,116,80,114,111,112,101,114,116,121,0] ++
       [4,0,0,0] ++ [0,0,0,0] ++ [0] ++ [42,0,0,0] ++
       [5,0,0,0, 78,111,110,101,0]) 0 (encStr "Count") 10 _ 39 (by rfl)
      (by rfl),
   c1_property_sentinel.2.1 4
      ⟨0, 42, 0, [], [], [], 0, 0, 0, 0, [], 0, [], 0, [], 0⟩ none
      [5,0,0,0, 78,111,110,101,0] 0 9 (by rfl),
   c1_property_sentinel.2.2 5 5
      ⟨0, 42, 0, [], [], [], 0, 0, 0, 0, [], 0, [], 0, [], 0⟩ none
      ([6,0,0,0, 67,111,117,110,116,0] ++
       [12,0,0,0, 73,110,116,80,114,111,112,101,114,116,121,0] ++
       [4,0,0,0] ++ [0,0,0,0] ++ [0] ++ [42,0,0,0] ++
       [5,0,0,0, 78,111,110,101,0]) 0 _ 48 (by rfl)⟩

/-! ### Claim C10: argument-history text properties retain nothing -/

/-- Claim C10: a Text property with history type 1 or 3 consumes the
recursive source format, the argument count and every argument record
(each argument failing unless its value type is 4), but none of it is
retained — the returned property's value is the default None history. -/
theorem c10_text_argument_history :
    (∀ (f : Nat) (bv : Int) (bs : List Nat) (p : Nat) (t : TextProperty)
        (pf : Nat),
      read_text_property f bv bs p = .ok (t, pf) →
      t.history_type = 1 ∨ t.history_type = 3 →
      t.tvalue = .noneT) ∧
    (∀ (f : Nat) (bv : Int) (bs : List Nat) (p : Nat) (nm : RStr)
        (p1 vt p2 : Nat),
      read_length_prefixed_string bs p = .ok (nm, p1) →
      read_u8 bs p1 = .ok (vt, p2) →
      vt ≠ 4 →
      read_text_argument (f+1) bv bs p =
        .error (.unknownTextArgumentValueType vt)) := by
  constructor
  · intro f bv bs p t pf h hht
    match f with
    | 0 => exact absurd h (by simp [read_text_property, rdErr])
    | f+1 =>
      unfold read_text_property at h
      rcases (Rd.bind_ok_iff _ _).mp h with ⟨flags, p1, _, h⟩
      rcases (Rd.bind_ok_iff _ _).mp h with ⟨ht, p2, _, h⟩
      by_cases h0 : ht = 0
      · rw [if_pos h0] at h
        rcases (Rd.bind_ok_iff _ _).mp h with ⟨ns, q1, _, h⟩
        rcases (Rd.bind_ok_iff _ _).mp h with ⟨ky, q2, _, h⟩
        rcases (Rd.bind_ok_iff _ _).mp h with ⟨vl, q3, _, h⟩
        replace h : (pure (TextProperty.mk flags ht
          (.baseH { namespace_ := ns, key := ky, value := vl })) :
          Rd TextProperty) bs q3 = .ok (t, pf) := h
        rw [Rd.pure_def] at h
        simp only [Except.ok.injEq, Prod.mk.injEq] at h
        rw [← h.1] at hht
        simp [TextProperty.history_type, h0] at hht
      · rw [if_neg h0] at h
        by_cases h13 : ht = 1 ∨ ht = 3
        · rw [if_pos h13] at h
          rcases (Rd.bind_ok_iff _ _).mp h with ⟨src, q1, _, h⟩
          rcases (Rd.bind_ok_iff _ _).mp h with ⟨n, q2, _, h⟩
          rcases (Rd.bind_ok_iff _ _).mp h with ⟨args, q3, _, h⟩
          replace h : (pure (TextProperty.mk flags ht .noneT) :
            Rd TextProperty) bs q3 = .ok (t, pf) := h
          rw [Rd.pure_def] at h
          simp only [Except.ok.injEq, Prod.mk.injEq] at h
          rw [← h.1]
          rfl
        · rw [if_neg h13] at h
          by_cases h10 : ht = 10
          · rw [if_pos h10] at h
            rcases (Rd.bind_ok_iff _ _).mp h with ⟨src, q1, _, h⟩
            rcases (Rd.bind_ok_iff _ _).mp h with ⟨tt, q2, _, h⟩
            replace h : (pure (TextProperty.mk flags ht
              (.transformH (.mk src tt))) : Rd TextProperty) bs q2 =
              .ok (t, pf) := h
            rw [Rd.pure_def] at h
            simp only [Except.ok.injEq, Prod.mk.injEq] at h
            rw [← h.1] at hht
            simp [TextProperty.history_type, h10] at hht
          · rw [if_neg h10] at h
            by_cases h11 : ht = 11
            · rw [if_pos h11] at h
              rcases (Rd.bind_ok_iff _ _).mp h with ⟨tid, q1, _, h⟩
              rcases (Rd.bind_ok_iff _ _).mp h with ⟨tk, q2, _, h⟩
              replace h : (pure (TextProperty.mk flags ht
                (.stringTableEntryH { table_id := tid, text_key := tk })) :
                Rd TextProperty) bs q2 = .ok (t, pf) := h
              rw [Rd.pure_def] at h
              simp only [Except.ok.injEq, Prod.mk.injEq] at h
              rw [← h.1] at hht
              simp [TextProperty.history_type, h11] at hht
            · rw [if_neg h11] at h
              by_cases h255 : ht = 255
              · rw [if_pos h255] at h
                rcases (Rd.bind_ok_iff _ _).mp h with ⟨ci, q1, _, h⟩
                rcases (Rd.bind_ok_iff _ _).mp h with ⟨vl, q2, _, h⟩
                replace h : (pure (TextProperty.mk flags ht
                  (.noneH ⟨ci, vl⟩)) : Rd TextProperty) bs q2 =
                  .ok (t, pf) := h
                rw [Rd.pure_def] at h
                simp only [Except.ok.injEq, Prod.mk.injEq] at h
                rw [← h.1] at hht
                simp [TextProperty.history_type, h255] at hht
              · rw [if_neg h255] at h
                exact absurd h (by simp [rdErr])
  · intro f bv bs p nm p1 vt p2 h1 h2 hvt
    unfold read_text_argument
    rw [Rd.bind_ok _ _ h1, Rd.bind_ok _ _ h2, if_neg hvt]
    rfl

/-- Witness for C10: a history-type-1 Text with 0 arguments parses and
keeps the default None history value; a value-type-5 argument fails. -/
theorem c10_text_argument_history_witness :
    read_text_property 3 0
      [0,0,0,0, 1, 0,0,0,0, 0, 0,0,0,0, 0,0,0,0, 0,0,0,0, 0,0,0,0] 0 =
      .ok (TextProperty.mk 0 1 .noneT, 26) ∧
    TextProperty.tvalue (TextProperty.mk 0 1 .noneT) = .noneT ∧
    read_text_argument 2 0 [0,0,0,0, 5] 0 =
      .error (.unknownTextArgumentValueType 5) :=
  ⟨by rfl,
   c10_text_argument_history.1 3 0
     [0,0,0,0, 1, 0,0,0,0, 0, 0,0,0,0, 0,0,0,0, 0,0,0,0, 0,0,0,0] 0
     (TextProperty.mk 0 1 .noneT) 26 (by rfl) (Or.inl rfl),
   c10_text_argument_history.2 1 0 [0,0,0,0, 5] 0 [] 4 5 5 (by rfl) (by rfl)
     (by decide)⟩

/-! ### Claim C9: the mFogOfWarRawData byte-array special case -/

theorem read_u8_ok {bs : List Nat} {p : Nat} {b : Nat} {p' : Nat}
    (h : read_u8 bs p = .ok (b, p')) : bs.get? p = some b ∧ p' = p + 1 := by
  unfold read_u8 at h
  rcases hg : bs.get? p with _ | c <;> rw [hg] at h
  · simp at h
  · simp only [Except.ok.injEq, Prod.mk.injEq] at h
    exact ⟨congrArg some h.1, h.2.symm⟩

theorem seek_relative_ok (n : Int) (bs : List Nat) (p : Nat)
    (h : 0 ≤ (p : Int) + n) :
    seek_relative n bs p = .ok ((), ((p : Int) + n).toNat) := by
  unfold seek_relative
  rw [if_neg (by omega)]

theorem read_fog_group_ok {bs : List Nat} {q : Nat} {v : ArrayPropertyValue}
    {q' : Nat} (h : read_fog_group bs q = .ok (v, q')) :
    ∃ b, bs.get? (q + 2) = some b ∧ v = .byteAv b ∧ q' = q + 4 := by
  unfold read_fog_group at h
  rcases (Rd.bind_ok_iff _ _).mp h with ⟨b0, q1, h0, h⟩
  rcases (Rd.bind_ok_iff _ _).mp h with ⟨b1, q2, h1, h⟩
  rcases (Rd.bind_ok_iff _ _).mp h with ⟨b2, q3, h2, h⟩
  rcases (Rd.bind_ok_iff _ _).mp h with ⟨b3, q4, h3, h⟩
  rw [Rd.pure_def] at h
  simp only [Except.ok.injEq, Prod.mk.injEq] at h
  obtain ⟨hg0, rfl⟩ := read_u8_ok h0
  obtain ⟨hg1, rfl⟩ := read_u8_ok h1
  obtain ⟨hg2, rfl⟩ := read_u8_ok h2
  obtain ⟨hg3, rfl⟩ := read_u8_ok h3
  exact ⟨b2, by simpa using hg2, h.1.symm, by omega⟩

theorem fog_loop_ok :
    ∀ (k : Nat) (bs : List Nat) (q : Nat) (elems : List ArrayPropertyValue)
      (q' : Nat), repN k read_fog_group bs q = .ok (elems, q') →
      q' = q + 4 * k ∧ elems.length = k ∧
      ∀ j < k, ∃ b, bs.get? (q + 4 * j + 2) = some b ∧
        elems.get? j = some (.byteAv b) := by
  intro k
  induction k with
  | zero =>
    intro bs q elems q' h
    rw [show repN 0 read_fog_group = pure [] from rfl, Rd.pure_def] at h
    simp only [Except.ok.injEq, Prod.mk.injEq] at h
    refine ⟨by omega, by simp [← h.1], ?_⟩
    intro j hj
    omega
  | succ k ih =>
    intro bs q elems q' h
    unfold repN at h
    rcases (Rd.bind_ok_iff _ _).mp h with ⟨v, q1, hv, h⟩
    rcases (Rd.bind_ok_iff _ _).mp h with ⟨rest, q2, hrest, hp⟩
    rw [Rd.pure_def] at hp
    simp only [Except.ok.injEq, Prod.mk.injEq] at hp
    rcases read_fog_group_ok hv with ⟨b, hget, rfl, rfl⟩
    rcases ih bs (q + 4) rest q2 hrest with ⟨hq2, hlen, hall⟩
    rw [← hp.1, ← hp.2]
    refine ⟨by omega, by simp [hlen], ?_⟩
    intro j hj
    match j with
    | 0 => exact ⟨b, by simpa using hget, rfl⟩
    | j+1 =>
      rcases hall j (by omega) with ⟨b2, hget2, helem⟩
      refine ⟨b2, ?_, by simpa using helem⟩
      have : q + 4 + 4 * j + 2 = q + 4 * (j + 1) + 2 := by omega
      rw [← this]
      exact hget2

/-- Claim C9: an Array property of element type Byte named
`mFogOfWarRawData` with declared element count `n` (with `4 ∣ n`, `0 ≤ n`,
as the claim's "n bytes in n/4 groups of 4" presupposes) consumes exactly
`n` bytes in `n/4` groups of 4 and yields `n/4` elements, each the third
byte of its group. -/
theorem c9_fog_of_war :
    ∀ (fl : Nat) (hdr : Header) (bs : List Nat) (p : Nat) (t : RStr)
      (p1 : Nat) (n : Int) (p2 : Nat) (l : ArrayProperty) (pf : Nat),
      read_length_prefixed_string bs p = .ok (t, p1) →
      stripAll (encStr "Property") t = encStr "Byte" →
      read_i32 bs (p1 + 1) = .ok (n, p2) →
      0 ≤ n → (4 : Int) ∣ n →
      read_array_property (fl+1) (encStr "mFogOfWarRawData") hdr bs p =
        .ok (l, pf) →
      pf = p2 + n.toNat ∧
      l.elements.length = n.toNat / 4 ∧
      ∀ j < n.toNat / 4, ∃ b, bs.get? (p2 + 4 * j + 2) = some b ∧
        l.elements.get? j = some (.byteAv b) := by
  intro fl hdr bs p t p1 n p2 l pf hrl hstrip hi32 hn hdvd h
  unfold read_array_property at h
  rw [Rd.bind_ok _ _ hrl] at h
  simp only [hstrip] at h
  rw [Rd.bind_ok _ _ (seek_relative_ok 1 bs p1 (by omega))] at h
  have hp11 : (((p1 : Int) + 1)).toNat = p1 + 1 := by omega
  rw [hp11] at h
  rw [Rd.bind_ok _ _ hi32] at h
  rw [if_neg (by decide), if_pos trivial, if_pos trivial] at h
  rcases (Rd.bind_ok_iff _ _).mp h with ⟨elems, q, hloop, hp⟩
  rw [Rd.pure_def] at hp
  simp only [Except.ok.injEq, Prod.mk.injEq] at hp
  rcases fog_loop_ok _ bs p2 elems q hloop with ⟨hq, hlen, hall⟩
  have h44 : 4 * (n / 4).toNat = n.toNat := by omega
  have h4d : (n / 4).toNat = n.toNat / 4 := by omega
  rw [← hp.1, ← hp.2]
  refine ⟨by omega, ?_, ?_⟩
  · show elems.length = n.toNat / 4
    omega
  · intro j hj
    exact hall j (by omega)

/-- Witness for C9: count 8, two groups; elements are the third bytes 12
and 22, and exactly 8 bytes are consumed. -/
theorem c9_fog_of_war_witness :
    (30 : Nat) = 22 + (8 : Int).toNat ∧
    (ArrayProperty.mk (encStr "Byte") none
      [.byteAv 12, .byteAv 22]).elements.length = (8 : Int).toNat / 4 ∧
    ∀ j < (8 : Int).toNat / 4, ∃ b,
      ([13,0,0,0, 66,121,116,101,80,114,111,112,101,114,116,121,0, 9,
        8,0,0,0, 10,11,12,13, 20,21,22,23] : List Nat).get?
          (22 + 4 * j + 2) = some b ∧
      (ArrayProperty.mk (encStr "Byte") none
        [.byteAv 12, .byteAv 22]).elements.get? j = some (.byteAv b) :=
  c9_fog_of_war 1 ⟨0, 42, 0, [], [], [], 0, 0, 0, 0, [], 0, [], 0, [], 0⟩
    [13,0,0,0, 66,121,116,101,80,114,111,112,101,114,116,121,0, 9,
     8,0,0,0, 10,11,12,13, 20,21,22,23] 0
    (encStr "ByteProperty") 17 8 22
    (ArrayProperty.mk (encStr "Byte") none [.byteAv 12, .byteAv 22]) 30
    (by rfl) (by decide) (by rfl) (by decide) (by decide) (by rfl)

/-! ### Claim C7: partition records are decoded but discarded -/

theorem alInsert_mem {β : Type} (kv : RStr × β) (k : RStr) (v : β)
    (m : AList β) (h : kv ∈ alInsert k v m) : kv.2 = v ∨ kv ∈ m := by
  unfold alInsert at h
  split at h
  · rcases List.mem_map.mp h with ⟨kv0, hkv0, heq⟩
    by_cases hk : kv0.1 = k
    · rw [if_pos hk] at heq
      left
      rw [← heq]
    · rw [if_neg hk] at heq
      right
      rw [← heq]
      exact hkv0
  · rcases List.mem_append.mp h with h | h
    · right
      exact h
    · left
      simp only [List.mem_singleton] at h
      rw [h]

theorem read_partition_record_ok {m : AList Partition} {bs : List Nat}
    {p : Nat} {m' : AList Partition} {pf : Nat}
    (h : read_partition_record m bs p = .ok (m', pf)) :
    ∃ key, m' = alInsert key Partition.dflt m := by
  unfold read_partition_record at h
  rcases (Rd.bind_ok_iff _ _).mp h with ⟨key, q1, _, h⟩
  rcases (Rd.bind_ok_iff _ _).mp h with ⟨u1, q2, _, h⟩
  rcases (Rd.bind_ok_iff _ _).mp h with ⟨u2, q3, _, h⟩
  rcases (Rd.bind_ok_iff _ _).mp h with ⟨nlv, q4, _, h⟩
  rcases (Rd.bind_ok_iff _ _).mp h with ⟨lvs, q5, _, h⟩
  replace h : (pure (alInsert key Partition.dflt m) :
    Rd (AList Partition)) bs q5 = .ok (m', pf) := h
  rw [Rd.pure_def] at h
  simp only [Except.ok.injEq, Prod.mk.injEq] at h
  exact ⟨key, h.1.symm⟩

theorem foldN_record_default :
    ∀ (k : Nat) (m : AList Partition) (bs : List Nat) (p : Nat)
      (m' : AList Partition) (pf : Nat),
      (∀ kv ∈ m, kv.2 = Partition.dflt) →
      foldN k read_partition_record m bs p = .ok (m', pf) →
      ∀ kv ∈ m', kv.2 = Partition.dflt := by
  intro k
  induction k with
  | zero =>
    intro m bs p m' pf hm h
    rw [show foldN 0 read_partition_record m = pure m from rfl,
      Rd.pure_def] at h
    simp only [Except.ok.injEq, Prod.mk.injEq] at h
    rw [← h.1]
    exact hm
  | succ k ih =>
    intro m bs p m' pf hm h
    unfold foldN at h
    rcases (Rd.bind_ok_iff _ _).mp h with ⟨m2, q, hrec, h⟩
    rcases read_partition_record_ok hrec with ⟨key, rfl⟩
    refine ih _ bs q m' pf ?_ h
    intro kv hkv
    rcases alInsert_mem kv key Partition.dflt m hkv with h | h
    · exact h
    · exact hm kv h

/-- Decomposition of a successful `read_partitions` run: the five preamble
fields, then exactly `(N-1).toNat` iterations of the record parser, whose
result is the final partitions map. -/
theorem read_partitions_decompose :
    ∀ (bs : List Nat) (p : Nat) (n : Int) (p1 : Nat) (parts : Partitions)
      (pf : Nat),
      read_i32 bs p = .ok (n, p1) →
      read_partitions bs p = .ok (parts, pf) →
      ∃ s1 q1 v1 q2 v2 q3 s2 q4 v3 q5,
        read_length_prefixed_string bs p1 = .ok (s1, q1) ∧
        read_i64 bs q1 = .ok (v1, q2) ∧
        read_i32 bs q2 = .ok (v2, q3) ∧
        read_length_prefixed_string bs q3 = .ok (s2, q4) ∧
        read_i32 bs q4 = .ok (v3, q5) ∧
        foldN (n - 1).toNat read_partition_record [] bs q5 =
          .ok (parts.partitions, pf) := by
  intro bs p n p1 parts pf hi h
  unfold read_partitions at h
  rcases (Rd.bind_ok_iff _ _).mp h with ⟨n2, p12, hi2, h⟩
  rw [hi] at hi2
  simp only [Except.ok.injEq, Prod.mk.injEq] at hi2
  obtain ⟨rfl, rfl⟩ := hi2
  rcases (Rd.bind_ok_iff _ _).mp h with ⟨s1, q1, h1, h⟩
  rcases (Rd.bind_ok_iff _ _).mp h with ⟨v1, q2, h2, h⟩
  rcases (Rd.bind_ok_iff _ _).mp h with ⟨v2, q3, h3, h⟩
  rcases (Rd.bind_ok_iff _ _).mp h with ⟨s2, q4, h4, h⟩
  rcases (Rd.bind_ok_iff _ _).mp h with ⟨v3, q5, h5, h⟩
  rcases (Rd.bind_ok_iff _ _).mp h with ⟨folded, q6, hfold, h⟩
  replace h : (pure (Partitions.mk s1 v1 v2 s2 v3 folded) :
    Rd Partitions) bs q6 = .ok (parts, pf) := h
  rw [Rd.pure_def] at h
  simp only [Except.ok.injEq, Prod.mk.injEq] at h
  refine ⟨s1, q1, v1, q2, v2, q3, s2, q4, v3, q5, h1, h2, h3, h4, h5, ?_⟩
  rw [← h.1, ← h.2]
  exact hfold

/-- Claim C7: `read_partitions` reads the five opaque preamble fields and
then exactly `N-1` partition records; each decoded record is discarded and
its key bound to a default-constructed Partition (empty levels map), so
with `N = 1` the resulting map is empty. -/
theorem c7_partitions_discard_records :
    (∀ (bs : List Nat) (p : Nat) (parts : Partitions) (pf : Nat),
      read_partitions bs p = .ok (parts, pf) →
      ∀ kv ∈ parts.partitions, kv.2 = Partition.dflt) ∧
    (∀ (bs : List Nat) (p : Nat) (n : Int) (p1 : Nat) (parts : Partitions)
        (pf : Nat),
      read_i32 bs p = .ok (n, p1) →
      read_partitions bs p = .ok (parts, pf) →
      ∃ s1 q1 v1 q2 v2 q3 s2 q4 v3 q5,
        read_length_prefixed_string bs p1 = .ok (s1, q1) ∧
        read_i64 bs q1 = .ok (v1, q2) ∧
        read_i32 bs q2 = .ok (v2, q3) ∧
        read_length_prefixed_string bs q3 = .ok (s2, q4) ∧
        read_i32 bs q4 = .ok (v3, q5) ∧
        foldN (n - 1).toNat read_partition_record [] bs q5 =
          .ok (parts.partitions, pf)) ∧
    (∀ (bs : List Nat) (p : Nat) (p1 : Nat) (parts : Partitions) (pf : Nat),
      read_i32 bs p = .ok (1, p1) →
      read_partitions bs p = .ok (parts, pf) →
      parts.partitions = []) := by
  refine ⟨?_, read_partitions_decompose, ?_⟩
  · intro bs p parts pf h
    unfold read_partitions at h
    rcases (Rd.bind_ok_iff _ _).mp h with ⟨n, p1, _, h⟩
    rcases (Rd.bind_ok_iff _ _).mp h with ⟨s1, q1, _, h⟩
    rcases (Rd.bind_ok_iff _ _).mp h with ⟨v1, q2, _, h⟩
    rcases (Rd.bind_ok_iff _ _).mp h with ⟨v2, q3, _, h⟩
    rcases (Rd.bind_ok_iff _ _).mp h with ⟨s2, q4, _, h⟩
    rcases (Rd.bind_ok_iff _ _).mp h with ⟨v3, q5, _, h⟩
    rcases (Rd.bind_ok_iff _ _).mp h with ⟨folded, q6, hfold, h⟩
    replace h : (pure (Partitions.mk s1 v1 v2 s2 v3 folded) :
      Rd Partitions) bs q6 = .ok (parts, pf) := h
    rw [Rd.pure_def] at h
    simp only [Except.ok.injEq, Prod.mk.injEq] at h
    rw [← h.1]
    exact foldN_record_default _ [] bs q5 folded q6 (by simp) hfold
  · intro bs p p1 parts pf hi h
    rcases read_partitions_decompose bs p 1 p1 parts pf hi h with
      ⟨s1, q1, v1, q2, v2, q3, s2, q4, v3, q5, _, _, _, _, _, hfold⟩
    have h0 : ((1 : Int) - 1).toNat = 0 := by norm_num
    rw [h0] at hfold
    rw [show foldN 0 read_partition_record [] = pure [] from rfl,
      Rd.pure_def] at hfold
    simp only [Except.ok.injEq, Prod.mk.injEq] at hfold
    exact hfold.1.symm

/-- Witness for C7 at a concrete stream with `num_partitions = 1`: the
resulting partitions map is empty. -/
theorem c7_partitions_discard_records_witness :
    (∀ kv ∈ (Partitions.mk [] 0 0 [] 0 []).partitions,
      kv.2 = Partition.dflt) ∧
    (Partitions.mk [] 0 0 [] 0 []).partitions = ([] : AList Partition) :=
  ⟨c7_partitions_discard_records.1
    [1,0,0,0, 0,0,0,0, 0,0,0,0,0,0,0,0, 0,0,0,0, 0,0,0,0, 0,0,0,0] 0
    (Partitions.mk [] 0 0 [] 0 []) 28 (by rfl),
   c7_partitions_discard_records.2.2
    [1,0,0,0, 0,0,0,0, 0,0,0,0,0,0,0,0, 0,0,0,0, 0,0,0,0, 0,0,0,0] 0 4
    (Partitions.mk [] 0 0 [] 0 []) 28 (by rfl) (by rfl)⟩

/-! ### Claim C8: the synthesized last-level name is never used -/

/-- The level loop with the last-level test removed: what the source's loop
actually computes, since `i == num_levels` never holds for an iterated
index.  The level index argument of `read_level` is unused by the decoder,
so it is fixed to 0 here. -/
def read_levels_loop_noSynth (f : Nat) (header : Header) :
    Nat → Rd (List Level)
  | 0 => pure []
  | k+1 => do
    let lvl ← read_level f 0 false header
    let rest ← read_levels_loop_noSynth f header k
    pure (lvl :: rest)

theorem read_levels_loop_eq_noSynth (f : Nat) (header : Header)
    (nl : Int) :
    ∀ (k : Nat) (i : Int) (bs : List Nat) (p : Nat), i + k ≤ nl →
      read_levels_loop f header nl k i bs p =
        read_levels_loop_noSynth f header k bs p := by
  intro k
  induction k with
  | zero =>
    intro i bs p _
    rfl
  | succ k ih =>
    intro i bs p hik
    show (read_level f i (decide (i = nl)) header >>= fun lvl =>
      read_levels_loop f header nl k (i + 1) >>= fun rest =>
      pure (lvl :: rest)) bs p = _
    have hne : i ≠ nl := by omega
    rw [decide_eq_false hne]
    have hidx : read_level f i false header = read_level f 0 false header :=
      rfl
    rw [hidx]
    show _ = (read_level f 0 false header >>= fun lvl =>
      read_levels_loop_noSynth f header k >>= fun rest =>
      pure (lvl :: rest)) bs p
    rcases hlvl : read_level f 0 false header bs p with e | ⟨lvl, p1⟩
    · rw [Rd.bind_err _ _ hlvl, Rd.bind_err _ _ hlvl]
    · rw [Rd.bind_ok _ _ hlvl, Rd.bind_ok _ _ hlvl]
      rcases hrest : read_levels_loop f header nl k (i + 1) bs p1 with
        e | ⟨rest, p2⟩
      · rw [Rd.bind_err _ _ hrest]
        rw [ih (i + 1) bs p1 (by omega)] at hrest
        rw [Rd.bind_err _ _ hrest]
      · rw [Rd.bind_ok _ _ hrest]
        rw [ih (i + 1) bs p1 (by omega)] at hrest
        rw [Rd.bind_ok _ _ hrest]

/-- Claim C8: in `read_levels` the `is_last_level` argument
(`i == num_levels`) is false for every iterated index, so the decoder
equals the loop with the synthesized-name branch removed, and every
successfully parsed level's name is the length-prefixed string read from
the stream. -/
theorem c8_last_level_never_synthesized :
    (∀ (f : Nat) (header : Header) (nl : Int) (k : Nat) (i : Int)
        (bs : List Nat) (p : Nat), i + k ≤ nl →
      read_levels_loop f header nl k i bs p =
        read_levels_loop_noSynth f header k bs p) ∧
    (∀ (f : Nat) (header : Header) (bs : List Nat) (p : Nat) (n : Int)
        (p1 : Nat),
      read_i32 bs p = .ok (n, p1) →
      read_levels f header bs p =
        read_levels_loop_noSynth f header n.toNat bs p1) ∧
    (∀ (f : Nat) (i : Int) (header : Header) (bs : List Nat) (p : Nat)
        (lvl : Level) (pf : Nat),
      read_level f i false header bs p = .ok (lvl, pf) →
      ∃ p1, read_length_prefixed_string bs p = .ok (lvl.name, p1)) := by
  refine ⟨fun f header nl => read_levels_loop_eq_noSynth f header nl,
    ?_, ?_⟩
  · intro f header bs p n p1 hi
    unfold read_levels
    rw [Rd.bind_ok _ _ hi]
    rcases le_or_lt 0 n with hn | hn
    · exact read_levels_loop_eq_noSynth f header n n.toNat 0 bs p1
        (by omega)
    · have h0 : n.toNat = 0 := by omega
      rw [h0]
      rfl
  · intro f i header bs p lvl pf h
    unfold read_level at h
    rw [if_neg (by simp)] at h
    rcases (Rd.bind_ok_iff _ _).mp h with ⟨nm, p1, h1, h⟩
    rcases (Rd.bind_ok_iff _ _).mp h with ⟨sz, q2, _, h⟩
    rcases (Rd.bind_ok_iff _ _).mp h with ⟨st, q3, _, h⟩
    rcases (Rd.bind_ok_iff _ _).mp h with ⟨nh, q4, _, h⟩
    rcases (Rd.bind_ok_iff _ _).mp h with ⟨hd, q5, _, h⟩
    rcases (Rd.bind_ok_iff _ _).mp h with ⟨cp, q6, _, h⟩
    rcases (Rd.bind_ok_iff _ _).mp h with ⟨col, q7, _, h⟩
    rcases (Rd.bind_ok_iff _ _).mp h with ⟨u8s, q8, _, h⟩
    rcases (Rd.bind_ok_iff _ _).mp h with ⟨no, q9, _, h⟩
    rcases (Rd.bind_ok_iff _ _).mp h with ⟨objs, q10, _, h⟩
    rcases (Rd.bind_ok_iff _ _).mp h with ⟨nsc, q11, _, h⟩
    rcases (Rd.bind_ok_iff _ _).mp h with ⟨u2, q12, _, h⟩
    replace h : (pure (Level.mk nm hd col objs) : Rd Level) bs q12 =
      .ok (lvl, pf) := h
    rw [Rd.pure_def] at h
    simp only [Except.ok.injEq, Prod.mk.injEq] at h
    refine ⟨p1, ?_⟩
    rw [← h.1]
    exact h1

/-- Witness for C8: a one-level stream; the level's name is the empty
string read from the stream, never the synthesized name. -/
theorem c8_last_level_never_synthesized_witness :
    read_levels 3 ⟨0, 42, 0, encStr "X", [], [], 0, 0, 0, 0, [], 0, [], 0, [], 0⟩
      ([1,0,0,0] ++ [0,0,0,0] ++ [4,0,0,0,0,0,0,0] ++ [0,0,0,0] ++
       [9,9,9,9,9,9,9,9] ++ [0,0,0,0] ++ [0,0,0,0]) 0 =
      read_levels_loop_noSynth 3
        ⟨0, 42, 0, encStr "X", [], [], 0, 0, 0, 0, [], 0, [], 0, [], 0⟩
        (1 : Int).toNat
        ([1,0,0,0] ++ [0,0,0,0] ++ [4,0,0,0,0,0,0,0] ++ [0,0,0,0] ++
         [9,9,9,9,9,9,9,9] ++ [0,0,0,0] ++ [0,0,0,0]) 4 ∧
    ∃ p1, read_length_prefixed_string
      ([1,0,0,0] ++ [0,0,0,0] ++ [4,0,0,0,0,0,0,0] ++ [0,0,0,0] ++
       [9,9,9,9,9,9,9,9] ++ [0,0,0,0] ++ [0,0,0,0]) 4 =
      .ok ((Level.mk [] [] [] []).name, p1) :=
  ⟨c8_last_level_never_synthesized.2.1 3
    ⟨0, 42, 0, encStr "X", [], [], 0, 0, 0, 0, [], 0, [], 0, [], 0⟩
    ([1,0,0,0] ++ [0,0,0,0] ++ [4,0,0,0,0,0,0,0] ++ [0,0,0,0] ++
     [9,9,9,9,9,9,9,9] ++ [0,0,0,0] ++ [0,0,0,0]) 0 1 4 (by rfl),
   c8_last_level_never_synthesized.2.2 3 0
    ⟨0, 42, 0, encStr "X", [], [], 0, 0, 0, 0, [], 0, [], 0, [], 0⟩
    ([1,0,0,0] ++ [0,0,0,0] ++ [4,0,0,0,0,0,0,0] ++ [0,0,0,0] ++
     [9,9,9,9,9,9,9,9] ++ [0,0,0,0] ++ [0,0,0,0]) 4
    (Level.mk [] [] [] []) 36 (by rfl)⟩

/-! ### Claim C2: the trailing-byte handling after an object body -/


/-- `read_exact` advances the cursor by exactly the requested count. -/
theorem read_bytes_advance (n : Nat) :
    ∀ (bs : List Nat) (p : Nat) (l : List Nat) (pf : Nat),
      read_bytes n bs p = .ok (l, pf) → pf = p + n := by
  induction n with
  | zero =>
    intro bs p l pf h
    rw [show read_bytes 0 = (pure [] : Rd (List Nat)) from rfl, Rd.pure_def] at h
    simp only [Except.ok.injEq, Prod.mk.injEq] at h
    omega
  | succ n ih =>
    intro bs p l pf h
    unfold read_bytes at h
    rcases (Rd.bind_ok_iff _ _).mp h with ⟨b, p1, h1, h⟩
    rcases (Rd.bind_ok_iff _ _).mp h with ⟨rest, p2, h2, h⟩
    rw [Rd.pure_def] at h
    simp only [Except.ok.injEq, Prod.mk.injEq] at h
    have e1 := (read_u8_ok h1).2
    have e2 := ih bs p1 rest p2 h2
    omega

/-- A successful `read_u16` advances the cursor by 2 bytes. -/
theorem read_u16_advance {bs : List Nat} {p u pf : Nat}
    (h : read_u16 bs p = .ok (u, pf)) : pf = p + 2 := by
  unfold read_u16 at h
  rcases (Rd.bind_ok_iff _ _).mp h with ⟨bts, p1, h1, h⟩
  rw [Rd.pure_def] at h
  simp only [Except.ok.injEq, Prod.mk.injEq] at h
  have := read_bytes_advance 2 bs p bts p1 h1
  omega

/-- `read_u16_into` advances the cursor by 2 bytes per unit. -/
theorem read_u16_units_advance (n : Nat) :
    ∀ (bs : List Nat) (p : Nat) (us : List Nat) (pf : Nat),
      read_u16_units n bs p = .ok (us, pf) → pf = p + 2 * n := by
  induction n with
  | zero =>
    intro bs p us pf h
    rw [show read_u16_units 0 = (pure [] : Rd (List Nat)) from rfl,
      Rd.pure_def] at h
    simp only [Except.ok.injEq, Prod.mk.injEq] at h
    omega
  | succ n ih =>
    intro bs p us pf h
    unfold read_u16_units at h
    rcases (Rd.bind_ok_iff _ _).mp h with ⟨u, p1, h1, h⟩
    rcases (Rd.bind_ok_iff _ _).mp h with ⟨rest, p2, h2, h⟩
    rw [Rd.pure_def] at h
    simp only [Except.ok.injEq, Prod.mk.injEq] at h
    have e1 := read_u16_advance h1
    have e2 := ih bs p1 rest p2 h2
    omega

/-- A successful `read_hex len` advances the cursor by `2 * len` bytes:
each of the `len` UTF-16 code units is two bytes. -/
theorem read_hex_advance (len : Nat) {bs : List Nat} {p : Nat} {s : RStr}
    {pf : Nat} (h : read_hex len bs p = .ok (s, pf)) : pf = p + 2 * len := by
  unfold read_hex at h
  rcases (Rd.bind_ok_iff _ _).mp h with ⟨units, p1, h1, h⟩
  have hadv := read_u16_units_advance len bs p units p1 h1
  rcases hd : utf16Decode units with _ | s2
  · rw [hd] at h
    replace h : (rdErr .utf16Err : Rd RStr) bs p1 = .ok (s, pf) := h
    simp [rdErr] at h
  · rw [hd] at h
    replace h : (pure s2 : Rd RStr) bs p1 = .ok (s, pf) := h
    rw [Rd.pure_def] at h
    simp only [Except.ok.injEq, Prod.mk.injEq] at h
    omega

/-- Claim C2 (amended): after the property list of an object body, with
`end = start + declared_size` (the size cast `i32 as u64`): a position past
`end` is the error `ObjectLength(type_path)`; on success the object is
returned unchanged and the cursor lands at `p + 8` for a gap above 4 bytes
with a `/Script/FactoryGame.FG` type path, at `p + 2 * gap` (NOT `p + gap`:
`read_hex(gap)` consumes `gap` 16-bit units, two bytes each) for a gap above
4 bytes otherwise, and at `p + 4` for a gap of at most 4 bytes. -/
theorem c2_object_trailing_bytes (type_path : RStr) (start_byte : Nat)
    (object_size_bytes : Int) (object : Object) (bs : List Nat) (p : Nat) :
    (start_byte + uval64 object_size_bytes < p →
      finish_object type_path start_byte object_size_bytes object bs p =
        .error (.objectLength type_path)) ∧
    (∀ (o : Object) (pf : Nat),
      finish_object type_path start_byte object_size_bytes object bs p =
        .ok (o, pf) →
      o = object ∧ p ≤ start_byte + uval64 object_size_bytes ∧
      pf = if 4 < start_byte + uval64 object_size_bytes - p then
             (if (encStr "/Script/FactoryGame.FG").isPrefixOf type_path
              then p + 8
              else p + 2 * (start_byte + uval64 object_size_bytes - p))
           else p + 4) := by
  have hfo : finish_object type_path start_byte object_size_bytes object bs p =
      (if start_byte + uval64 object_size_bytes < p then
        (rdErr (.objectLength type_path) : Rd Object)
       else if start_byte + uval64 object_size_bytes - p > 4 then
         (if (encStr "/Script/FactoryGame.FG").isPrefixOf type_path then
            seek_relative 8 >>= fun _ => pure object
          else read_hex (start_byte + uval64 object_size_bytes - p) >>=
            fun _skipped => (pure () : Rd Unit) >>= fun _ => pure object)
       else seek_relative 4 >>= fun _ => pure object) bs p := rfl
  constructor
  · intro hlt
    rw [hfo, if_pos hlt]
    rfl
  · intro o pf h
    rw [hfo] at h
    by_cases h1 : start_byte + uval64 object_size_bytes < p
    · rw [if_pos h1] at h
      simp [rdErr] at h
    · rw [if_neg h1] at h
      have hle : p ≤ start_byte + uval64 object_size_bytes :=
        Nat.le_of_not_lt h1
      by_cases h2 : start_byte + uval64 object_size_bytes - p > 4
      · rw [if_pos h2] at h
        rw [if_pos h2]
        by_cases h3 : (encStr "/Script/FactoryGame.FG").isPrefixOf type_path
        · rw [if_pos h3] at h
          rw [if_pos h3]
          rcases (Rd.bind_ok_iff _ _).mp h with ⟨u, p1, hs, h⟩
          unfold seek_relative at hs
          rw [if_neg (by omega)] at hs
          simp only [Except.ok.injEq, Prod.mk.injEq] at hs
          rw [Rd.pure_def] at h
          simp only [Except.ok.injEq, Prod.mk.injEq] at h
          exact ⟨h.1.symm, hle, by omega⟩
        · rw [if_neg h3] at h
          rw [if_neg h3]
          rcases (Rd.bind_ok_iff _ _).mp h with ⟨s, p1, hh, h⟩
          have hadv := read_hex_advance _ hh
          replace h : (pure object : Rd Object) bs p1 = .ok (o, pf) := h
          rw [Rd.pure_def] at h
          simp only [Except.ok.injEq, Prod.mk.injEq] at h
          exact ⟨h.1.symm, hle, by omega⟩
      · rw [if_neg h2] at h
        rw [if_neg h2]
        rcases (Rd.bind_ok_iff _ _).mp h with ⟨u, p1, hs, h⟩
        unfold seek_relative at hs
        rw [if_neg (by omega)] at hs
        simp only [Except.ok.injEq, Prod.mk.injEq] at hs
        rw [Rd.pure_def] at h
        simp only [Except.ok.injEq, Prod.mk.injEq] at h
        exact ⟨h.1.symm, hle, by omega⟩

/-- A component object body: save version 1, declared size 15, a `"None"`
property sentinel, then six UTF-16 code units `"AAAAAA"`. -/
def c2bytes : List Nat :=
  [1,0,0,0] ++ [9,9,9,9] ++ [15,0,0,0] ++
  [5,0,0,0, 78,111,110,101,0] ++
  [65,0, 65,0, 65,0, 65,0, 65,0, 65,0]

/-- Counterexample to C2 as stated: properties end at 21 with gap
`(12 + 15) - 21 = 6 > 4` and a non-FactoryGame type path, yet `read_object`
lands at 33 = 21 + 2*6, not at 21 + gap = 27: `read_hex(gap)` consumes
`2 * gap` bytes, not `gap` bytes. -/
theorem c2_object_gap_counterexample :
    ∃ obj : Object,
      read_object 5
        (ObjectHeader.componentH ⟨encStr "X", none, [], []⟩)
        ⟨0, 42, 0, encStr "X", [], [], 0, 0, 0, 0, [], 0, [], 0, [], 0⟩
        c2bytes 0 = .ok (obj, 33) ∧ (33 : Nat) ≠ 21 + 6 :=
  ⟨Object.componentO ⟨false, 1, 15, [], none, none⟩, by rfl, by decide⟩

/-- Witness for C2: the overrun case errors at position 28 (> 27), and the
success case from position 21 with gap 6 lands at 33. -/
theorem c2_object_trailing_bytes_witness :
    (finish_object (encStr "X") 12 15
      (Object.componentO ComponentObject.dflt) c2bytes 28 =
      .error (.objectLength (encStr "X"))) ∧
    (Object.componentO ComponentObject.dflt =
       Object.componentO ComponentObject.dflt ∧
     21 ≤ 12 + uval64 15 ∧
     (33 : Nat) = if 4 < 12 + uval64 15 - 21 then
            (if (encStr "/Script/FactoryGame.FG").isPrefixOf (encStr "X")
             then 21 + 8 else 21 + 2 * (12 + uval64 15 - 21))
          else 21 + 4) :=
  ⟨(c2_object_trailing_bytes (encStr "X") 12 15
      (Object.componentO ComponentObject.dflt) c2bytes 28).1 (by decide),
   (c2_object_trailing_bytes (encStr "X") 12 15
      (Object.componentO ComponentObject.dflt) c2bytes 21).2
      (Object.componentO ComponentObject.dflt) 33 (by rfl)⟩

/-! ### Claim C3: object bodies versus object headers in a level -/


/-- The object setters and property append preserve the Actor/Component
variant. -/
theorem Object.variant_set_save_version (o : Object) (v : Int) :
    (o.set_save_version v).variant = o.variant := by cases o <;> rfl

theorem Object.variant_set_size_bytes (o : Object) (v : Int) :
    (o.set_size_bytes v).variant = o.variant := by cases o <;> rfl

theorem Object.variant_set_should_be_nulled (o : Object) :
    o.set_should_be_nulled.variant = o.variant := by cases o <;> rfl

theorem Object.variant_add_property (o : Object) (pr : Property) :
    (o.add_property pr).variant = o.variant := by cases o <;> rfl

theorem Object.variant_add_properties (ps : List Property) :
    ∀ (o : Object), (o.add_properties ps).variant = o.variant := by
  induction ps with
  | nil => intro o; rfl
  | cons pr t ih =>
    intro o
    show (Object.add_properties (o.add_property pr) t).variant = _
    rw [ih, Object.variant_add_property]

/-- A successful `finish_object` returns the object it was given. -/
theorem finish_object_ok_obj (tp : RStr) (sb : Nat) (sz : Int) (obj : Object)
    (bs : List Nat) (p : Nat) (o : Object) (pf : Nat)
    (h : finish_object tp sb sz obj bs p = .ok (o, pf)) : o = obj := by
  have hfo : finish_object tp sb sz obj bs p =
      (if sb + uval64 sz < p then
        (rdErr (.objectLength tp) : Rd Object)
       else if sb + uval64 sz - p > 4 then
         (if (encStr "/Script/FactoryGame.FG").isPrefixOf tp then
            seek_relative 8 >>= fun _ => pure obj
          else read_hex (sb + uval64 sz - p) >>=
            fun _skipped => (pure () : Rd Unit) >>= fun _ => pure obj)
       else seek_relative 4 >>= fun _ => pure obj) bs p := rfl
  rw [hfo] at h
  by_cases h1 : sb + uval64 sz < p
  · rw [if_pos h1] at h
    simp [rdErr] at h
  · rw [if_neg h1] at h
    by_cases h2 : sb + uval64 sz - p > 4
    · rw [if_pos h2] at h
      by_cases h3 : (encStr "/Script/FactoryGame.FG").isPrefixOf tp
      · rw [if_pos h3] at h
        rcases (Rd.bind_ok_iff _ _).mp h with ⟨u, p1, _, h⟩
        rw [Rd.pure_def] at h
        simp only [Except.ok.injEq, Prod.mk.injEq] at h
        exact h.1.symm
      · rw [if_neg h3] at h
        rcases (Rd.bind_ok_iff _ _).mp h with ⟨s, p1, _, h⟩
        replace h : (pure obj : Rd Object) bs p1 = .ok (o, pf) := h
        rw [Rd.pure_def] at h
        simp only [Except.ok.injEq, Prod.mk.injEq] at h
        exact h.1.symm
    · rw [if_neg h2] at h
      rcases (Rd.bind_ok_iff _ _).mp h with ⟨u, p1, _, h⟩
      rw [Rd.pure_def] at h
      simp only [Except.ok.injEq, Prod.mk.injEq] at h
      exact h.1.symm

/-- `read_object` produces a body of the same variant as the header it
decodes against: the initial object is chosen by matching on the header,
and nothing downstream changes the variant. -/
theorem read_object_variant (f : Nat) (oh : ObjectHeader) (hdr : Header)
    (bs : List Nat) (p : Nat) (o : Object) (pf : Nat)
    (h : read_object f oh hdr bs p = .ok (o, pf)) :
    o.variant = oh.variant := by
  unfold read_object at h
  rcases (Rd.bind_ok_iff _ _).mp h with ⟨sv, p1, _, h⟩
  rcases (Rd.bind_ok_iff _ _).mp h with ⟨u0, p2, _, h⟩
  rcases (Rd.bind_ok_iff _ _).mp h with ⟨sz, p3, _, h⟩
  rcases (Rd.bind_ok_iff _ _).mp h with ⟨sb, p4, _, h⟩
  rcases (Rd.bind_ok_iff _ _).mp h with ⟨obj3, p5, h5, h⟩
  rcases (Rd.bind_ok_iff _ _).mp h with ⟨cp, p6, _, h⟩
  have hv3 : obj3.variant = oh.variant := by
    rcases oh with ch | ah
    · replace h5 : (pure (Object.componentO ⟨false, sv, sz, [], none, none⟩)
          : Rd Object) bs p4 = .ok (obj3, p5) := h5
      rw [Rd.pure_def] at h5
      simp only [Except.ok.injEq, Prod.mk.injEq] at h5
      rw [← h5.1]
      rfl
    · rcases (Rd.bind_ok_iff _ _).mp h5 with ⟨ln, q1, _, h5⟩
      rcases (Rd.bind_ok_iff _ _).mp h5 with ⟨pn, q2, _, h5⟩
      rcases (Rd.bind_ok_iff _ _).mp h5 with ⟨nc, q3, _, h5⟩
      rcases (Rd.bind_ok_iff _ _).mp h5 with ⟨cs, q4, _, h5⟩
      rw [Rd.pure_def] at h5
      simp only [Except.ok.injEq, Prod.mk.injEq] at h5
      rw [← h5.1]
      rfl
  by_cases hc : cp - sb = uval64 sz
  · rw [if_pos hc] at h
    rw [Rd.pure_def] at h
    simp only [Except.ok.injEq, Prod.mk.injEq] at h
    rw [← h.1, Object.variant_set_should_be_nulled, hv3]
  · rw [if_neg hc] at h
    rcases (Rd.bind_ok_iff _ _).mp h with ⟨props, p7, _, h⟩
    have ho := finish_object_ok_obj _ _ _ _ _ _ _ _ h
    rw [ho, Object.variant_add_properties, hv3]

/-- The object loop of `read_level`: a successful run of `k` iterations from
index `i` yields exactly `k` bodies, stays within the header list
(`i + k <= |headers|` when `k > 0`, since each iteration requires
`headers[i]` to exist), and aligns the `j`-th body's variant with header
`i + j`. -/
theorem read_objects_loop_ok (f : Nat) (nm : RStr) (hdrs : List ObjectHeader)
    (hdr : Header) :
    ∀ (k i : Nat) (bs : List Nat) (p : Nat) (os : List Object) (pf : Nat),
      read_objects_loop f nm hdrs hdr k i bs p = .ok (os, pf) →
      os.length = k ∧ (k = 0 ∨ i + k ≤ hdrs.length) ∧
      ∀ (j : Nat) (o : Object) (oh : ObjectHeader), os.get? j = some o →
        hdrs.get? (i + j) = some oh → o.variant = oh.variant := by
  intro k
  induction k with
  | zero =>
    intro i bs p os pf h
    replace h : (pure [] : Rd (List Object)) bs p = .ok (os, pf) := h
    rw [Rd.pure_def] at h
    simp only [Except.ok.injEq, Prod.mk.injEq] at h
    refine ⟨by rw [← h.1]; rfl, Or.inl rfl, ?_⟩
    intro j o oh hj _
    rw [← h.1] at hj
    simp at hj
  | succ k ih =>
    intro i bs p os pf h
    unfold read_objects_loop at h
    rcases hg : hdrs.get? i with _ | oh0
    · rw [hg] at h
      replace h : (rdErr (.missingObjectHeader nm) : Rd (List Object)) bs p
          = .ok (os, pf) := h
      simp [rdErr] at h
    · rw [hg] at h
      replace h : (read_object f oh0 hdr >>= fun o =>
        read_objects_loop f nm hdrs hdr k (i+1) >>= fun rest =>
        pure (o :: rest)) bs p = .ok (os, pf) := h
      rcases (Rd.bind_ok_iff _ _).mp h with ⟨o1, p1, h1, h⟩
      rcases (Rd.bind_ok_iff _ _).mp h with ⟨rest, p2, h2, h⟩
      rw [Rd.pure_def] at h
      simp only [Except.ok.injEq, Prod.mk.injEq] at h
      obtain ⟨hrec, hk, halign⟩ := ih (i+1) bs p1 rest p2 h2
      have hi : i < hdrs.length := by
        by_contra hc
        rw [List.get?_eq_none.mpr (Nat.le_of_not_lt hc)] at hg
        exact Option.noConfusion hg
      refine ⟨?_, Or.inr ?_, ?_⟩
      · rw [← h.1]
        simp [hrec]
      · rcases hk with rfl | hk2 <;> omega
      · intro j o oh hj hh
        rw [← h.1] at hj
        cases j with
        | zero =>
          replace hj : some o1 = some o := hj
          rw [Nat.add_zero, hg] at hh
          injection hj with hj
          injection hh with hh
          rw [← hj, ← hh]
          exact read_object_variant f oh0 hdr bs p o1 p1 h1
        | succ j =>
          replace hj : rest.get? j = some o := hj
          have hji : i + (j+1) = (i+1) + j := by omega
          rw [hji] at hh
          exact halign j o oh hj hh

/-- Claim C3 (amended): in a successfully parsed level the objects list has
AT MOST as many entries as the header list (`num_objects` is read from the
stream independently, so fewer bodies than headers parse fine), and each
body's variant matches the same-index header's variant. -/
theorem c3_objects_headers_alignment (f : Nat) (i : Int) (il : Bool)
    (hdr : Header) (bs : List Nat) (p : Nat) (lvl : Level) (pf : Nat)
    (h : read_level f i il hdr bs p = .ok (lvl, pf)) :
    lvl.objects.length ≤ lvl.object_headers.length ∧
    ∀ (j : Nat) (o : Object) (oh : ObjectHeader),
      lvl.objects.get? j = some o → lvl.object_headers.get? j = some oh →
      o.variant = oh.variant := by
  unfold read_level at h
  cases il with
  | false =>
    rw [if_neg (by simp)] at h
    rcases (Rd.bind_ok_iff _ _).mp h with ⟨nm, p1, _, h⟩
    rcases (Rd.bind_ok_iff _ _).mp h with ⟨sz, q2, _, h⟩
    rcases (Rd.bind_ok_iff _ _).mp h with ⟨st, q3, _, h⟩
    rcases (Rd.bind_ok_iff _ _).mp h with ⟨nh, q4, _, h⟩
    rcases (Rd.bind_ok_iff _ _).mp h with ⟨hd, q5, _, h⟩
    rcases (Rd.bind_ok_iff _ _).mp h with ⟨cp, q6, _, h⟩
    rcases (Rd.bind_ok_iff _ _).mp h with ⟨col, q7, _, h⟩
    rcases (Rd.bind_ok_iff _ _).mp h with ⟨u8s, q8, _, h⟩
    rcases (Rd.bind_ok_iff _ _).mp h with ⟨no, q9, _, h⟩
    rcases (Rd.bind_ok_iff _ _).mp h with ⟨objs, q10, h10, h⟩
    rcases (Rd.bind_ok_iff _ _).mp h with ⟨nsc, q11, _, h⟩
    rcases (Rd.bind_ok_iff _ _).mp h with ⟨u2, q12, _, h⟩
    replace h : (pure (Level.mk nm hd col objs) : Rd Level) bs q12 =
      .ok (lvl, pf) := h
    rw [Rd.pure_def] at h
    simp only [Except.ok.injEq, Prod.mk.injEq] at h
    obtain ⟨hlen, hk, halign⟩ :=
      read_objects_loop_ok f nm hd hdr no.toNat 0 bs q9 objs q10 h10
    rw [← h.1]
    constructor
    · show objs.length ≤ hd.length
      rcases hk with h0 | hle <;> omega
    · intro j o oh hj hh
      exact halign j o oh hj (by rw [Nat.zero_add]; exact hh)
  | true =>
    rw [if_pos rfl] at h
    rcases (Rd.bind_ok_iff _ _).mp h with ⟨nm, p1, _, h⟩
    rcases (Rd.bind_ok_iff _ _).mp h with ⟨sz, q2, _, h⟩
    rcases (Rd.bind_ok_iff _ _).mp h with ⟨st, q3, _, h⟩
    rcases (Rd.bind_ok_iff _ _).mp h with ⟨nh, q4, _, h⟩
    rcases (Rd.bind_ok_iff _ _).mp h with ⟨hd, q5, _, h⟩
    rcases (Rd.bind_ok_iff _ _).mp h with ⟨cp, q6, _, h⟩
    rcases (Rd.bind_ok_iff _ _).mp h with ⟨col, q7, _, h⟩
    rcases (Rd.bind_ok_iff _ _).mp h with ⟨u8s, q8, _, h⟩
    rcases (Rd.bind_ok_iff _ _).mp h with ⟨no, q9, _, h⟩
    rcases (Rd.bind_ok_iff _ _).mp h with ⟨objs, q10, h10, h⟩
    rcases (Rd.bind_ok_iff _ _).mp h with ⟨nsc, q11, _, h⟩
    rcases (Rd.bind_ok_iff _ _).mp h with ⟨u2, q12, _, h⟩
    replace h : (pure (Level.mk nm hd col objs) : Rd Level) bs q12 =
      .ok (lvl, pf) := h
    rw [Rd.pure_def] at h
    simp only [Except.ok.injEq, Prod.mk.injEq] at h
    obtain ⟨hlen, hk, halign⟩ :=
      read_objects_loop_ok f nm hd hdr no.toNat 0 bs q9 objs q10 h10
    rw [← h.1]
    constructor
    · show objs.length ≤ hd.length
      rcases hk with h0 | hle <;> omega
    · intro j o oh hj hh
      exact halign j o oh hj (by rw [Nat.zero_add]; exact hh)

/-- A level with one component object header but `num_objects = 0`: empty
name, declared header-section size 4, one header (type 0 and four empty
strings), 8 filler bytes, zero objects and zero second collectables. -/
def c3bytes : List Nat :=
  [0,0,0,0] ++ [4,0,0,0,0,0,0,0] ++ [1,0,0,0] ++
  [0,0,0,0] ++ [0,0,0,0] ++ [0,0,0,0] ++ [0,0,0,0] ++ [0,0,0,0] ++
  [9,9,9,9,9,9,9,9] ++ [0,0,0,0] ++ [0,0,0,0]

/-- Counterexample to C3 as stated: `read_level` succeeds with one object
header and zero object bodies, so the two lists are NOT equal in length. -/
theorem c3_objects_headers_counterexample :
    ∃ lvl : Level,
      read_level 3 0 false
        ⟨0, 42, 0, encStr "X", [], [], 0, 0, 0, 0, [], 0, [], 0, [], 0⟩
        c3bytes 0 = .ok (lvl, 52) ∧
      lvl.object_headers.length = 1 ∧ lvl.objects.length = 0 :=
  ⟨⟨[], [.componentH ⟨[], some [], [], []⟩], [], []⟩, by rfl, rfl, rfl⟩

/-- Witness for C3 on the same one-header, zero-body level. -/
theorem c3_objects_headers_alignment_witness :
    (Level.mk [] [.componentH ⟨[], some [], [], []⟩] [] []).objects.length ≤
      (Level.mk [] [.componentH ⟨[], some [], [], []⟩] [] []).object_headers.length ∧
    ∀ (j : Nat) (o : Object) (oh : ObjectHeader),
      (Level.mk [] [.componentH ⟨[], some [], [], []⟩] [] []).objects.get? j =
        some o →
      (Level.mk [] [.componentH ⟨[], some [], [], []⟩] [] []).object_headers.get? j =
        some oh →
      o.variant = oh.variant :=
  c3_objects_headers_alignment 3 0 false
    ⟨0, 42, 0, encStr "X", [], [], 0, 0, 0, 0, [], 0, [], 0, [], 0⟩
    c3bytes 0 (Level.mk [] [.componentH ⟨[], some [], [], []⟩] [] []) 52 (by rfl)

/-! ### Claim C6: the save-file version gate

`NUV r` states that no run of the reader `r` can produce the
`unsupportedFileVersion` error: that error is constructed in exactly one
place, the version gate of `read_file`.  The lemmas below lift `NUV`
through every decoder of the crate, by fuel induction over the mutual
property engine. -/


/-- No run of the reader can fail with the version-gate error. -/
def NUV {α : Type} (r : Rd α) : Prop :=
  ∀ (bs : List Nat) (p : Nat) (v m : Int),
    r bs p ≠ .error (.unsupportedFileVersion v m)

theorem NUV.bind {α β : Type} {x : Rd α} {f : α → Rd β}
    (hx : NUV x) (hf : ∀ a, NUV (f a)) : NUV (x >>= f) := by
  intro bs p v m
  show (match x bs p with
    | .ok (a, p2) => f a bs p2
    | .error e => .error e) ≠ _
  rcases hx2 : x bs p with e | ⟨a, p1⟩
  · intro h
    injection h with h
    exact hx bs p v m (by rw [hx2, h])
  · intro h
    exact hf a bs p1 v m h

theorem NUV.pure {α : Type} (a : α) : NUV (pure a : Rd α) := by
  intro bs p v m h
  rw [Rd.pure_def] at h
  cases h

theorem NUV.rdErr {α : Type} (e : ParseErr)
    (he : ∀ v m, e ≠ .unsupportedFileVersion v m) : NUV (rdErr e : Rd α) := by
  intro bs p v m h
  injection h with h
  exact he v m h

theorem NUV.ite {α : Type} (c : Prop) [Decidable c] {a b : Rd α}
    (ha : NUV a) (hb : NUV b) : NUV (if c then a else b) := by
  by_cases hc : c
  · rwa [if_pos hc]
  · rwa [if_neg hc]

theorem nuv_read_u8 : NUV read_u8 := by
  intro bs p v m
  unfold read_u8
  rcases bs.get? p with _ | b <;> intro h
  · injection h with h
    cases h
  · cases h

theorem nuv_stream_position : NUV stream_position := by
  intro bs p v m h
  cases h

theorem nuv_seek_relative (n : Int) : NUV (seek_relative n) := by
  intro bs p v m
  unfold seek_relative
  by_cases hc : (p : Int) + n < 0
  · rw [if_pos hc]
    intro h
    injection h with h
    cases h
  · rw [if_neg hc]
    intro h
    cases h

theorem nuv_read_bytes (n : Nat) : NUV (read_bytes n) := by
  induction n with
  | zero => exact NUV.pure []
  | succ n ih =>
    unfold read_bytes
    exact NUV.bind nuv_read_u8 fun b => NUV.bind ih fun rest => NUV.pure _

theorem nuv_read_u16 : NUV read_u16 := by
  unfold read_u16
  exact NUV.bind (nuv_read_bytes 2) fun _ => NUV.pure _

theorem nuv_read_u32 : NUV read_u32 := by
  unfold read_u32
  exact NUV.bind (nuv_read_bytes 4) fun _ => NUV.pure _

theorem nuv_read_u64 : NUV read_u64 := by
  unfold read_u64
  exact NUV.bind (nuv_read_bytes 8) fun _ => NUV.pure _

theorem nuv_read_i8 : NUV read_i8 := by
  unfold read_i8
  exact NUV.bind nuv_read_u8 fun _ => NUV.pure _

theorem nuv_read_i32 : NUV read_i32 := by
  unfold read_i32
  exact NUV.bind nuv_read_u32 fun _ => NUV.pure _

theorem nuv_read_i64 : NUV read_i64 := by
  unfold read_i64
  exact NUV.bind nuv_read_u64 fun _ => NUV.pure _

theorem nuv_read_f32 : NUV read_f32 := nuv_read_u32

theorem nuv_read_f64 : NUV read_f64 := nuv_read_u64

theorem nuv_read_u16_units (n : Nat) : NUV (read_u16_units n) := by
  induction n with
  | zero => exact NUV.pure []
  | succ n ih =>
    unfold read_u16_units
    exact NUV.bind nuv_read_u16 fun u => NUV.bind ih fun rest => NUV.pure _

theorem nuv_read_hex (len : Nat) : NUV (read_hex len) := by
  unfold read_hex
  refine NUV.bind (nuv_read_u16_units len) fun units => ?_
  rcases hd : utf16Decode units with _ | s
  · exact NUV.rdErr _ (fun v m h => ParseErr.noConfusion h)
  · exact NUV.pure _

theorem nuv_read_length_prefixed_string : NUV read_length_prefixed_string := by
  unfold read_length_prefixed_string
  refine NUV.bind nuv_read_i32 fun len => ?_
  refine NUV.ite _ ?_ (NUV.ite _ ?_ (NUV.pure _))
  · refine NUV.bind (nuv_read_bytes len.toNat) fun dst => ?_
    rcases hd : utf8Decode dst with _ | s
    · exact NUV.rdErr _ (fun v m h => ParseErr.noConfusion h)
    · exact NUV.pure _
  · exact NUV.bind (nuv_read_hex len.natAbs) fun s => NUV.pure _

theorem nuv_seek_length_prefixed_string : NUV seek_length_prefixed_string := by
  unfold seek_length_prefixed_string
  exact NUV.bind nuv_read_i32 fun len => nuv_seek_relative _

theorem nuv_repN (n : Nat) (r : Rd α) (h : NUV r) : NUV (repN n r) := by
  induction n with
  | zero => exact NUV.pure []
  | succ n ih =>
    unfold repN
    exact NUV.bind h fun a => NUV.bind ih fun rest => NUV.pure _

theorem nuv_foldN (n : Nat) (body : σ → Rd σ) (h : ∀ s, NUV (body s)) :
    ∀ st, NUV (foldN n body st) := by
  induction n with
  | zero => exact fun st => NUV.pure st
  | succ n ih =>
    intro st
    unfold foldN
    exact NUV.bind (h st) fun st2 => ih st2

theorem nuv_foldBrN (n : Nat) (body : σ → Rd (σ × Bool))
    (h : ∀ s, NUV (body s)) : ∀ st, NUV (foldBrN n body st) := by
  induction n with
  | zero => exact fun st => NUV.pure st
  | succ n ih =>
    intro st
    unfold foldBrN
    refine NUV.bind (h st) fun a => ?_
    rcases a with ⟨st2, keep⟩
    exact NUV.ite _ (ih st2) (NUV.pure st2)

theorem nuv_whileSome (fuel : Nat) (body : Rd (Option α)) (h : NUV body) :
    NUV (whileSome fuel body) := by
  induction fuel with
  | zero => exact NUV.rdErr _ (fun v m hh => ParseErr.noConfusion hh)
  | succ fuel ih =>
    unfold whileSome
    refine NUV.bind h fun a => ?_
    rcases a with _ | x
    · exact NUV.pure []
    · exact NUV.bind ih fun rest => NUV.pure _

theorem NUV.pmatch {α β γ : Type} (x : β × γ) {k : β → γ → Rd α}
    (hk : ∀ b c, NUV (k b c)) :
    NUV (match x with | (b, c) => k b c) := by
  rcases x with ⟨b, c⟩
  exact hk b c

theorem nuv_read_header : NUV read_header := by
  unfold Convey.read_header
  repeat'
    first
    | exact NUV.pure _
    | exact NUV.rdErr _ (fun v m h => ParseErr.noConfusion h)
    | exact nuv_read_i32
    | exact nuv_read_i64
    | exact nuv_read_i8
    | exact nuv_read_u8
    | exact nuv_read_u16
    | exact nuv_read_u32
    | exact nuv_read_u64
    | exact nuv_read_f32
    | exact nuv_read_f64
    | exact nuv_read_length_prefixed_string
    | exact nuv_seek_length_prefixed_string
    | exact nuv_stream_position
    | exact nuv_read_hex _
    | exact nuv_read_bytes _
    | exact nuv_read_u16_units _
    | exact nuv_seek_relative _
    | refine nuv_repN _ _ ?_
    | refine nuv_foldN _ _ (fun s => ?_) _
    | refine nuv_foldBrN _ _ (fun s => ?_) _
    | refine nuv_whileSome _ _ ?_
    | refine NUV.ite _ ?_ ?_
    | refine NUV.pmatch _ fun a b => ?_
    | refine NUV.bind ?_ fun a => ?_

theorem nuv_read_partition_record (m : AList Partition) : NUV (read_partition_record m) := by
  unfold Convey.read_partition_record
  repeat'
    first
    | exact NUV.pure _
    | exact NUV.rdErr _ (fun v m h => ParseErr.noConfusion h)
    | exact nuv_read_i32
    | exact nuv_read_i64
    | exact nuv_read_i8
    | exact nuv_read_u8
    | exact nuv_read_u16
    | exact nuv_read_u32
    | exact nuv_read_u64
    | exact nuv_read_f32
    | exact nuv_read_f64
    | exact nuv_read_length_prefixed_string
    | exact nuv_seek_length_prefixed_string
    | exact nuv_stream_position
    | exact nuv_read_hex _
    | exact nuv_read_bytes _
    | exact nuv_read_u16_units _
    | exact nuv_seek_relative _
    | refine nuv_repN _ _ ?_
    | refine nuv_foldN _ _ (fun s => ?_) _
    | refine nuv_foldBrN _ _ (fun s => ?_) _
    | refine nuv_whileSome _ _ ?_
    | refine NUV.ite _ ?_ ?_
    | refine NUV.pmatch _ fun a b => ?_
    | refine NUV.bind ?_ fun a => ?_

theorem nuv_read_partitions : NUV read_partitions := by
  unfold Convey.read_partitions
  repeat'
    first
    | exact nuv_read_partition_record _
    | exact NUV.pure _
    | exact NUV.rdErr _ (fun v m h => ParseErr.noConfusion h)
    | exact nuv_read_i32
    | exact nuv_read_i64
    | exact nuv_read_i8
    | exact nuv_read_u8
    | exact nuv_read_u16
    | exact nuv_read_u32
    | exact nuv_read_u64
    | exact nuv_read_f32
    | exact nuv_read_f64
    | exact nuv_read_length_prefixed_string
    | exact nuv_seek_length_prefixed_string
    | exact nuv_stream_position
    | exact nuv_read_hex _
    | exact nuv_read_bytes _
    | exact nuv_read_u16_units _
    | exact nuv_seek_relative _
    | refine nuv_repN _ _ ?_
    | refine nuv_foldN _ _ (fun s => ?_) _
    | refine nuv_foldBrN _ _ (fun s => ?_) _
    | refine nuv_whileSome _ _ ?_
    | refine NUV.ite _ ?_ ?_
    | refine NUV.pmatch _ fun a b => ?_
    | refine NUV.bind ?_ fun a => ?_

theorem nuv_read_object_reference (mn : RStr) : NUV (read_object_reference mn) := by
  unfold Convey.read_object_reference
  repeat'
    first
    | exact NUV.pure _
    | exact NUV.rdErr _ (fun v m h => ParseErr.noConfusion h)
    | exact nuv_read_i32
    | exact nuv_read_i64
    | exact nuv_read_i8
    | exact nuv_read_u8
    | exact nuv_read_u16
    | exact nuv_read_u32
    | exact nuv_read_u64
    | exact nuv_read_f32
    | exact nuv_read_f64
    | exact nuv_read_length_prefixed_string
    | exact nuv_seek_length_prefixed_string
    | exact nuv_stream_position
    | exact nuv_read_hex _
    | exact nuv_read_bytes _
    | exact nuv_read_u16_units _
    | exact nuv_seek_relative _
    | refine nuv_repN _ _ ?_
    | refine nuv_foldN _ _ (fun s => ?_) _
    | refine nuv_foldBrN _ _ (fun s => ?_) _
    | refine nuv_whileSome _ _ ?_
    | refine NUV.ite _ ?_ ?_
    | refine NUV.pmatch _ fun a b => ?_
    | refine NUV.bind ?_ fun a => ?_

theorem nuv_read_object_reference_header (mn : RStr) : NUV (read_object_reference_header mn) := by
  unfold Convey.read_object_reference_header
  repeat'
    first
    | exact NUV.pure _
    | exact NUV.rdErr _ (fun v m h => ParseErr.noConfusion h)
    | exact nuv_read_i32
    | exact nuv_read_i64
    | exact nuv_read_i8
    | exact nuv_read_u8
    | exact nuv_read_u16
    | exact nuv_read_u32
    | exact nuv_read_u64
    | exact nuv_read_f32
    | exact nuv_read_f64
    | exact nuv_read_length_prefixed_string
    | exact nuv_seek_length_prefixed_string
    | exact nuv_stream_position
    | exact nuv_read_hex _
    | exact nuv_read_bytes _
    | exact nuv_read_u16_units _
    | exact nuv_seek_relative _
    | refine nuv_repN _ _ ?_
    | refine nuv_foldN _ _ (fun s => ?_) _
    | refine nuv_foldBrN _ _ (fun s => ?_) _
    | refine nuv_whileSome _ _ ?_
    | refine NUV.ite _ ?_ ?_
    | refine NUV.pmatch _ fun a b => ?_
    | refine NUV.bind ?_ fun a => ?_

theorem nuv_read_quaternion : NUV read_quaternion := by
  unfold Convey.read_quaternion
  repeat'
    first
    | exact NUV.pure _
    | exact NUV.rdErr _ (fun v m h => ParseErr.noConfusion h)
    | exact nuv_read_i32
    | exact nuv_read_i64
    | exact nuv_read_i8
    | exact nuv_read_u8
    | exact nuv_read_u16
    | exact nuv_read_u32
    | exact nuv_read_u64
    | exact nuv_read_f32
    | exact nuv_read_f64
    | exact nuv_read_length_prefixed_string
    | exact nuv_seek_length_prefixed_string
    | exact nuv_stream_position
    | exact nuv_read_hex _
    | exact nuv_read_bytes _
    | exact nuv_read_u16_units _
    | exact nuv_seek_relative _
    | refine nuv_repN _ _ ?_
    | refine nuv_foldN _ _ (fun s => ?_) _
    | refine nuv_foldBrN _ _ (fun s => ?_) _
    | refine nuv_whileSome _ _ ?_
    | refine NUV.ite _ ?_ ?_
    | refine NUV.pmatch _ fun a b => ?_
    | refine NUV.bind ?_ fun a => ?_

theorem nuv_read_quaternion_double : NUV read_quaternion_double := by
  unfold Convey.read_quaternion_double
  repeat'
    first
    | exact NUV.pure _
    | exact NUV.rdErr _ (fun v m h => ParseErr.noConfusion h)
    | exact nuv_read_i32
    | exact nuv_read_i64
    | exact nuv_read_i8
    | exact nuv_read_u8
    | exact nuv_read_u16
    | exact nuv_read_u32
    | exact nuv_read_u64
    | exact nuv_read_f32
    | exact nuv_read_f64
    | exact nuv_read_length_prefixed_string
    | exact nuv_seek_length_prefixed_string
    | exact nuv_stream_position
    | exact nuv_read_hex _
    | exact nuv_read_bytes _
    | exact nuv_read_u16_units _
    | exact nuv_seek_relative _
    | refine nuv_repN _ _ ?_
    | refine nuv_foldN _ _ (fun s => ?_) _
    | refine nuv_foldBrN _ _ (fun s => ?_) _
    | refine nuv_whileSome _ _ ?_
    | refine NUV.ite _ ?_ ?_
    | refine NUV.pmatch _ fun a b => ?_
    | refine NUV.bind ?_ fun a => ?_

theorem nuv_read_vector2d_double : NUV read_vector2d_double := by
  unfold Convey.read_vector2d_double
  repeat'
    first
    | exact NUV.pure _
    | exact NUV.rdErr _ (fun v m h => ParseErr.noConfusion h)
    | exact nuv_read_i32
    | exact nuv_read_i64
    | exact nuv_read_i8
    | exact nuv_read_u8
    | exact nuv_read_u16
    | exact nuv_read_u32
    | exact nuv_read_u64
    | exact nuv_read_f32
    | exact nuv_read_f64
    | exact nuv_read_length_prefixed_string
    | exact nuv_seek_length_prefixed_string
    | exact nuv_stream_position
    | exact nuv_read_hex _
    | exact nuv_read_bytes _
    | exact nuv_read_u16_units _
    | exact nuv_seek_relative _
    | refine nuv_repN _ _ ?_
    | refine nuv_foldN _ _ (fun s => ?_) _
    | refine nuv_foldBrN _ _ (fun s => ?_) _
    | refine nuv_whileSome _ _ ?_
    | refine NUV.ite _ ?_ ?_
    | refine NUV.pmatch _ fun a b => ?_
    | refine NUV.bind ?_ fun a => ?_

theorem nuv_read_vector2d_int : NUV read_vector2d_int := by
  unfold Convey.read_vector2d_int
  repeat'
    first
    | exact NUV.pure _
    | exact NUV.rdErr _ (fun v m h => ParseErr.noConfusion h)
    | exact nuv_read_i32
    | exact nuv_read_i64
    | exact nuv_read_i8
    | exact nuv_read_u8
    | exact nuv_read_u16
    | exact nuv_read_u32
    | exact nuv_read_u64
    | exact nuv_read_f32
    | exact nuv_read_f64
    | exact nuv_read_length_prefixed_string
    | exact nuv_seek_length_prefixed_string
    | exact nuv_stream_position
    | exact nuv_read_hex _
    | exact nuv_read_bytes _
    | exact nuv_read_u16_units _
    | exact nuv_seek_relative _
    | refine nuv_repN _ _ ?_
    | refine nuv_foldN _ _ (fun s => ?_) _
    | refine nuv_foldBrN _ _ (fun s => ?_) _
    | refine nuv_whileSome _ _ ?_
    | refine NUV.ite _ ?_ ?_
    | refine NUV.pmatch _ fun a b => ?_
    | refine NUV.bind ?_ fun a => ?_

theorem nuv_read_vector : NUV read_vector := by
  unfold Convey.read_vector
  repeat'
    first
    | exact NUV.pure _
    | exact NUV.rdErr _ (fun v m h => ParseErr.noConfusion h)
    | exact nuv_read_i32
    | exact nuv_read_i64
    | exact nuv_read_i8
    | exact nuv_read_u8
    | exact nuv_read_u16
    | exact nuv_read_u32
    | exact nuv_read_u64
    | exact nuv_read_f32
    | exact nuv_read_f64
    | exact nuv_read_length_prefixed_string
    | exact nuv_seek_length_prefixed_string
    | exact nuv_stream_position
    | exact nuv_read_hex _
    | exact nuv_read_bytes _
    | exact nuv_read_u16_units _
    | exact nuv_seek_relative _
    | refine nuv_repN _ _ ?_
    | refine nuv_foldN _ _ (fun s => ?_) _
    | refine nuv_foldBrN _ _ (fun s => ?_) _
    | refine nuv_whileSome _ _ ?_
    | refine NUV.ite _ ?_ ?_
    | refine NUV.pmatch _ fun a b => ?_
    | refine NUV.bind ?_ fun a => ?_

theorem nuv_read_vector_double : NUV read_vector_double := by
  unfold Convey.read_vector_double
  repeat'
    first
    | exact NUV.pure _
    | exact NUV.rdErr _ (fun v m h => ParseErr.noConfusion h)
    | exact nuv_read_i32
    | exact nuv_read_i64
    | exact nuv_read_i8
    | exact nuv_read_u8
    | exact nuv_read_u16
    | exact nuv_read_u32
    | exact nuv_read_u64
    | exact nuv_read_f32
    | exact nuv_read_f64
    | exact nuv_read_length_prefixed_string
    | exact nuv_seek_length_prefixed_string
    | exact nuv_stream_position
    | exact nuv_read_hex _
    | exact nuv_read_bytes _
    | exact nuv_read_u16_units _
    | exact nuv_seek_relative _
    | refine nuv_repN _ _ ?_
    | refine nuv_foldN _ _ (fun s => ?_) _
    | refine nuv_foldBrN _ _ (fun s => ?_) _
    | refine nuv_whileSome _ _ ?_
    | refine NUV.ite _ ?_ ?_
    | refine NUV.pmatch _ fun a b => ?_
    | refine NUV.bind ?_ fun a => ?_

theorem nuv_read_vector_int : NUV read_vector_int := by
  unfold Convey.read_vector_int
  repeat'
    first
    | exact NUV.pure _
    | exact NUV.rdErr _ (fun v m h => ParseErr.noConfusion h)
    | exact nuv_read_i32
    | exact nuv_read_i64
    | exact nuv_read_i8
    | exact nuv_read_u8
    | exact nuv_read_u16
    | exact nuv_read_u32
    | exact nuv_read_u64
    | exact nuv_read_f32
    | exact nuv_read_f64
    | exact nuv_read_length_prefixed_string
    | exact nuv_seek_length_prefixed_string
    | exact nuv_stream_position
    | exact nuv_read_hex _
    | exact nuv_read_bytes _
    | exact nuv_read_u16_units _
    | exact nuv_seek_relative _
    | refine nuv_repN _ _ ?_
    | refine nuv_foldN _ _ (fun s => ?_) _
    | refine nuv_foldBrN _ _ (fun s => ?_) _
    | refine nuv_whileSome _ _ ?_
    | refine NUV.ite _ ?_ ?_
    | refine NUV.pmatch _ fun a b => ?_
    | refine NUV.bind ?_ fun a => ?_

theorem nuv_read_vector4_double : NUV read_vector4_double := by
  unfold Convey.read_vector4_double
  repeat'
    first
    | exact NUV.pure _
    | exact NUV.rdErr _ (fun v m h => ParseErr.noConfusion h)
    | exact nuv_read_i32
    | exact nuv_read_i64
    | exact nuv_read_i8
    | exact nuv_read_u8
    | exact nuv_read_u16
    | exact nuv_read_u32
    | exact nuv_read_u64
    | exact nuv_read_f32
    | exact nuv_read_f64
    | exact nuv_read_length_prefixed_string
    | exact nuv_seek_length_prefixed_string
    | exact nuv_stream_position
    | exact nuv_read_hex _
    | exact nuv_read_bytes _
    | exact nuv_read_u16_units _
    | exact nuv_seek_relative _
    | refine nuv_repN _ _ ?_
    | refine nuv_foldN _ _ (fun s => ?_) _
    | refine nuv_foldBrN _ _ (fun s => ?_) _
    | refine nuv_whileSome _ _ ?_
    | refine NUV.ite _ ?_ ?_
    | refine NUV.pmatch _ fun a b => ?_
    | refine NUV.bind ?_ fun a => ?_

theorem nuv_read_vector4_int : NUV read_vector4_int := by
  unfold Convey.read_vector4_int
  repeat'
    first
    | exact NUV.pure _
    | exact NUV.rdErr _ (fun v m h => ParseErr.noConfusion h)
    | exact nuv_read_i32
    | exact nuv_read_i64
    | exact nuv_read_i8
    | exact nuv_read_u8
    | exact nuv_read_u16
    | exact nuv_read_u32
    | exact nuv_read_u64
    | exact nuv_read_f32
    | exact nuv_read_f64
    | exact nuv_read_length_prefixed_string
    | exact nuv_seek_length_prefixed_string
    | exact nuv_stream_position
    | exact nuv_read_hex _
    | exact nuv_read_bytes _
    | exact nuv_read_u16_units _
    | exact nuv_seek_relative _
    | refine nuv_repN _ _ ?_
    | refine nuv_foldN _ _ (fun s => ?_) _
    | refine nuv_foldBrN _ _ (fun s => ?_) _
    | refine nuv_whileSome _ _ ?_
    | refine NUV.ite _ ?_ ?_
    | refine NUV.pmatch _ fun a b => ?_
    | refine NUV.bind ?_ fun a => ?_

theorem nuv_read_color : NUV read_color := by
  unfold Convey.read_color
  repeat'
    first
    | exact NUV.pure _
    | exact NUV.rdErr _ (fun v m h => ParseErr.noConfusion h)
    | exact nuv_read_i32
    | exact nuv_read_i64
    | exact nuv_read_i8
    | exact nuv_read_u8
    | exact nuv_read_u16
    | exact nuv_read_u32
    | exact nuv_read_u64
    | exact nuv_read_f32
    | exact nuv_read_f64
    | exact nuv_read_length_prefixed_string
    | exact nuv_seek_length_prefixed_string
    | exact nuv_stream_position
    | exact nuv_read_hex _
    | exact nuv_read_bytes _
    | exact nuv_read_u16_units _
    | exact nuv_seek_relative _
    | refine nuv_repN _ _ ?_
    | refine nuv_foldN _ _ (fun s => ?_) _
    | refine nuv_foldBrN _ _ (fun s => ?_) _
    | refine nuv_whileSome _ _ ?_
    | refine NUV.ite _ ?_ ?_
    | refine NUV.pmatch _ fun a b => ?_
    | refine NUV.bind ?_ fun a => ?_

theorem nuv_read_color_byte : NUV read_color_byte := by
  unfold Convey.read_color_byte
  repeat'
    first
    | exact NUV.pure _
    | exact NUV.rdErr _ (fun v m h => ParseErr.noConfusion h)
    | exact nuv_read_i32
    | exact nuv_read_i64
    | exact nuv_read_i8
    | exact nuv_read_u8
    | exact nuv_read_u16
    | exact nuv_read_u32
    | exact nuv_read_u64
    | exact nuv_read_f32
    | exact nuv_read_f64
    | exact nuv_read_length_prefixed_string
    | exact nuv_seek_length_prefixed_string
    | exact nuv_stream_position
    | exact nuv_read_hex _
    | exact nuv_read_bytes _
    | exact nuv_read_u16_units _
    | exact nuv_seek_relative _
    | refine nuv_repN _ _ ?_
    | refine nuv_foldN _ _ (fun s => ?_) _
    | refine nuv_foldBrN _ _ (fun s => ?_) _
    | refine nuv_whileSome _ _ ?_
    | refine NUV.ite _ ?_ ?_
    | refine NUV.pmatch _ fun a b => ?_
    | refine NUV.bind ?_ fun a => ?_

theorem nuv_read_component_header (mn : RStr) : NUV (read_component_header mn) := by
  unfold Convey.read_component_header
  repeat'
    first
    | exact nuv_read_object_reference_header _
    | exact NUV.pure _
    | exact NUV.rdErr _ (fun v m h => ParseErr.noConfusion h)
    | exact nuv_read_i32
    | exact nuv_read_i64
    | exact nuv_read_i8
    | exact nuv_read_u8
    | exact nuv_read_u16
    | exact nuv_read_u32
    | exact nuv_read_u64
    | exact nuv_read_f32
    | exact nuv_read_f64
    | exact nuv_read_length_prefixed_string
    | exact nuv_seek_length_prefixed_string
    | exact nuv_stream_position
    | exact nuv_read_hex _
    | exact nuv_read_bytes _
    | exact nuv_read_u16_units _
    | exact nuv_seek_relative _
    | refine nuv_repN _ _ ?_
    | refine nuv_foldN _ _ (fun s => ?_) _
    | refine nuv_foldBrN _ _ (fun s => ?_) _
    | refine nuv_whileSome _ _ ?_
    | refine NUV.ite _ ?_ ?_
    | refine NUV.pmatch _ fun a b => ?_
    | refine NUV.bind ?_ fun a => ?_

theorem nuv_read_actor_header (mn : RStr) : NUV (read_actor_header mn) := by
  unfold Convey.read_actor_header
  repeat'
    first
    | exact nuv_read_object_reference_header _
    | exact nuv_read_quaternion
    | exact nuv_read_vector
    | exact NUV.pure _
    | exact NUV.rdErr _ (fun v m h => ParseErr.noConfusion h)
    | exact nuv_read_i32
    | exact nuv_read_i64
    | exact nuv_read_i8
    | exact nuv_read_u8
    | exact nuv_read_u16
    | exact nuv_read_u32
    | exact nuv_read_u64
    | exact nuv_read_f32
    | exact nuv_read_f64
    | exact nuv_read_length_prefixed_string
    | exact nuv_seek_length_prefixed_string
    | exact nuv_stream_position
    | exact nuv_read_hex _
    | exact nuv_read_bytes _
    | exact nuv_read_u16_units _
    | exact nuv_seek_relative _
    | refine nuv_repN _ _ ?_
    | refine nuv_foldN _ _ (fun s => ?_) _
    | refine nuv_foldBrN _ _ (fun s => ?_) _
    | refine nuv_whileSome _ _ ?_
    | refine NUV.ite _ ?_ ?_
    | refine NUV.pmatch _ fun a b => ?_
    | refine NUV.bind ?_ fun a => ?_

theorem nuv_read_property_guid : NUV read_property_guid := by
  unfold Convey.read_property_guid
  repeat'
    first
    | exact NUV.pure _
    | exact NUV.rdErr _ (fun v m h => ParseErr.noConfusion h)
    | exact nuv_read_i32
    | exact nuv_read_i64
    | exact nuv_read_i8
    | exact nuv_read_u8
    | exact nuv_read_u16
    | exact nuv_read_u32
    | exact nuv_read_u64
    | exact nuv_read_f32
    | exact nuv_read_f64
    | exact nuv_read_length_prefixed_string
    | exact nuv_seek_length_prefixed_string
    | exact nuv_stream_position
    | exact nuv_read_hex _
    | exact nuv_read_bytes _
    | exact nuv_read_u16_units _
    | exact nuv_seek_relative _
    | refine nuv_repN _ _ ?_
    | refine nuv_foldN _ _ (fun s => ?_) _
    | refine nuv_foldBrN _ _ (fun s => ?_) _
    | refine nuv_whileSome _ _ ?_
    | refine NUV.ite _ ?_ ?_
    | refine NUV.pmatch _ fun a b => ?_
    | refine NUV.bind ?_ fun a => ?_

theorem nuv_read_fingput1_buffer_pixel : NUV read_fingput1_buffer_pixel := by
  unfold Convey.read_fingput1_buffer_pixel
  repeat'
    first
    | exact nuv_read_color
    | exact NUV.pure _
    | exact NUV.rdErr _ (fun v m h => ParseErr.noConfusion h)
    | exact nuv_read_i32
    | exact nuv_read_i64
    | exact nuv_read_i8
    | exact nuv_read_u8
    | exact nuv_read_u16
    | exact nuv_read_u32
    | exact nuv_read_u64
    | exact nuv_read_f32
    | exact nuv_read_f64
    | exact nuv_read_length_prefixed_string
    | exact nuv_seek_length_prefixed_string
    | exact nuv_stream_position
    | exact nuv_read_hex _
    | exact nuv_read_bytes _
    | exact nuv_read_u16_units _
    | exact nuv_seek_relative _
    | refine nuv_repN _ _ ?_
    | refine nuv_foldN _ _ (fun s => ?_) _
    | refine nuv_foldBrN _ _ (fun s => ?_) _
    | refine nuv_whileSome _ _ ?_
    | refine NUV.ite _ ?_ ?_
    | refine NUV.pmatch _ fun a b => ?_
    | refine NUV.bind ?_ fun a => ?_

theorem nuv_read_fog_group : NUV read_fog_group := by
  unfold Convey.read_fog_group
  repeat'
    first
    | exact NUV.pure _
    | exact NUV.rdErr _ (fun v m h => ParseErr.noConfusion h)
    | exact nuv_read_i32
    | exact nuv_read_i64
    | exact nuv_read_i8
    | exact nuv_read_u8
    | exact nuv_read_u16
    | exact nuv_read_u32
    | exact nuv_read_u64
    | exact nuv_read_f32
    | exact nuv_read_f64
    | exact nuv_read_length_prefixed_string
    | exact nuv_seek_length_prefixed_string
    | exact nuv_stream_position
    | exact nuv_read_hex _
    | exact nuv_read_bytes _
    | exact nuv_read_u16_units _
    | exact nuv_seek_relative _
    | refine nuv_repN _ _ ?_
    | refine nuv_foldN _ _ (fun s => ?_) _
    | refine nuv_foldBrN _ _ (fun s => ?_) _
    | refine nuv_whileSome _ _ ?_
    | refine NUV.ite _ ?_ ?_
    | refine NUV.pmatch _ fun a b => ?_
    | refine NUV.bind ?_ fun a => ?_

theorem nuv_read_level_object_header (mn : RStr) :
    NUV (read_level_object_header mn) := by
  unfold Convey.read_level_object_header
  refine NUV.bind nuv_read_i32 fun t => ?_
  rcases ObjectType.from_i32 t with _ | ot
  · exact NUV.rdErr _ (fun v m h => ParseErr.noConfusion h)
  · rcases ot
    · exact NUV.bind (nuv_read_component_header mn) fun c => NUV.pure _
    · exact NUV.bind (nuv_read_actor_header mn) fun a => NUV.pure _

theorem nuv_read_fin_network_trace : ∀ f, NUV (read_fin_network_trace f) := by
  intro f
  induction f with
  | zero => exact NUV.rdErr _ (fun v m h => ParseErr.noConfusion h)
  | succ f ih =>
    unfold Convey.read_fin_network_trace
    repeat'
      first
      | exact ih
      | exact NUV.pure _
      | exact NUV.rdErr _ (fun v m h => ParseErr.noConfusion h)
      | exact nuv_read_i32
      | exact nuv_read_i64
      | exact nuv_read_i8
      | exact nuv_read_u8
      | exact nuv_read_u16
      | exact nuv_read_u32
      | exact nuv_read_u64
      | exact nuv_read_f32
      | exact nuv_read_f64
      | exact nuv_read_length_prefixed_string
      | exact nuv_seek_length_prefixed_string
      | exact nuv_stream_position
      | exact nuv_read_hex _
      | exact nuv_read_bytes _
      | exact nuv_read_u16_units _
      | exact nuv_seek_relative _
      | refine nuv_repN _ _ ?_
      | refine nuv_foldN _ _ (fun s => ?_) _
      | refine nuv_foldBrN _ _ (fun s => ?_) _
      | refine nuv_whileSome _ _ ?_
      | refine NUV.ite _ ?_ ?_
      | refine NUV.pmatch _ fun a b => ?_
      | refine NUV.bind ?_ fun a => ?_

theorem nuv_text_property_argument : ∀ f,
    (∀ bv, NUV (read_text_property f bv)) ∧
    (∀ bv, NUV (read_text_argument f bv)) := by
  intro f
  induction f with
  | zero =>
    exact ⟨fun bv => NUV.rdErr _ (fun v m h => ParseErr.noConfusion h),
      fun bv => NUV.rdErr _ (fun v m h => ParseErr.noConfusion h)⟩
  | succ f ih =>
    obtain ⟨ihp, iha⟩ := ih
    constructor
    · intro bv
      unfold Convey.read_text_property
      repeat'
        first
        | exact ihp _
        | exact iha _
        | exact NUV.pure _
        | exact NUV.rdErr _ (fun v m h => ParseErr.noConfusion h)
        | exact nuv_read_i32
        | exact nuv_read_i64
        | exact nuv_read_i8
        | exact nuv_read_u8
        | exact nuv_read_u16
        | exact nuv_read_u32
        | exact nuv_read_u64
        | exact nuv_read_f32
        | exact nuv_read_f64
        | exact nuv_read_length_prefixed_string
        | exact nuv_seek_length_prefixed_string
        | exact nuv_stream_position
        | exact nuv_read_hex _
        | exact nuv_read_bytes _
        | exact nuv_read_u16_units _
        | exact nuv_seek_relative _
        | refine nuv_repN _ _ ?_
        | refine nuv_foldN _ _ (fun s => ?_) _
        | refine nuv_foldBrN _ _ (fun s => ?_) _
        | refine nuv_whileSome _ _ ?_
        | refine NUV.ite _ ?_ ?_
        | refine NUV.pmatch _ fun a b => ?_
        | refine NUV.bind ?_ fun a => ?_
    · intro bv
      unfold Convey.read_text_argument
      repeat'
        first
        | exact ihp _
        | exact iha _
        | exact NUV.pure _
        | exact NUV.rdErr _ (fun v m h => ParseErr.noConfusion h)
        | exact nuv_read_i32
        | exact nuv_read_i64
        | exact nuv_read_i8
        | exact nuv_read_u8
        | exact nuv_read_u16
        | exact nuv_read_u32
        | exact nuv_read_u64
        | exact nuv_read_f32
        | exact nuv_read_f64
        | exact nuv_read_length_prefixed_string
        | exact nuv_seek_length_prefixed_string
        | exact nuv_stream_position
        | exact nuv_read_hex _
        | exact nuv_read_bytes _
        | exact nuv_read_u16_units _
        | exact nuv_seek_relative _
        | refine nuv_repN _ _ ?_
        | refine nuv_foldN _ _ (fun s => ?_) _
        | refine nuv_foldBrN _ _ (fun s => ?_) _
        | refine nuv_whileSome _ _ ?_
        | refine NUV.ite _ ?_ ?_
        | refine NUV.pmatch _ fun a b => ?_
        | refine NUV.bind ?_ fun a => ?_

theorem nuv_read_set_property (f : Nat) (pt : Option RStr) (header : Header) :
    NUV (read_set_property f pt header) := by
  unfold Convey.read_set_property
  repeat'
    first
    | exact nuv_read_object_reference _
    | exact nuv_read_vector
    | exact nuv_read_fin_network_trace _
    | exact NUV.pure _
    | exact NUV.rdErr _ (fun v m h => ParseErr.noConfusion h)
    | exact nuv_read_i32
    | exact nuv_read_i64
    | exact nuv_read_i8
    | exact nuv_read_u8
    | exact nuv_read_u16
    | exact nuv_read_u32
    | exact nuv_read_u64
    | exact nuv_read_f32
    | exact nuv_read_f64
    | exact nuv_read_length_prefixed_string
    | exact nuv_seek_length_prefixed_string
    | exact nuv_stream_position
    | exact nuv_read_hex _
    | exact nuv_read_bytes _
    | exact nuv_read_u16_units _
    | exact nuv_seek_relative _
    | refine nuv_repN _ _ ?_
    | refine nuv_foldN _ _ (fun s => ?_) _
    | refine nuv_foldBrN _ _ (fun s => ?_) _
    | refine nuv_whileSome _ _ ?_
    | refine NUV.ite _ ?_ ?_
    | refine NUV.pmatch _ fun a b => ?_
    | refine NUV.bind ?_ fun a => ?_

theorem NUV.omatch {α β : Type} (o : Option β) {f : β → Rd α} {g : Rd α}
    (hf : ∀ b, NUV (f b)) (hg : NUV g) :
    NUV (match o with | some b => f b | none => g) := by
  rcases o with _ | b
  · exact hg
  · exact hf b

theorem NUV.pmatch3 {α a b c : Type} (x : a × b × c)
    {k : a → b → c → Rd α} (hk : ∀ p q r, NUV (k p q r)) :
    NUV (match x with | (p, q, r) => k p q r) := by
  rcases x with ⟨p, q, r⟩
  exact hk p q r

theorem NUV.pmatch5 {α a b c d e : Type} (x : a × b × c × d × e)
    {k : a → b → c → d → e → Rd α}
    (hk : ∀ p q r s t, NUV (k p q r s t)) :
    NUV (match x with | (p, q, r, s, t) => k p q r s t) := by
  rcases x with ⟨p, q, r, s, t⟩
  exact hk p q r s t

set_option maxHeartbeats 4000000 in
/-- No decoder of the mutual property engine can produce the version-gate
error, at any fuel. -/
theorem nuv_engine : ∀ f,
    (∀ header pt, NUV (read_property f header pt)) ∧
    (∀ header pt name, NUV (read_property_tail f header pt name)) ∧
    (∀ ne header, NUV (read_array_property_struct f ne header)) ∧
    (∀ pn header, NUV (read_array_property f pn header)) ∧
    (∀ pn pt header, NUV (read_map_property f pn pt header)) ∧
    (∀ pt header, NUV (read_struct_property f pt header)) ∧
    (∀ header pt, NUV (read_fin_lua_processor_state_storage f header pt)) := by
  intro f
  induction f with
  | zero =>
    refine ⟨fun _ _ => ?_, fun _ _ _ => ?_, fun _ _ => ?_, fun _ _ => ?_,
      fun _ _ _ => ?_, fun _ _ => ?_, fun _ _ => ?_⟩ <;>
      exact NUV.rdErr _ (fun v m h => ParseErr.noConfusion h)
  | succ f ih =>
    obtain ⟨ihp, ihpt, ihaps, ihap, ihmp, ihsp, ihfl⟩ := ih
    refine ⟨?_, ?_, ?_, ?_, ?_, ?_, ?_⟩
    · intro header pt
      unfold Convey.read_property
      repeat'
        first
        | exact NUV.pure _
        | exact NUV.rdErr _ (fun v m h => ParseErr.noConfusion h)
        | exact nuv_read_length_prefixed_string
        | exact ihpt _ _ _
        | refine NUV.ite _ ?_ ?_
        | refine NUV.pmatch5 _ fun a b c d e => ?_
        | refine NUV.bind ?_ fun a => ?_
    · intro header pt name
      unfold Convey.read_property_tail
      repeat'
        first
        | exact NUV.pure _
        | exact NUV.rdErr _ (fun v m h => ParseErr.noConfusion h)
        | exact nuv_read_u8
        | exact nuv_seek_relative _
        | exact nuv_read_length_prefixed_string
        | exact nuv_read_i32
        | exact nuv_read_i8
        | exact nuv_read_i64
        | exact nuv_read_u32
        | exact nuv_read_u64
        | exact nuv_read_f32
        | exact nuv_read_f64
        | exact nuv_read_property_guid
        | exact nuv_read_object_reference _
        | exact ihap _ _
        | exact ihmp _ _ _
        | exact ihsp _ _
        | exact nuv_read_set_property _ _ _
        | exact (nuv_text_property_argument _).1 _
        | refine NUV.ite _ ?_ ?_
        | refine NUV.pmatch _ fun a b => ?_
        | refine NUV.bind ?_ fun a => ?_
    · intro ne header
      unfold Convey.read_array_property_struct
      repeat'
        first
        | exact NUV.pure _
        | exact NUV.rdErr _ (fun v m h => ParseErr.noConfusion h)
        | exact nuv_seek_length_prefixed_string
        | exact nuv_read_i32
        | exact nuv_seek_relative _
        | exact nuv_read_length_prefixed_string
        | exact nuv_read_hex _
        | exact nuv_read_fin_network_trace _
        | exact nuv_read_vector_double
        | exact nuv_read_color
        | exact nuv_read_fingput1_buffer_pixel
        | exact ihp _ _
        | refine nuv_repN _ _ ?_
        | refine nuv_whileSome _ _ ?_
        | refine NUV.ite _ ?_ ?_
        | refine NUV.bind ?_ fun a => ?_
    · intro pn header
      unfold Convey.read_array_property
      repeat'
        first
        | exact NUV.pure _
        | exact NUV.rdErr _ (fun v m h => ParseErr.noConfusion h)
        | exact nuv_read_length_prefixed_string
        | exact nuv_seek_relative _
        | exact nuv_read_i32
        | exact nuv_read_u8
        | exact nuv_read_i64
        | exact nuv_read_f32
        | exact (nuv_text_property_argument _).1 _
        | exact nuv_read_object_reference _
        | exact nuv_read_fog_group
        | exact ihaps _ _
        | refine nuv_repN _ _ ?_
        | refine NUV.ite _ ?_ ?_
        | refine NUV.pmatch _ fun a b => ?_
        | refine NUV.bind ?_ fun a => ?_
    · intro pn pt header
      unfold Convey.read_map_property
      repeat'
        first
        | exact NUV.pure _
        | exact NUV.rdErr _ (fun v m h => ParseErr.noConfusion h)
        | exact nuv_read_length_prefixed_string
        | exact nuv_read_i32
        | exact nuv_read_u8
        | exact nuv_read_i64
        | exact nuv_read_f32
        | exact nuv_read_f64
        | exact nuv_read_hex _
        | exact nuv_seek_relative _
        | exact nuv_read_object_reference _
        | exact nuv_read_vector
        | exact nuv_read_vector_double
        | exact nuv_read_vector_int
        | exact ihp _ _
        | refine nuv_foldBrN _ _ (fun s => ?_) _
        | refine nuv_whileSome _ _ ?_
        | refine NUV.ite _ ?_ ?_
        | refine NUV.pmatch3 _ fun a b c => ?_
        | refine NUV.bind ?_ fun a => ?_
    · intro pt header
      unfold Convey.read_struct_property
      repeat'
        first
        | exact NUV.pure _
        | exact NUV.rdErr _ (fun v m h => ParseErr.noConfusion h)
        | exact nuv_read_length_prefixed_string
        | exact nuv_seek_relative _
        | exact nuv_read_color_byte
        | exact nuv_read_color
        | exact nuv_read_vector_double
        | exact nuv_read_vector
        | exact nuv_read_vector2d_double
        | exact nuv_read_vector4_int
        | exact nuv_read_quaternion_double
        | exact nuv_read_vector4_double
        | exact nuv_read_u8
        | exact nuv_read_f32
        | exact nuv_read_i64
        | exact nuv_read_i32
        | exact nuv_read_hex _
        | exact nuv_read_object_reference _
        | exact nuv_read_fin_network_trace _
        | exact ihfl _ _
        | exact nuv_read_vector2d_int
        | exact ihp _ _
        | refine nuv_whileSome _ _ ?_
        | refine NUV.ite _ ?_ ?_
        | refine NUV.omatch _ (fun b => ?_) ?_
        | refine NUV.bind ?_ fun a => ?_
      rcases a with _ | pp
      · exact NUV.rdErr _ (fun v m h => ParseErr.noConfusion h)
      · exact NUV.pure _
    · intro header pt
      unfold Convey.read_fin_lua_processor_state_storage
      repeat'
        first
        | exact NUV.pure _
        | exact NUV.rdErr _ (fun v m h => ParseErr.noConfusion h)
        | exact nuv_read_i32
        | exact nuv_read_length_prefixed_string
        | exact nuv_read_hex _
        | exact nuv_read_fin_network_trace _
        | exact nuv_read_object_reference _
        | exact nuv_read_vector
        | exact nuv_read_color
        | exact nuv_read_fingput1_buffer_pixel
        | exact ihsp _ _
        | refine nuv_repN _ _ ?_
        | refine NUV.ite _ ?_ ?_
        | refine NUV.pmatch _ fun a b => ?_
        | refine NUV.bind ?_ fun a => ?_

theorem nuv_finish_object (tp : RStr) (sb : Nat) (sz : Int) (obj : Object) :
    NUV (finish_object tp sb sz obj) := by
  intro bs p v m
  have hfo : finish_object tp sb sz obj bs p =
      (if sb + uval64 sz < p then (rdErr (.objectLength tp) : Rd Object)
       else if sb + uval64 sz - p > 4 then
         (if (encStr "/Script/FactoryGame.FG").isPrefixOf tp then
            seek_relative 8 >>= fun _ => pure obj
          else read_hex (sb + uval64 sz - p) >>= fun _skipped =>
            (pure () : Rd Unit) >>= fun _ => pure obj)
       else seek_relative 4 >>= fun _ => pure obj) bs p := rfl
  rw [hfo]
  by_cases h1 : sb + uval64 sz < p
  · rw [if_pos h1]
    exact NUV.rdErr _ (fun v m h => ParseErr.noConfusion h) bs p v m
  · rw [if_neg h1]
    by_cases h2 : sb + uval64 sz - p > 4
    · rw [if_pos h2]
      by_cases h3 : (encStr "/Script/FactoryGame.FG").isPrefixOf tp
      · rw [if_pos h3]
        exact NUV.bind (nuv_seek_relative 8) (fun _ => NUV.pure obj) bs p v m
      · rw [if_neg h3]
        exact NUV.bind (nuv_read_hex _)
          (fun s => NUV.bind (NUV.pure ()) (fun _ => NUV.pure obj)) bs p v m
    · rw [if_neg h2]
      exact NUV.bind (nuv_seek_relative 4) (fun _ => NUV.pure obj) bs p v m

theorem nuv_read_object (f : Nat) (oh : ObjectHeader) (hdr : Header) :
    NUV (read_object f oh hdr) := by
  rcases oh with ch | ah <;>
  · unfold Convey.read_object
    repeat'
      first
      | exact NUV.pure _
      | exact NUV.rdErr _ (fun v m h => ParseErr.noConfusion h)
      | exact nuv_read_i32
      | exact nuv_seek_relative _
      | exact nuv_stream_position
      | exact nuv_read_length_prefixed_string
      | exact nuv_read_object_reference _
      | exact (nuv_engine f).1 _ _
      | exact nuv_finish_object _ _ _ _
      | refine nuv_repN _ _ ?_
      | refine nuv_whileSome _ _ ?_
      | refine NUV.ite _ ?_ ?_
      | refine NUV.bind ?_ fun a => ?_

theorem nuv_read_objects_loop (f : Nat) (nm : RStr) (hdrs : List ObjectHeader)
    (hdr : Header) : ∀ k i, NUV (read_objects_loop f nm hdrs hdr k i) := by
  intro k
  induction k with
  | zero => exact fun i => NUV.pure []
  | succ k ih =>
    intro i
    unfold Convey.read_objects_loop
    rcases hdrs.get? i with _ | oh
    · exact NUV.rdErr _ (fun v m h => ParseErr.noConfusion h)
    · exact NUV.bind (nuv_read_object f oh hdr) fun o =>
        NUV.bind (ih (i+1)) fun rest => NUV.pure _

theorem nuv_read_level (f : Nat) (i : Int) (il : Bool) (hdr : Header) :
    NUV (read_level f i il hdr) := by
  unfold Convey.read_level
  repeat'
    first
    | exact NUV.pure _
    | exact NUV.rdErr _ (fun v m h => ParseErr.noConfusion h)
    | exact nuv_read_i32
    | exact nuv_read_i64
    | exact nuv_seek_relative _
    | exact nuv_stream_position
    | exact nuv_read_length_prefixed_string
    | exact nuv_seek_length_prefixed_string
    | exact nuv_read_level_object_header _
    | exact nuv_read_object_reference _
    | exact nuv_read_objects_loop _ _ _ _ _ _
    | refine nuv_repN _ _ ?_
    | refine NUV.ite _ ?_ ?_
    | refine NUV.bind ?_ fun a => ?_

theorem nuv_read_levels_loop (f : Nat) (hdr : Header) (nl : Int) :
    ∀ k i, NUV (read_levels_loop f hdr nl k i) := by
  intro k
  induction k with
  | zero => exact fun i => NUV.pure []
  | succ k ih =>
    intro i
    unfold Convey.read_levels_loop
    exact NUV.bind (nuv_read_level _ _ _ _) fun lvl =>
      NUV.bind (ih (i+1)) fun rest => NUV.pure _

theorem nuv_read_levels (f : Nat) (hdr : Header) : NUV (read_levels f hdr) := by
  unfold Convey.read_levels
  exact NUV.bind nuv_read_i32 fun n => nuv_read_levels_loop _ _ _ _ _

theorem nuv_read_body (f : Nat) (hdr : Header) : NUV (read_body f hdr) := by
  unfold Convey.read_body
  exact NUV.bind (nuv_seek_relative 8) fun _ =>
    NUV.bind nuv_read_partitions fun parts =>
    NUV.bind (nuv_read_levels f hdr) fun lvls => NUV.pure _

/-- `read_file` after a successful header decode: the version gate, then
the body. -/
theorem read_file_model_header_ok (f : Nat) (fb bb : List Nat)
    (hdr : Header) (q : Nat) (hh : read_header fb 0 = .ok (hdr, q)) :
    read_file_model f fb bb =
      (if hdr.save_file_version < MIN_SAVE_FILE_VERSION then
        Except.error (ParseErr.unsupportedFileVersion hdr.save_file_version
          MIN_SAVE_FILE_VERSION)
      else
        match read_body f hdr bb 0 with
        | .ok ((partitions, levels), _) => .ok (Save.mk hdr partitions levels)
        | .error e => .error e) := by
  unfold read_file_model
  rw [hh]

/-- Claim C6: `read_file` fails with `UnsupportedVersion(found, min)`
exactly when the header decodes successfully and its `save_file_version` is
below `MIN_SAVE_FILE_VERSION` (42), with `found` the header version and
`min` 42; no other part of decoding can produce that error. -/
theorem c6_version_gate (f : Nat) (fb bb : List Nat) (v m : Int) :
    read_file_model f fb bb = .error (.unsupportedFileVersion v m) ↔
    ∃ hdr q, read_header fb 0 = .ok (hdr, q) ∧
      hdr.save_file_version < MIN_SAVE_FILE_VERSION ∧
      v = hdr.save_file_version ∧ m = MIN_SAVE_FILE_VERSION := by
  constructor
  · intro h
    rcases hh : read_header fb 0 with e | ⟨hdr, q⟩
    · unfold read_file_model at h
      rw [hh] at h
      replace h : Except.error e =
        Except.error (ParseErr.unsupportedFileVersion v m) := h
      injection h with h
      exact absurd (hh.trans (congrArg Except.error h))
        (nuv_read_header fb 0 v m)
    · rw [read_file_model_header_ok f fb bb hdr q hh] at h
      by_cases hv : hdr.save_file_version < MIN_SAVE_FILE_VERSION
      · rw [if_pos hv] at h
        injection h with h
        injection h with h1 h2
        exact ⟨hdr, q, rfl, hv, h1.symm, h2.symm⟩
      · rw [if_neg hv] at h
        rcases hb : read_body f hdr bb 0 with e | ⟨⟨parts, lvls⟩, q2⟩
        · rw [hb] at h
          replace h : Except.error e =
            Except.error (ParseErr.unsupportedFileVersion v m) := h
          injection h with h
          exact absurd (hb.trans (congrArg Except.error h))
            (nuv_read_body f hdr bb 0 v m)
        · rw [hb] at h
          replace h : (Except.ok (Save.mk hdr parts lvls) :
              Except ParseErr Save) =
            Except.error (ParseErr.unsupportedFileVersion v m) := h
          cases h
  · rintro ⟨hdr, q, hh, hv, rfl, rfl⟩
    rw [read_file_model_header_ok f fb bb hdr q hh, if_pos hv]

/-- A header whose `save_file_version` is 41: all other fields zero or
empty. -/
def c6bytes : List Nat :=
  [0,0,0,0] ++ [41,0,0,0] ++ [0,0,0,0] ++
  [0,0,0,0] ++ [0,0,0,0] ++ [0,0,0,0] ++
  [0,0,0,0] ++ [0,0,0,0,0,0,0,0] ++ [0] ++ [0,0,0,0] ++
  [0,0,0,0] ++ [0,0,0,0] ++ [0,0,0,0] ++ [0,0,0,0] ++
  [0,0,0,0,0,0,0,0,0,0,0,0,0,0,0,0,0,0,0,0] ++ [0,0,0,0]

/-- Witness for C6: the version-41 header is rejected by the gate. -/
theorem c6_version_gate_witness :
    read_file_model 1 c6bytes [] =
      .error (.unsupportedFileVersion 41 42) :=
  (c6_version_gate 1 c6bytes [] 41 42).mpr
    ⟨⟨0, 41, 0, [], [], [], 0, 0, 0, 0, [], 0, [], 0,
      [0,0,0,0,0,0,0,0,0,0], 0⟩, 81, by rfl, by decide, rfl, rfl⟩

end Convey
